import Mathlib

/-!
# dwSampleFramework (jieunko/glPractice): device / resource-lifecycle core

A shallow embedding of the parts of `include/vk.h`, `src/application.cpp` and
`sample/main_vk_rt.cpp` that the lifecycle claims are about.

* Machine integers are naturals reduced modulo `2^32` (`uint32_t`) or `2^64`
  (`size_t`) wherever the C++ arithmetic can wrap.
* `std::shared_ptr` values are modelled by identities (`Nat`), a possibly-null
  pointer by `Option`.
* Calls into the `Backend` and into external collaborators are recorded as a
  trace of `Event`s, in program order.
* `vk.h` only declares the `Backend`, `StagingBuffer` and `BatchUploader`
  member functions; their bodies are not part of the sources.  Where a member
  function body is needed it is modelled from the specification and its doc
  comment says so.
-/

namespace dw
namespace vk

/-! ## Constants and machine integers -/

/-- `Backend::kMaxFramesInFlight` (vk.h:69). -/
def kMaxFramesInFlight : Nat := 3

/-- Number of values of a `uint32_t`. -/
def UINT32_MOD : Nat := 4294967296

/-- Number of values of a `size_t` (64-bit build). -/
def SIZE_MOD : Nat := 18446744073709551616

/-- Identity of a `std::shared_ptr<Object>`. -/
abbrev ObjectPtr := Nat

/-! ## Backend: frame slot and deferred deletion queue -/

/-- The per-frame slice of `Backend` (vk.h:198-199, 207): the image index chosen by the
presentation engine, the frame slot, the number of swap images and the deletion
queue of `(object, countdown)` pairs.  `destroyed` is a ghost log of the objects
whose last reference was dropped, in the order in which that happened. -/
structure Backend where
  m_image_index : Nat
  m_current_frame : Nat
  swap_chain_images : Nat
  m_deletion_queue : List (ObjectPtr × Nat)
  destroyed : List ObjectPtr
  deriving DecidableEq, Repr

/-- State of a `Backend` after construction: the default member initialisers of
vk.h:198-199 (`m_image_index = 0`, `m_current_frame = 0`) and an empty
`m_deletion_queue` (vk.h:207), for a swapchain of `n_images` images. -/
def Backend.fresh (n_images : Nat) : Backend :=
  { m_image_index := 0, m_current_frame := 0, swap_chain_images := n_images,
    m_deletion_queue := [], destroyed := [] }

/-- `Backend::current_frame_idx` (vk.h:133). -/
def Backend.current_frame_idx (b : Backend) : Nat := b.m_current_frame

/-- `Backend::swapchain_size` (vk.h:134). -/
def Backend.swapchain_size (b : Backend) : Nat := b.swap_chain_images % UINT32_MOD

/-- Modelled from the spec: the body of `Backend::queue_object_deletion` (declared at
vk.h:126) is not in the sources.  Spec 4.4: it appends an entry with
countdown `kMaxFramesInFlight`. -/
def Backend.queue_object_deletion (b : Backend) (object : ObjectPtr) : Backend :=
  { b with m_deletion_queue := b.m_deletion_queue ++ [(object, kMaxFramesInFlight)] }

/-- A `uint32_t` decrement of the countdown of one queue entry. -/
def decrement_countdown (e : ObjectPtr × Nat) : ObjectPtr × Nat :=
  (e.1, (e.2 + (UINT32_MOD - 1)) % UINT32_MOD)

/-- The test the front scan applies to an entry: its countdown has reached zero. -/
def countdown_expired (e : ObjectPtr × Nat) : Bool := e.2 == 0

/-- Modelled from the spec: the body of `Backend::process_deletion_queue` (declared at
vk.h:125) is not in the sources.  Spec 4.4: it decrements every entry's
countdown and destroys, in FIFO order, every entry whose countdown has reached
zero, contiguously from the front (a linear front scan that stops at the first
entry that is still counting). -/
def Backend.process_deletion_queue (b : Backend) : Backend :=
  let aged := b.m_deletion_queue.map decrement_countdown
  { b with
    m_deletion_queue := aged.dropWhile countdown_expired
    destroyed := b.destroyed ++ (aged.takeWhile countdown_expired).map Prod.fst }

/-- What a full scan of the aged queue would do instead of the front scan: destroy
every entry whose countdown is zero, wherever it stands, and keep the rest. -/
def Backend.process_deletion_queue_full_scan (b : Backend) : Backend :=
  let aged := b.m_deletion_queue.map decrement_countdown
  { b with
    m_deletion_queue := aged.filter (fun e => !countdown_expired e)
    destroyed := b.destroyed ++ (aged.filter countdown_expired).map Prod.fst }

/-- One call on the deletion queue. -/
inductive DeletionOp where
  | queue (object : ObjectPtr)
  | process
  deriving DecidableEq, Repr

/-- Perform one deletion-queue call. -/
def DeletionOp.apply (b : Backend) : DeletionOp → Backend
  | .queue o => b.queue_object_deletion o
  | .process => b.process_deletion_queue

/-- Perform a sequence of deletion-queue calls, first call first. -/
def run_deletion_ops (b : Backend) (ops : List DeletionOp) : Backend :=
  ops.foldl DeletionOp.apply b

/-- Number of `process_deletion_queue` calls in a call sequence. -/
def process_calls : List DeletionOp → Nat
  | [] => 0
  | .queue _ :: rest => process_calls rest
  | .process :: rest => process_calls rest + 1

/-- The entries a call sequence leaves pending, read off the sequence alone: an object
is pending while fewer than `kMaxFramesInFlight` process calls follow its
enqueue, with countdown `kMaxFramesInFlight` minus that number. -/
def pending_after : List DeletionOp → List (ObjectPtr × Nat)
  | [] => []
  | .queue o :: rest =>
      if process_calls rest < kMaxFramesInFlight then
        (o, kMaxFramesInFlight - process_calls rest) :: pending_after rest
      else pending_after rest
  | .process :: rest => pending_after rest

/-- The objects a call sequence has destroyed, read off the sequence alone: those whose
enqueue is followed by at least `kMaxFramesInFlight` process calls, in enqueue order. -/
def destroyed_after : List DeletionOp → List ObjectPtr
  | [] => []
  | .queue o :: rest =>
      if kMaxFramesInFlight ≤ process_calls rest then o :: destroyed_after rest
      else destroyed_after rest
  | .process :: rest => destroyed_after rest

/-- The objects whose enqueue is followed by exactly `k` process calls, in enqueue order. -/
def queued_with_processes (k : Nat) : List DeletionOp → List ObjectPtr
  | [] => []
  | .queue o :: rest =>
      if process_calls rest = k then o :: queued_with_processes k rest
      else queued_with_processes k rest
  | .process :: rest => queued_with_processes k rest

/-- Countdowns are non-decreasing from the front of the queue to the back. -/
def countdowns_sorted (q : List (ObjectPtr × Nat)) : Prop :=
  q.Pairwise (fun a b => a.2 ≤ b.2)

/-- Every countdown lies in `[1, kMaxFramesInFlight]`. -/
def countdowns_in_range (q : List (ObjectPtr × Nat)) : Prop :=
  ∀ e ∈ q, 1 ≤ e.2 ∧ e.2 ≤ kMaxFramesInFlight

/-- Modelled from the spec: the body of `Backend::acquire_next_swap_chain_image`
(declared at vk.h:100) is not in the sources.  Spec 3 and 4.3: the presentation
engine chooses the image index, which is stored in `m_image_index`; the frame
slot is not touched. -/
def Backend.acquire_next_swap_chain_image (b : Backend) (image_index : Nat) : Backend :=
  { b with m_image_index := image_index % UINT32_MOD }

/-- Modelled from the spec: the body of `Backend::present` (declared at vk.h:101) is not
in the sources.  Spec 3 (Frame Slot): at the end of every frame the current slot
advances by `(slot + 1) mod kMaxFramesInFlight`, in `uint32_t` arithmetic. -/
def Backend.present (b : Backend) : Backend :=
  { b with m_current_frame := ((b.m_current_frame + 1) % UINT32_MOD) % kMaxFramesInFlight }

/-- One completed frame as the `Backend` sees it: acquire (the presentation engine
answers `image_index`), then present. -/
def Backend.frame (b : Backend) (image_index : Nat) : Backend :=
  (b.acquire_next_swap_chain_image image_index).present

/-- Consecutive completed frames, one acquired image index per frame. -/
def Backend.frames (b : Backend) (image_indices : List Nat) : Backend :=
  image_indices.foldl Backend.frame b

/-! ## StagingBuffer (vk.h:1013-1036) -/

/-- `StagingBuffer` (vk.h:1032-1035): the mapped region (its bytes, by offset from
`m_mapped_ptr`), the total size and the current bump offset. -/
structure StagingBuffer where
  m_mapped_ptr : Nat → Nat
  m_total_size : Nat
  m_current_size : Nat

/-- `StagingBuffer::remaining_size` (vk.h:1024): `m_total_size - m_current_size` in
`size_t` arithmetic. -/
def StagingBuffer.remaining_size (sb : StagingBuffer) : Nat :=
  (sb.m_total_size + SIZE_MOD - sb.m_current_size) % SIZE_MOD

/-- `StagingBuffer::total_size` (vk.h:1025). -/
def StagingBuffer.total_size (sb : StagingBuffer) : Nat := sb.m_total_size

/-- Modelled from the spec: the body of `StagingBuffer::create` (declared at vk.h:1018)
is not in the sources.  Spec 3 (Staging Buffer): a mapped buffer of the given
capacity with current offset 0 (vk.h:1034). -/
def StagingBuffer.create (size : Nat) : StagingBuffer :=
  { m_mapped_ptr := fun _ => 0, m_total_size := size % SIZE_MOD, m_current_size := 0 }

/-- Modelled from the spec: the body of `StagingBuffer::insert_data` (declared at
vk.h:1021) is not in the sources.  vk.h:1020 and spec 3 and 4.6: it copies the `size`
bytes of `data` into the mapped region at the current bump offset, advances the
offset by `size` and returns the offset of the data from the start of the buffer. -/
def StagingBuffer.insert_data (sb : StagingBuffer) (data : List Nat) : StagingBuffer × Nat :=
  ({ sb with
      m_mapped_ptr := fun a =>
        if sb.m_current_size ≤ a ∧ a < sb.m_current_size + data.length then
          data.getD (a - sb.m_current_size) 0
        else sb.m_mapped_ptr a
      m_current_size := (sb.m_current_size + data.length) % SIZE_MOD },
    sb.m_current_size)

/-- Successive `insert_data` calls on one staging buffer; returns the final buffer and
the byte range `(offset, size)` each insert occupied, in call order. -/
def StagingBuffer.insert_all (sb : StagingBuffer) : List (List Nat) → StagingBuffer × List (Nat × Nat)
  | [] => (sb, [])
  | data :: rest =>
      let r := sb.insert_data data
      let rs := StagingBuffer.insert_all r.1 rest
      (rs.1, (r.2, data.length) :: rs.2)

/-- Total number of bytes of a list of inserts. -/
def total_bytes (datas : List (List Nat)) : Nat := (datas.map List.length).sum

/-! ## BatchUploader (vk.h:1038-1066) -/

/-- A buffer-to-buffer copy recorded in the batch command buffer `m_cmd`: `size` bytes
from offset `src_offset` of a staging buffer to offset `dst_offset` of the destination
buffer `dst`.  A staging buffer is named by its position from the bottom of the
stack (its creation order); a destination buffer by its identity. -/
structure BufferCopy where
  src : Nat
  src_offset : Nat
  dst : Nat
  dst_offset : Nat
  size : Nat
  deriving DecidableEq, Repr

/-- Contents of the destination buffers: buffer identity, byte offset, byte. -/
abbrev DeviceMemory := Nat → Nat → Nat

/-- `BatchUploader` (vk.h:1062-1065): the commands recorded in `m_cmd` and the stack
`m_staging_buffers`, bottom first (the top of the `std::stack` is the last element).
`staging_capacity` is the size a fresh staging buffer is given when the upload is
not larger than that. -/
structure BatchUploader where
  staging_capacity : Nat
  m_cmd : List BufferCopy
  m_staging_buffers : List StagingBuffer

/-- One `upload_buffer_data(buffer, data, offset, size)` request; `size` is the length
of `data`. -/
structure Upload where
  buffer : Nat
  data : List Nat
  offset : Nat
  deriving DecidableEq, Repr

/-- Modelled from the spec: the constructor `BatchUploader::BatchUploader` (declared at
vk.h:1049) is not in the sources.  Spec 4.6: one command buffer, begun and still
empty; no staging buffer yet. -/
def BatchUploader.create (staging_capacity : Nat) : BatchUploader :=
  { staging_capacity := staging_capacity, m_cmd := [], m_staging_buffers := [] }

/-- The staging buffer on top of the stack, if any. -/
def BatchUploader.top (u : BatchUploader) : Option StagingBuffer :=
  u.m_staging_buffers[u.m_staging_buffers.length - 1]?

/-- Modelled from the spec: part of `BatchUploader::insert_data` (declared at vk.h:1058),
not in the sources.  Spec 4.6: a staging buffer with sufficient remaining capacity
must exist; none does when the stack is empty or when the top buffer's
`remaining_size()` is smaller than the upload. -/
def BatchUploader.needs_staging_buffer (u : BatchUploader) (size : Nat) : Bool :=
  match u.top with
  | none => true
  | some top => decide (top.remaining_size < size)

/-- Modelled from the spec: the body of `BatchUploader::add_staging_buffer` (declared at
vk.h:1059) is not in the sources.  Spec 4.6: a new staging buffer, large enough for
the upload, is allocated and pushed; the buffers already on the stack stay. -/
def BatchUploader.add_staging_buffer (u : BatchUploader) (size : Nat) : BatchUploader :=
  { u with
    m_staging_buffers :=
      u.m_staging_buffers ++ [StagingBuffer.create (max size u.staging_capacity)] }

/-- Modelled from the spec: the body of `BatchUploader::insert_data` (declared at
vk.h:1058) is not in the sources.  Spec 4.6: ensure a staging buffer with
sufficient remaining capacity, then copy the data into the top buffer at its bump
offset.  Returns the uploader, the staging buffer used and the offset of the data. -/
def BatchUploader.insert_data (u : BatchUploader) (data : List Nat) :
    BatchUploader × Nat × Nat :=
  let u1 := if u.needs_staging_buffer data.length then u.add_staging_buffer data.length else u
  match u1.top with
  | none => (u1, 0, 0)
  | some top =>
      let r := top.insert_data data
      ({ u1 with
          m_staging_buffers :=
            u1.m_staging_buffers.set (u1.m_staging_buffers.length - 1) r.1 },
        u1.m_staging_buffers.length - 1, r.2)

/-- Modelled from the spec: the body of `BatchUploader::upload_buffer_data` (declared at
vk.h:1052) is not in the sources.  Spec 4.6: stage the data, then record a copy from
the staging offset into the destination buffer at the requested offset. -/
def BatchUploader.upload_buffer_data (u : BatchUploader) (up : Upload) : BatchUploader :=
  let r := u.insert_data up.data
  { r.1 with
    m_cmd := r.1.m_cmd ++
      [{ src := r.2.1, src_offset := r.2.2, dst := up.buffer, dst_offset := up.offset,
         size := up.data.length }] }

/-- The byte at offset `a` of the `i`-th staging buffer of a stack. -/
def staging_read (stack : List StagingBuffer) (i a : Nat) : Nat :=
  match stack[i]? with
  | some sb => sb.m_mapped_ptr a
  | none => 0

/-- Effect of one recorded copy on the destination buffers when the device runs it. -/
def exec_copy (stack : List StagingBuffer) (mem : DeviceMemory) (c : BufferCopy) :
    DeviceMemory :=
  fun b a =>
    if b = c.dst ∧ c.dst_offset ≤ a ∧ a < c.dst_offset + c.size then
      staging_read stack c.src (c.src_offset + (a - c.dst_offset))
    else mem b a

/-- Modelled from the spec: the body of `BatchUploader::submit` (declared at vk.h:1055) is
not in the sources.  Spec 4.6: the command buffer is submitted and waited for (the
device runs the recorded copies in order), then all staging buffers are released. -/
def BatchUploader.submit (u : BatchUploader) (mem : DeviceMemory) :
    BatchUploader × DeviceMemory :=
  ({ u with m_cmd := [], m_staging_buffers := [] },
    u.m_cmd.foldl (exec_copy u.m_staging_buffers) mem)

/-- A sequence of `upload_buffer_data` calls on one uploader, first call first. -/
def BatchUploader.upload_all (u : BatchUploader) (uploads : List Upload) : BatchUploader :=
  uploads.foldl BatchUploader.upload_buffer_data u

/-- Writing the source bytes of an upload straight to their destination range. -/
def write_direct (mem : DeviceMemory) (up : Upload) : DeviceMemory :=
  fun b a =>
    if b = up.buffer ∧ up.offset ≤ a ∧ a < up.offset + up.data.length then
      up.data.getD (a - up.offset) 0
    else mem b a

/-- Byte `a` of buffer `b` lies in the destination range of the upload. -/
def Upload.covers (up : Upload) (b a : Nat) : Bool :=
  decide (b = up.buffer ∧ up.offset ≤ a ∧ a < up.offset + up.data.length)

/-- Every staging buffer of the stack has its bump offset within its capacity, and the
capacity is a `size_t` value. -/
def stack_wf (stack : List StagingBuffer) : Prop :=
  ∀ sb ∈ stack, sb.m_current_size ≤ sb.m_total_size ∧ sb.m_total_size < SIZE_MOD

/-- The source range of a recorded copy lies in the filled part of its staging buffer. -/
def copy_in_bounds (stack : List StagingBuffer) (c : BufferCopy) : Prop :=
  ∃ sb, stack[c.src]? = some sb ∧ c.src_offset + c.size ≤ sb.m_current_size

/-- Every staging buffer of `stack` is still in `stack2` at the same position, with the
same capacity, with a bump offset that has not decreased and with the bytes below its
old bump offset unchanged. -/
def stack_extends (stack stack2 : List StagingBuffer) : Prop :=
  ∀ (i : Nat) (sb : StagingBuffer), stack[i]? = some sb →
    ∃ sb2 : StagingBuffer, stack2[i]? = some sb2 ∧ sb.m_current_size ≤ sb2.m_current_size ∧
      sb2.m_total_size = sb.m_total_size ∧
      ∀ a, a < sb.m_current_size → sb2.m_mapped_ptr a = sb.m_mapped_ptr a

/-- Invariant of an uploader that has served `uploads`: the stack is well formed, every
recorded copy reads from the filled part of a staging buffer, and running the
recorded copies has the effect of writing the uploads directly, in order. -/
def uploader_inv (u : BatchUploader) (uploads : List Upload) : Prop :=
  stack_wf u.m_staging_buffers ∧ u.staging_capacity < SIZE_MOD ∧
    (∀ c ∈ u.m_cmd, copy_in_bounds u.m_staging_buffers c) ∧
    ∀ mem : DeviceMemory,
      u.m_cmd.foldl (exec_copy u.m_staging_buffers) mem = uploads.foldl write_direct mem

/-! ## Device selection (vk.h:45-64, 152-155) -/

/-- `QueueInfos` (vk.h:45-64) with its default member initialisers; the array `infos` of
queue create infos is left out.  Quality: 3 most ideal, 2 second most ideal, 1 queue
for minimum functionality, 0 not found. -/
structure QueueInfos where
  graphics_queue_index : Int := -1
  graphics_queue_quality : Int := 0
  compute_queue_index : Int := -1
  compute_queue_quality : Int := 0
  transfer_queue_index : Int := -1
  transfer_queue_quality : Int := 0
  presentation_queue_index : Int := -1
  queue_count : Int := 0
  deriving DecidableEq, Repr

/-- `VkPhysicalDeviceType`. -/
inductive PhysicalDeviceType where
  | other
  | integrated_gpu
  | discrete_gpu
  | virtual_gpu
  | cpu
  deriving DecidableEq, Repr

/-- What the driver reports for one queue family: the `VkQueueFlags` bit mask
(`VK_QUEUE_GRAPHICS_BIT = 1`, `VK_QUEUE_COMPUTE_BIT = 2`, `VK_QUEUE_TRANSFER_BIT = 4`),
the number of queues and whether the family can present to the surface. -/
structure QueueFamily where
  queueFlags : Nat
  queueCount : Nat
  present_support : Bool
  deriving DecidableEq, Repr

/-- What the driver reports for one enumerated physical device. -/
structure PhysicalDevice where
  handle : Nat
  device_type : PhysicalDeviceType
  supported_extensions : List String
  surface_formats : Nat
  surface_present_modes : Nat
  queue_families : List QueueFamily
  ray_tracing_pipeline : Bool
  acceleration_structure : Bool
  deriving DecidableEq, Repr

/-- One requirement of `is_queue_compatible`: 1 the capability must be there, 0 it must
not be there, anything else does not matter. -/
def capability_matches (has : Bool) (need : Int) : Bool :=
  if need = 1 then has else if need = 0 then !has else true

/-- Modelled from the spec: the body of `Backend::is_queue_compatible` (declared at
vk.h:155) is not in the sources.  Spec 4.1: a family is judged by which of the
graphics, compute and transfer capability bits it exposes. -/
def is_queue_compatible (current_queue_flags : Nat) (graphics compute transfer : Int) : Bool :=
  capability_matches (current_queue_flags.testBit 0) graphics &&
  capability_matches (current_queue_flags.testBit 1) compute &&
  capability_matches (current_queue_flags.testBit 2) transfer

/-- Modelled from the spec: scoring policy of spec 4.1 for the graphics role: 3 if the family
exposes graphics and neither competing capability, 2 if it shares with one other
role, 1 if it is the do-everything family, 0 if it has no graphics capability. -/
def graphics_quality (flags : Nat) : Int :=
  if is_queue_compatible flags 1 0 0 then 3
  else if is_queue_compatible flags 1 1 0 || is_queue_compatible flags 1 0 1 then 2
  else if is_queue_compatible flags 1 1 1 then 1
  else 0

/-- Modelled from the spec: scoring policy of spec 4.1 for the compute role. -/
def compute_quality (flags : Nat) : Int :=
  if is_queue_compatible flags 0 1 0 then 3
  else if is_queue_compatible flags 0 1 1 || is_queue_compatible flags 1 1 0 then 2
  else if is_queue_compatible flags 1 1 1 then 1
  else 0

/-- Modelled from the spec: scoring policy of spec 4.1 for the transfer role. -/
def transfer_quality (flags : Nat) : Int :=
  if is_queue_compatible flags 0 0 1 then 3
  else if is_queue_compatible flags 0 1 1 || is_queue_compatible flags 1 0 1 then 2
  else if is_queue_compatible flags 1 1 1 then 1
  else 0

/-- One iteration of the family loop of `find_queues`, for family number `i`: a family
with queues that can present becomes the presentation family if none was found yet,
and it replaces the family chosen for a role when it scores strictly better there. -/
def find_queues_step (infos : QueueInfos) (i : Nat) (fam : QueueFamily) : QueueInfos :=
  if fam.queueCount = 0 then infos
  else
    let infos1 :=
      if fam.present_support && infos.presentation_queue_index == -1 then
        { infos with presentation_queue_index := (i : Int) }
      else infos
    let infos2 :=
      if infos1.graphics_queue_quality < graphics_quality fam.queueFlags then
        { infos1 with graphics_queue_index := (i : Int)
                      graphics_queue_quality := graphics_quality fam.queueFlags }
      else infos1
    let infos3 :=
      if infos2.compute_queue_quality < compute_quality fam.queueFlags then
        { infos2 with compute_queue_index := (i : Int)
                      compute_queue_quality := compute_quality fam.queueFlags }
      else infos2
    if infos3.transfer_queue_quality < transfer_quality fam.queueFlags then
      { infos3 with transfer_queue_index := (i : Int)
                    transfer_queue_quality := transfer_quality fam.queueFlags }
    else infos3

/-- The family loop of `find_queues` from family number `i` on. -/
def find_queues_loop (infos : QueueInfos) (i : Nat) : List QueueFamily → QueueInfos
  | [] => infos
  | fam :: rest => find_queues_loop (find_queues_step infos i fam) (i + 1) rest

/-- Modelled from the spec: the body of `Backend::find_queues` (declared at vk.h:154) is not
in the sources.  Spec 3 and 4.1: score every family of the device for every role
starting from a default `QueueInfos`; the device is usable when a graphics
queue is present (quality 0 means absent) and some family can present. -/
def find_queues (device : PhysicalDevice) : Bool × QueueInfos :=
  let infos := find_queues_loop {} 0 device.queue_families
  (infos.graphics_queue_quality != 0 && infos.presentation_queue_index != -1, infos)

/-- Modelled from the spec: `Backend::check_device_extension_support` (declared at
vk.h:146), not in the sources: every required extension is reported by the device. -/
def check_device_extension_support (device : PhysicalDevice) (extensions : List String) : Bool :=
  extensions.all (fun e => device.supported_extensions.contains e)

/-- Modelled from the spec: the body of `Backend::is_device_suitable` (declared at vk.h:153)
is not in the sources.  Spec 4.1: the device has the type being tried, reports the
required extensions, has adequate swapchain support (a surface format and a present
mode), has a graphics queue and a presenting family and, if ray tracing is required,
the ray-tracing pipeline and acceleration-structure features. -/
def is_device_suitable (device : PhysicalDevice) (type : PhysicalDeviceType)
    (extensions : List String) (require_ray_tracing : Bool) : Option QueueInfos :=
  if device.device_type = type ∧ check_device_extension_support device extensions = true ∧
      0 < device.surface_formats ∧ 0 < device.surface_present_modes ∧
      (find_queues device).1 = true ∧
      (require_ray_tracing = true →
        device.ray_tracing_pipeline = true ∧ device.acceleration_structure = true) then
    some (find_queues device).2
  else none

/-- The first device of the list, in enumeration order, that is suitable as a device of
the given type. -/
def first_suitable (type : PhysicalDeviceType) (extensions : List String)
    (require_ray_tracing : Bool) : List PhysicalDevice → Option (PhysicalDevice × QueueInfos)
  | [] => none
  | d :: rest =>
      match is_device_suitable d type extensions require_ray_tracing with
      | some infos => some (d, infos)
      | none => first_suitable type extensions require_ray_tracing rest

/-- The device types in the order in which they are tried (spec 4.1: discrete first). -/
def device_type_preference : List PhysicalDeviceType :=
  [.discrete_gpu, .integrated_gpu, .virtual_gpu, .cpu]

/-- Try the device types in the given order; the first type with a suitable device wins. -/
def try_device_types (devices : List PhysicalDevice) (extensions : List String)
    (require_ray_tracing : Bool) : List PhysicalDeviceType → Option (PhysicalDevice × QueueInfos)
  | [] => none
  | type :: rest =>
      match first_suitable type extensions require_ray_tracing devices with
      | some r => some r
      | none => try_device_types devices extensions require_ray_tracing rest

/-- Modelled from the spec: the body of `Backend::find_physical_device` (declared at
vk.h:152) is not in the sources.  Spec 4.1: discrete GPUs are tried before
integrated, virtual and CPU devices; within one type the first device that meets the
requirements is committed; `none` when no candidate does. -/
def find_physical_device (devices : List PhysicalDevice) (extensions : List String)
    (require_ray_tracing : Bool) : Option (PhysicalDevice × QueueInfos) :=
  try_device_types devices extensions require_ray_tracing device_type_preference

/-- Why `Backend::create` failed (spec 7, initialization failures). -/
inductive InitError where
  | ValidationLayerUnavailable
  | SurfaceCreationFailed
  | NoSuitableDeviceError
  | LogicalDeviceCreationFailed
  | SwapchainCreationFailed
  deriving DecidableEq, Repr

/-- What the platform answers to the initialisation steps of `Backend::create`. -/
structure Platform where
  validation_layers_available : Bool
  surface_created : Bool
  devices : List PhysicalDevice
  logical_device_created : Bool
  swapchain_created : Bool
  deriving DecidableEq, Repr

/-- A fully initialised device context: the committed device, its queue selection and
the creation flags. -/
structure DeviceContext where
  physical_device : PhysicalDevice
  m_selected_queues : QueueInfos
  m_vsync : Bool
  m_srgb_swapchain : Bool
  m_ray_tracing_enabled : Bool
  deriving DecidableEq, Repr

/-- Modelled from the spec: the body of `Backend::create` (declared at vk.h:73) is not in
the sources.  Spec 6 and 7: validation layers (when requested), surface, device
selection, logical device and swapchain are set up in turn; any failure is a failed
construction with no partial context, otherwise the device context is returned.
The parameter list and its default arguments (`enable_validation_layers = false`,
`require_ray_tracing = false`, an empty extension list) are those of the declaration
at vk.h:73; `platform` stands for the window and the machine behind it. -/
def Backend.create (platform : Platform) (vsync srgb_swapchain : Bool)
    (enable_validation_layers : Bool := false) (require_ray_tracing : Bool := false)
    (additional_device_extensions : List String := []) :
    Except InitError DeviceContext :=
  if enable_validation_layers && !platform.validation_layers_available then
    .error .ValidationLayerUnavailable
  else if !platform.surface_created then .error .SurfaceCreationFailed
  else
    match find_physical_device platform.devices additional_device_extensions
        require_ray_tracing with
    | none => .error .NoSuitableDeviceError
    | some (device, infos) =>
        if !platform.logical_device_created then .error .LogicalDeviceCreationFailed
        else if !platform.swapchain_created then .error .SwapchainCreationFailed
        else
          .ok { physical_device := device, m_selected_queues := infos, m_vsync := vsync,
                m_srgb_swapchain := srgb_swapchain,
                m_ray_tracing_enabled := require_ray_tracing }

/-- A discrete GPU with one do-everything family that can present, and the ray-tracing
features; used to exercise device selection. -/
def example_discrete_gpu : PhysicalDevice :=
  { handle := 1, device_type := .discrete_gpu, supported_extensions := ["VK_KHR_swapchain"],
    surface_formats := 2, surface_present_modes := 2,
    queue_families := [⟨7, 16, true⟩, ⟨4, 2, false⟩],
    ray_tracing_pipeline := true, acceleration_structure := true }

/-- An integrated GPU without the acceleration-structure feature. -/
def example_integrated_gpu : PhysicalDevice :=
  { handle := 2, device_type := .integrated_gpu, supported_extensions := ["VK_KHR_swapchain"],
    surface_formats := 1, surface_present_modes := 1,
    queue_families := [⟨7, 1, true⟩],
    ray_tracing_pipeline := true, acceleration_structure := false }

/-- The queue selection `find_queues` makes on `example_discrete_gpu`. -/
def example_queue_infos : QueueInfos :=
  { graphics_queue_index := 0, graphics_queue_quality := 1, compute_queue_index := 0,
    compute_queue_quality := 1, transfer_queue_index := 1, transfer_queue_quality := 3,
    presentation_queue_index := 0, queue_count := 0 }

/-! ## Swapchain negotiation (vk.h:38-43, 111, 157-161) -/

/-- `VkExtent2D`. -/
structure VkExtent2D where
  width : Nat
  height : Nat
  deriving DecidableEq, Repr

/-- `VkSurfaceFormatKHR`. -/
structure VkSurfaceFormatKHR where
  format : Nat
  colorSpace : Nat
  deriving DecidableEq, Repr

/-- The members of `VkSurfaceCapabilitiesKHR` that swapchain negotiation reads. -/
structure VkSurfaceCapabilitiesKHR where
  minImageCount : Nat
  maxImageCount : Nat
  currentExtent : VkExtent2D
  minImageExtent : VkExtent2D
  maxImageExtent : VkExtent2D
  deriving DecidableEq, Repr

/-- `SwapChainSupportDetails` (vk.h:38-43). -/
structure SwapChainSupportDetails where
  capabilities : VkSurfaceCapabilitiesKHR
  format : List VkSurfaceFormatKHR
  present_modes : List Nat
  deriving DecidableEq, Repr

/-- What the window system reports when a swapchain is negotiated: the support details of
the surface and the framebuffer size of the window. -/
structure Surface where
  details : SwapChainSupportDetails
  framebuffer_width : Nat
  framebuffer_height : Nat
  deriving DecidableEq, Repr

/-- `VK_FORMAT_UNDEFINED`. -/
def VK_FORMAT_UNDEFINED : Nat := 0

/-- `VK_FORMAT_B8G8R8A8_UNORM`. -/
def VK_FORMAT_B8G8R8A8_UNORM : Nat := 44

/-- `VK_FORMAT_B8G8R8A8_SRGB`. -/
def VK_FORMAT_B8G8R8A8_SRGB : Nat := 50

/-- `VK_COLOR_SPACE_SRGB_NONLINEAR_KHR`. -/
def VK_COLOR_SPACE_SRGB_NONLINEAR_KHR : Nat := 0

/-- `VK_PRESENT_MODE_IMMEDIATE_KHR`. -/
def VK_PRESENT_MODE_IMMEDIATE_KHR : Nat := 0

/-- `VK_PRESENT_MODE_MAILBOX_KHR`. -/
def VK_PRESENT_MODE_MAILBOX_KHR : Nat := 1

/-- `VK_PRESENT_MODE_FIFO_KHR`, the mode every surface supports. -/
def VK_PRESENT_MODE_FIFO_KHR : Nat := 2

/-- The width a surface reports in `currentExtent` when any size is allowed
(`0xFFFFFFFF`). -/
def UINT32_MAX : Nat := 4294967295

/-- Clamp `v` into `[lo, hi]`. -/
def clamp (v lo hi : Nat) : Nat := max lo (min hi v)

/-- Modelled from the spec: the body of `Backend::choose_swap_surface_format` (declared at
vk.h:159) is not in the sources.  Spec 4.2: the SRGB-aware 32-bit format is
preferred if present (the sRGB one when an sRGB swapchain was asked for), else the
first available format is taken. -/
def choose_swap_surface_format (srgb_swapchain : Bool)
    (available_formats : List VkSurfaceFormatKHR) : VkSurfaceFormatKHR :=
  let preferred : VkSurfaceFormatKHR :=
    ⟨if srgb_swapchain then VK_FORMAT_B8G8R8A8_SRGB else VK_FORMAT_B8G8R8A8_UNORM,
      VK_COLOR_SPACE_SRGB_NONLINEAR_KHR⟩
  if preferred ∈ available_formats then preferred
  else available_formats.headD ⟨VK_FORMAT_UNDEFINED, VK_COLOR_SPACE_SRGB_NONLINEAR_KHR⟩

/-- Modelled from the spec: the body of `Backend::choose_swap_present_mode` (declared at
vk.h:160) is not in the sources.  Spec 4.2: mailbox, then immediate, are preferred
only if vsync is disabled; else the vertical-sync mode is used. -/
def choose_swap_present_mode (vsync : Bool) (available_modes : List Nat) : Nat :=
  if vsync then VK_PRESENT_MODE_FIFO_KHR
  else if VK_PRESENT_MODE_MAILBOX_KHR ∈ available_modes then VK_PRESENT_MODE_MAILBOX_KHR
  else if VK_PRESENT_MODE_IMMEDIATE_KHR ∈ available_modes then VK_PRESENT_MODE_IMMEDIATE_KHR
  else VK_PRESENT_MODE_FIFO_KHR

/-- Modelled from the spec: the body of `Backend::choose_swap_extent` (declared at vk.h:161)
is not in the sources.  Spec 3 and 4.2: the surface's fixed extent is used if it
reports one (a current width other than `0xFFFFFFFF`); when any size is allowed the
framebuffer size is clamped component-wise into `[minImageExtent, maxImageExtent]`. -/
def choose_swap_extent (capabilities : VkSurfaceCapabilitiesKHR)
    (framebuffer_width framebuffer_height : Nat) : VkExtent2D :=
  if capabilities.currentExtent.width ≠ UINT32_MAX then capabilities.currentExtent
  else
    { width := clamp framebuffer_width capabilities.minImageExtent.width
        capabilities.maxImageExtent.width
      height := clamp framebuffer_height capabilities.minImageExtent.height
        capabilities.maxImageExtent.height }

/-- The swapchain slice of `Backend` (vk.h:184-192, 205-206): flags, chosen format, extent
and present mode, and the swap images, views and framebuffers (handles).
`preferred_image_count` is the number of images the `Backend` asks for before
clamping; `generation` counts the swapchains created so far and tells the objects of
one swapchain from those of the next. -/
structure SwapchainState where
  m_vsync : Bool
  m_srgb_swapchain : Bool
  preferred_image_count : Nat
  generation : Nat
  m_swap_chain_image_format : Nat
  m_swap_chain_extent : VkExtent2D
  present_mode : Nat
  m_swap_chain_images : List (Nat × Nat)
  m_swap_chain_image_views : List (Nat × Nat)
  m_swap_chain_framebuffers : List (Nat × Nat)
  deriving DecidableEq, Repr

/-- Modelled from the spec: the image count `create_swapchain` negotiates.  Spec 3: the
image count is clamped into the `[min, max]` the surface reports. -/
def negotiated_image_count (preferred_image_count : Nat)
    (capabilities : VkSurfaceCapabilitiesKHR) : Nat :=
  clamp preferred_image_count capabilities.minImageCount capabilities.maxImageCount

/-- `Backend::swap_chain_image_format` (vk.h:130). -/
def SwapchainState.swap_chain_image_format (s : SwapchainState) : Nat :=
  s.m_swap_chain_image_format

/-- `Backend::swap_chain_extents` (vk.h:132). -/
def SwapchainState.swap_chain_extents (s : SwapchainState) : VkExtent2D := s.m_swap_chain_extent

/-- `Backend::swapchain_size` (vk.h:134) on the swapchain slice. -/
def SwapchainState.swapchain_size (s : SwapchainState) : Nat :=
  s.m_swap_chain_images.length % UINT32_MOD

/-- Modelled from the spec: the body of `Backend::create_swapchain` (declared at vk.h:157)
is not in the sources.  Spec 4.2: format, present mode and extent are negotiated, then
one swap image and view per negotiated image count and one framebuffer per swap
image are created. -/
def SwapchainState.create_swapchain (s : SwapchainState) (surface : Surface) : SwapchainState :=
  let count := negotiated_image_count s.preferred_image_count surface.details.capabilities
  let handles := (List.range count).map (fun i => (s.generation, i))
  { s with
    generation := s.generation + 1
    m_swap_chain_image_format :=
      (choose_swap_surface_format s.m_srgb_swapchain surface.details.format).format
    m_swap_chain_extent :=
      choose_swap_extent surface.details.capabilities surface.framebuffer_width
        surface.framebuffer_height
    present_mode := choose_swap_present_mode s.m_vsync surface.details.present_modes
    m_swap_chain_images := handles
    m_swap_chain_image_views := handles
    m_swap_chain_framebuffers := handles }

/-- Modelled from the spec: the body of `Backend::recreate_swapchain` (declared at vk.h:111)
is not in the sources.  Spec 4.2: it takes the new vsync flag, tears down the
framebuffers, views and images, then reruns `create_swapchain`. -/
def SwapchainState.recreate_swapchain (s : SwapchainState) (vsync : Bool) (surface : Surface) :
    SwapchainState :=
  SwapchainState.create_swapchain
    { s with m_vsync := vsync, m_swap_chain_framebuffers := [], m_swap_chain_image_views := [],
             m_swap_chain_images := [] } surface

/-- A surface that allows any size between 1x1 and 4096x4096, 2 to 8 images. -/
def example_surface : Surface :=
  { details :=
      { capabilities :=
          { minImageCount := 2, maxImageCount := 8, currentExtent := ⟨UINT32_MAX, UINT32_MAX⟩,
            minImageExtent := ⟨1, 1⟩, maxImageExtent := ⟨4096, 4096⟩ }
        format := [⟨VK_FORMAT_B8G8R8A8_UNORM, 0⟩, ⟨VK_FORMAT_B8G8R8A8_SRGB, 0⟩]
        present_modes := [VK_PRESENT_MODE_FIFO_KHR, VK_PRESENT_MODE_MAILBOX_KHR] }
    framebuffer_width := 5000
    framebuffer_height := 720 }

/-- A swapchain slice before the first `create_swapchain`, asking for 3 images. -/
def example_swapchain_state : SwapchainState :=
  { m_vsync := false, m_srgb_swapchain := true, preferred_image_count := 3, generation := 0,
    m_swap_chain_image_format := VK_FORMAT_UNDEFINED, m_swap_chain_extent := ⟨0, 0⟩,
    present_mode := VK_PRESENT_MODE_FIFO_KHR, m_swap_chain_images := [],
    m_swap_chain_image_views := [], m_swap_chain_framebuffers := [] }

/-! ## Thread-local pool cache (vk.h:81-84) -/

/-- The role a cached pool serves: a command pool for the graphics, compute or transfer
queue family, or the descriptor pool. -/
inductive PoolRole where
  | graphics
  | compute
  | transfer
  | descriptor
  deriving DecidableEq, Repr

/-- The pool cache as a map keyed by (thread identity, role), held as an association
list, newest entry first.  A pool is named by its creation number; `created` is the
number of pools created so far. -/
structure PoolCache where
  pools : List ((Nat × PoolRole) × Nat)
  created : Nat
  deriving DecidableEq, Repr

/-- The cache of a `Backend` on which no pool was asked for yet. -/
def PoolCache.empty : PoolCache := { pools := [], created := 0 }

/-- The pool cached for a key, if any. -/
def lookup_pool (key : Nat × PoolRole) : List ((Nat × PoolRole) × Nat) → Option Nat
  | [] => none
  | (k, pool) :: rest => if k = key then some pool else lookup_pool key rest

/-- Modelled from the spec: the bodies of `Backend::thread_local_graphics_command_pool`,
`thread_local_compute_command_pool`, `thread_local_transfer_command_pool` and
`thread_local_descriptor_pool` (declared at vk.h:81-84) are not in the sources.
Spec 4.5: the pool scoped to the calling thread is returned, and created on the first
call; one pool per (thread, role). -/
def PoolCache.thread_local_pool (c : PoolCache) (thread : Nat) (role : PoolRole) :
    PoolCache × Nat :=
  match lookup_pool (thread, role) c.pools with
  | some pool => (c, pool)
  | none =>
      ({ pools := ((thread, role), c.created) :: c.pools, created := c.created + 1 }, c.created)

/-- `Backend::thread_local_graphics_command_pool` (vk.h:81) called by `thread`. -/
def PoolCache.thread_local_graphics_command_pool (c : PoolCache) (thread : Nat) :
    PoolCache × Nat := c.thread_local_pool thread .graphics

/-- `Backend::thread_local_compute_command_pool` (vk.h:82) called by `thread`. -/
def PoolCache.thread_local_compute_command_pool (c : PoolCache) (thread : Nat) :
    PoolCache × Nat := c.thread_local_pool thread .compute

/-- `Backend::thread_local_transfer_command_pool` (vk.h:83) called by `thread`. -/
def PoolCache.thread_local_transfer_command_pool (c : PoolCache) (thread : Nat) :
    PoolCache × Nat := c.thread_local_pool thread .transfer

/-- `Backend::thread_local_descriptor_pool` (vk.h:84) called by `thread`. -/
def PoolCache.thread_local_descriptor_pool (c : PoolCache) (thread : Nat) :
    PoolCache × Nat := c.thread_local_pool thread .descriptor

/-- A sequence of pool requests, each by a thread for a role, first request first. -/
def PoolCache.requests (c : PoolCache) (calls : List (Nat × PoolRole)) : PoolCache :=
  calls.foldl (fun acc k => (acc.thread_local_pool k.1 k.2).1) c

/-- Every cached pool was created by this cache, and no pool serves two keys. -/
def PoolCache.wf (c : PoolCache) : Prop :=
  (∀ (k : Nat × PoolRole) (pool : Nat), lookup_pool k c.pools = some pool → pool < c.created) ∧
  (∀ (k1 k2 : Nat × PoolRole) (pool : Nat), lookup_pool k1 c.pools = some pool →
    lookup_pool k2 c.pools = some pool → k1 = k2)

/-! ## utilities::aligned_size (vk.h:1089) -/

namespace utilities

/-- Addition of two `uint32_t` values. -/
def uint32_add (a b : Nat) : Nat := (a + b) % UINT32_MOD

/-- Subtraction of two `uint32_t` values. -/
def uint32_sub (a b : Nat) : Nat := (a + (UINT32_MOD - b % UINT32_MOD)) % UINT32_MOD

/-- Bitwise complement `~x` of a `uint32_t` value. -/
def uint32_not (x : Nat) : Nat := (UINT32_MOD - 1) ^^^ x

/-- The function `utilities::aligned_size` (vk.h:1089):
`return (value + alignment - 1) & ~(alignment - 1);` on `uint32_t` operands. -/
def aligned_size (value alignment : Nat) : Nat :=
  uint32_sub (uint32_add value alignment) 1 &&& uint32_not (uint32_sub alignment 1)

end utilities

/-- A machine with one suitable discrete GPU on which every initialisation step works. -/
def example_platform : Platform :=
  { validation_layers_available := false, surface_created := true,
    devices := [example_discrete_gpu], logical_device_created := true,
    swapchain_created := true }

/-- The context `Backend::create(window, true, false)` returns on `example_platform`. -/
def example_default_context : DeviceContext :=
  { physical_device := example_discrete_gpu, m_selected_queues := example_queue_infos,
    m_vsync := true, m_srgb_swapchain := false, m_ray_tracing_enabled := false }

end vk

/-! ## Application (src/application.cpp, build with `DWSF_VULKAN`) -/

/-- A call that leaves the application code: a `Backend` member function, a factory that
is handed the `Backend` pointer, or a call into a collaborator outside the core
(GLFW, ImGui, profiler, scene, camera), which is recorded by name only.  Shared
pointers are identities; `none` is a null pointer. -/
inductive Event where
  | backend_create (vsync srgb_swapchain enable_validation_layers require_ray_tracing : Bool)
      (additional_device_extensions : List String)
  | semaphore_create (backend : Option Nat)
  | initialize_common_resources (backend : Option Nat)
  | recreate_swapchain (vsync : Bool)
  | acquire_next_swap_chain_image (semaphore : Option Nat)
  | allocate_graphics_command_buffer (begin : Bool)
  | submit_graphics (cmd_bufs : List Nat) (wait_semaphores : List (Option Nat))
      (wait_stages : List Nat) (signal_semaphores : List (Option Nat))
  | submit_compute (cmd_bufs : List Nat) (wait_semaphores : List (Option Nat))
      (wait_stages : List Nat) (signal_semaphores : List (Option Nat))
  | submit_transfer (cmd_bufs : List Nat) (wait_semaphores : List (Option Nat))
      (wait_stages : List Nat) (signal_semaphores : List (Option Nat))
  | flush_graphics (cmd_bufs : List Nat)
  | flush_compute (cmd_bufs : List Nat)
  | flush_transfer (cmd_bufs : List Nat)
  | present (semaphores : List (Option Nat))
  | wait_idle
  | semaphore_reset (semaphore : Option Nat)
  | backend_destructor (backend : Option Nat)
  | backend_call (name : String)
  | external (name : String)
  deriving DecidableEq, Repr

/-- Who made a call: the frame code of `Application` itself, or code running inside a
virtual method a subclass overrides (`init`, `update`, `shutdown`, `window_resized`),
including the `Application` helpers that method calls. -/
inductive Origin where
  | framework
  | subclass
  deriving DecidableEq, Repr

/-- One entry of the call trace. -/
structure Call where
  origin : Origin
  event : Event
  deriving DecidableEq, Repr

/-- A call made by the frame code of `Application`. -/
def fw (e : Event) : Call := ⟨.framework, e⟩

/-- The calls made while a subclass method runs. -/
def by_subclass (es : List Event) : List Call := es.map (Call.mk .subclass)

/-- `VK_PIPELINE_STAGE_COLOR_ATTACHMENT_OUTPUT_BIT`. -/
def VK_PIPELINE_STAGE_COLOR_ATTACHMENT_OUTPUT_BIT : Nat := 1024

/-- `AppSettings` (declared in application.h, which is not in the sources; the fields are
those application.cpp and the samples read and write). -/
structure AppSettings where
  width : Int
  height : Int
  title : String
  maximized : Bool
  fullscreen : Bool
  vsync : Bool
  srgb : Bool
  ray_tracing : Bool
  device_extensions : List String
  enable_debug_callback : Bool
  deriving DecidableEq, Repr

/-- The members of `Application` that the frame loop, initialisation and shutdown touch. -/
structure Application where
  m_width : Int
  m_height : Int
  m_title : String
  m_vsync : Bool
  m_should_recreate_swap_chain : Bool
  m_window : Option Nat
  m_vk_backend : Option Nat
  m_present_complete_semaphore : Option Nat
  m_render_complete_semaphore : Option Nat
  deriving DecidableEq, Repr

/-- What the outside world answers during one frame: the window-resize notifications that
`glfwPollEvents` delivers, in order, and the command buffer that
`allocate_graphics_command_buffer` hands out. -/
structure FrameInput where
  resizes : List (Int × Int)
  cmd_buf : Nat
  deriving DecidableEq, Repr

/-- An `Application` subclass: the build flag `DWSF_IMGUI` and the virtual methods it
overrides, each given by the calls it makes (and, for `init`, its result). -/
structure AppClass where
  dwsf_imgui : Bool
  init : Application → List Event × Bool
  update : Application → FrameInput → List Event
  shutdown : Application → List Event
  window_resized : Application → Int → Int → List Event

/-- `Application` itself: `init` returns true, the other virtual methods are empty
(application.cpp:144-152, 543). -/
def Application.base_class (dwsf_imgui : Bool) : AppClass :=
  { dwsf_imgui := dwsf_imgui
    init := fun _ => ([], true)
    update := fun _ _ => []
    shutdown := fun _ => []
    window_resized := fun _ _ _ => [] }

/-- `Application::submit_and_present` (application.cpp:424-432). -/
def Application.submit_and_present (app : Application) (cmd_bufs : List Nat) : List Event :=
  [.submit_graphics cmd_bufs [app.m_present_complete_semaphore]
      [VK_PIPELINE_STAGE_COLOR_ATTACHMENT_OUTPUT_BIT] [app.m_render_complete_semaphore],
   .present [app.m_render_complete_semaphore]]

/-- `Application::window_size_callback` (application.cpp:627-637). -/
def Application.window_size_callback (cls : AppClass) (app : Application)
    (width height : Int) : Application × List Call :=
  let app1 := { app with m_width := width, m_height := height,
                         m_should_recreate_swap_chain := true }
  (app1, by_subclass (cls.window_resized app1 width height))

/-- `glfwPollEvents` inside `begin_frame`: the pending resize notifications are delivered
to `window_size_callback`, one after the other. -/
def Application.poll_events (cls : AppClass) (app : Application) :
    List (Int × Int) → Application × List Call
  | [] => (app, [])
  | (w, h) :: rest =>
      let r := Application.window_size_callback cls app w h
      let rs := Application.poll_events cls r.1 rest
      (rs.1, r.2 ++ rs.2)

/-- `Application::begin_frame` (application.cpp:438-474). -/
def Application.begin_frame (cls : AppClass) (app : Application) (input : FrameInput) :
    Application × List Call :=
  let polled := Application.poll_events cls app input.resizes
  let recreated : Application × List Call :=
    if polled.1.m_should_recreate_swap_chain then
      ({ polled.1 with m_should_recreate_swap_chain := false },
        [fw (.recreate_swapchain polled.1.m_vsync)])
    else (polled.1, [])
  (recreated.1,
    [fw (.external "m_timer.start"), fw (.external "glfwPollEvents")] ++ polled.2 ++
      recreated.2 ++
      [fw (.acquire_next_swap_chain_image recreated.1.m_present_complete_semaphore)] ++
      (if cls.dwsf_imgui then
        [fw (.external "ImGui_ImplVulkan_NewFrame"), fw (.external "ImGui_ImplGlfw_NewFrame"),
         fw (.external "ImGui::NewFrame")]
       else []) ++
      [fw (.external "profiler::begin_frame")])

/-- `Application::end_frame` (application.cpp:478-493), Vulkan build. -/
def Application.end_frame : List Call :=
  [fw (.external "profiler::end_frame"), fw (.external "m_timer.stop")]

/-- `Application::update_base` (application.cpp:356-361). -/
def Application.update_base (cls : AppClass) (app : Application) (input : FrameInput) :
    Application × List Call :=
  let b := Application.begin_frame cls app input
  (b.1, b.2 ++ by_subclass (cls.update b.1 input) ++ Application.end_frame)

/-- The frame loop of `Application::run` (application.cpp:129-130): one `update_base` per
frame until exit is requested; `inputs` holds the input of each frame that runs. -/
def Application.frame_loop (cls : AppClass) (app : Application) :
    List FrameInput → Application × List Call
  | [] => (app, [])
  | input :: rest =>
      let r := Application.update_base cls app input
      let rs := Application.frame_loop cls r.1 rest
      (rs.1, r.2 ++ rs.2)

/-! ## The ray-tracing Sample (sample/main_vk_rt.cpp) -/

/-- `Sample::create_output_image` (main_vk_rt.cpp:145-149). -/
def Sample.create_output_image : List Event :=
  [.backend_call "swap_chain_image_format", .external "Image::create",
   .external "ImageView::create"]

/-- `Sample::write_descriptor_set` (main_vk_rt.cpp:193-247). -/
def Sample.write_descriptor_set : List Event :=
  [.external "Material::common_sampler", .backend_call "device",
   .external "vkUpdateDescriptorSets", .backend_call "device",
   .external "vkUpdateDescriptorSets"]

/-- `Sample::window_resized` (main_vk_rt.cpp:124-131). -/
def Sample.window_resized (_app : Application) (_width _height : Int) : List Event :=
  [.external "Camera::update_projection", .wait_idle] ++ Sample.create_output_image ++
    Sample.write_descriptor_set

/-- `Sample::update_uniforms` (main_vk_rt.cpp:438-456). -/
def Sample.update_uniforms : List Event :=
  [.external "DW_SCOPED_SAMPLE", .external "RayTracedScene::fetch_instance",
   .external "glfwGetTime", .external "Buffer::mapped_ptr", .backend_call "current_frame_idx",
   .external "memcpy"]

/-- `Sample::trace_scene` (main_vk_rt.cpp:329-373). -/
def Sample.trace_scene : List Event :=
  [.external "DW_SCOPED_SAMPLE", .external "utilities::set_image_layout",
   .backend_call "ray_tracing_pipeline_properties", .external "vkCmdBindPipeline",
   .backend_call "current_frame_idx", .external "vkCmdBindDescriptorSets",
   .external "vkCmdTraceRaysKHR", .external "utilities::set_image_layout"]

/-- `Sample::render` (main_vk_rt.cpp:377-434). -/
def Sample.render (dwsf_imgui : Bool) : List Event :=
  [.external "DW_SCOPED_SAMPLE", .backend_call "swapchain_render_pass",
   .backend_call "swapchain_framebuffer", .external "vkCmdBeginRenderPass",
   .external "vkCmdSetViewport", .external "vkCmdSetScissor", .external "vkCmdBindPipeline",
   .external "vkCmdBindDescriptorSets", .external "vkCmdDraw"] ++
    (if dwsf_imgui then [.external "ImGui::Render", .external "ImGui_ImplVulkan_RenderDrawData"]
     else []) ++
    [.external "vkCmdEndRenderPass"]

/-- `Sample::update` (main_vk_rt.cpp:53-82). -/
def Sample.update (dwsf_imgui : Bool) (app : Application) (input : FrameInput) : List Event :=
  [.allocate_graphics_command_buffer true, .external "DW_SCOPED_SAMPLE",
   .external "RayTracedScene::build_tlas"] ++
    (if dwsf_imgui then [.external "profiler::ui"] else []) ++
    [.external "Camera::update"] ++ Sample.update_uniforms ++ Sample.trace_scene ++
    Sample.render dwsf_imgui ++ [.external "vkEndCommandBuffer"] ++
    app.submit_and_present [input.cmd_buf]

/-- The ray-tracing `Sample` as an `Application` subclass, as far as the frame loop goes;
`init_result` is what its `init` returns and `init_calls` the calls it makes. -/
def Sample.class (dwsf_imgui : Bool) (init_calls : List Event) (init_result : Bool) : AppClass :=
  { dwsf_imgui := dwsf_imgui
    init := fun _ => (init_calls, init_result)
    update := Sample.update dwsf_imgui
    shutdown := fun _ => [.external "Sample::shutdown"]
    window_resized := Sample.window_resized }

/-! ## Trace predicates -/

/-- The call hands work to a device queue: a `submit_*`, a `flush_*` or `present`. -/
def Event.is_submission : Event → Bool
  | .submit_graphics _ _ _ _ => true
  | .submit_compute _ _ _ _ => true
  | .submit_transfer _ _ _ _ => true
  | .flush_graphics _ => true
  | .flush_compute _ => true
  | .flush_transfer _ => true
  | .present _ => true
  | _ => false

/-- The call is `recreate_swapchain`. -/
def Event.is_recreate_swapchain : Event → Bool
  | .recreate_swapchain _ => true
  | _ => false

/-- The call is part of the per-frame sequence acquire, submit, present. -/
def Event.is_frame_step : Event → Bool
  | .acquire_next_swap_chain_image _ => true
  | e => e.is_submission

/-- The frame-sequence calls of a trace, in order. -/
def frame_steps (trace : List Call) : List Event :=
  (trace.map Call.event).filter Event.is_frame_step

/-- Whether the device is known idle after a call, given whether it was before: a
`wait_idle` makes it idle, a submission makes it busy, anything else changes nothing. -/
def idle_after_call (idle : Bool) (c : Call) : Bool :=
  if c.event = .wait_idle then true
  else if c.event.is_submission then false
  else idle

/-- Whether the device is known idle after a trace. -/
def idle_after (idle : Bool) (trace : List Call) : Bool :=
  trace.foldl idle_after_call idle

/-- Executable form of `recreate_after_wait_idle`: scan the trace, tracking whether a
`wait_idle` has happened with no submission since, and demand that at every
`recreate_swapchain` made by the frame code. -/
def recreate_guarded (idle : Bool) : List Call → Bool
  | [] => true
  | c :: rest =>
      (if c.origin = .framework ∧ c.event.is_recreate_swapchain = true then idle else true) &&
        recreate_guarded (idle_after_call idle c) rest

/-- An application right after a successful `init_base`, before the first frame; used to
exercise the frame loop. -/
def example_app : Application :=
  { m_width := 1280, m_height := 720, m_title := "sample", m_vsync := true,
    m_should_recreate_swap_chain := false, m_window := some 1, m_vk_backend := some 1,
    m_present_complete_semaphore := some 10, m_render_complete_semaphore := some 11 }

/-- Two frames; a resize notification arrives while the second one polls. -/
def example_frames_with_resize : List FrameInput :=
  [⟨[], 1⟩, ⟨[(800, 600)], 2⟩]

/-! ## Application::init_base, shutdown_base and run -/

/-- How a function ends: it returns a value; it calls a member function through a null
`std::shared_ptr` (undefined behaviour; nothing is returned to the caller); or it is
left by the failed construction of an object it asked for, directly or in a callee
(nothing is returned to the caller, which is left in the same way unless it handles
the failure). -/
inductive Outcome (α : Type) where
  | returned (value : α)
  | null_dereference
  | construction_failed
  deriving DecidableEq, Repr

/-- How the call `vk::Backend::create(...)` made by `init_base` ends.  The declaration
(vk.h:73) has one result, the `Backend::Ptr`, and the body is not in the sources; so
either a pointer comes back (`none` is null), or the construction fails (spec 7: "a
failed construction with no partial context returned") and no pointer comes back. -/
inductive BackendCreate where
  | returned (backend : Option Nat)
  | failed (error : vk.InitError)
  deriving DecidableEq, Repr

/-- What the outside world answers during `init_base`: the settings after
`intial_app_settings` and `load_initial_settings_from_file`, whether `_DEBUG` is
defined, the result of `glfwInit`, the window `glfwCreateWindow` yields, how the call
of `vk::Backend::create` ends, the semaphores `Semaphore::create` yields, the command
buffer for the ImGui set-up, the framebuffer size and the result of
`DebugDraw::init`. -/
structure InitEnv where
  settings : AppSettings
  debug_build : Bool
  glfw_init_ok : Bool
  window : Option Nat
  backend : BackendCreate
  present_complete_semaphore : Option Nat
  render_complete_semaphore : Option Nat
  imgui_cmd_buf : Nat
  framebuffer_size : Int × Int
  debug_draw_init_ok : Bool
  deriving DecidableEq, Repr

/-- State of an `Application` after its constructor (application.cpp:110-113):
`m_window` is null, the smart pointers are empty; the resize flag is taken to start
clear (its initialiser is in application.h, which is not in the sources). -/
def Application.constructed : Application :=
  { m_width := 0, m_height := 0, m_title := "", m_vsync := false,
    m_should_recreate_swap_chain := false, m_window := none, m_vk_backend := none,
    m_present_complete_semaphore := none, m_render_complete_semaphore := none }

/-- The ImGui set-up of `init_base` (application.cpp:269-314) once the context is known
to be there: the accessors it calls on the `Backend` and the flush of the set-up
command buffer. -/
def Application.init_imgui (env : InitEnv) : List Call :=
  [fw (.backend_call "instance"), fw (.backend_call "physical_device"),
   fw (.backend_call "device"), fw (.backend_call "queue_infos"),
   fw (.backend_call "graphics_queue"), fw (.backend_call "thread_local_descriptor_pool"),
   fw (.backend_call "swap_image_count"), fw (.backend_call "swapchain_render_pass"),
   fw (.external "ImGui_ImplVulkan_Init"), fw (.allocate_graphics_command_buffer false),
   fw (.external "vkBeginCommandBuffer"), fw (.external "vkEndCommandBuffer"),
   fw (.flush_graphics [env.imgui_cmd_buf]), fw (.external "ImGui::StyleColorsDark")]

/-- The end of `init_base` (application.cpp:316-351), reached with a context that is not
null: content scale, framebuffer size, `DebugDraw::init`, profiler, then the
subclass's `init`. -/
def Application.init_finish (cls : AppClass) (app : Application) (env : InitEnv)
    (trace : List Call) : Application × List Call × Outcome Bool :=
  let app1 := { app with m_width := env.framebuffer_size.1, m_height := env.framebuffer_size.2 }
  let t1 := trace ++
    [fw (.external "glfwGetPrimaryMonitor"), fw (.external "glfwGetMonitorContentScale")] ++
    (if cls.dwsf_imgui then
      [fw (.external "ImGui::GetStyle"), fw (.external "ImGuiStyle::ScaleAllSizes"),
       fw (.external "ImGui::GetIO")]
     else []) ++
    [fw (.external "glfwGetFramebufferSize"), fw (.backend_call "swapchain_render_pass"),
     fw (.external "DebugDraw::init")]
  if !env.debug_draw_init_ok then (app1, t1, .returned false)
  else
    let t2 := t1 ++ [fw (.external "profiler::initialize")] ++ by_subclass (cls.init app1).1
    if !(cls.init app1).2 then (app1, t2, .returned false)
    else (app1, t2, .returned true)

/-- `Application::init_base` (application.cpp:156-352), Vulkan build.  When the
construction of the `Backend` fails, `init_base` is left at the call of
`vk::Backend::create`.  A pointer that comes back is stored and used without a
test: the two `Semaphore::create` calls and `Material::initialize_common_resources`
receive it as it is, and the next statement that touches it calls a member function
through it (`instance()` with `DWSF_IMGUI`, else `swapchain_render_pass()`). -/
def Application.init_base (cls : AppClass) (app : Application) (env : InitEnv) :
    Application × List Call × Outcome Bool :=
  let app1 := { app with m_vsync := env.settings.vsync, m_width := env.settings.width,
                         m_height := env.settings.height, m_title := env.settings.title }
  let t0 := [fw (.external "logger::initialize"), fw (.external "logger::open_console_stream"),
    fw (.external "logger::open_file_stream"), fw (.external "intial_app_settings"),
    fw (.external "load_initial_settings_from_file"), fw (.external "glfwInit")]
  if !env.glfw_init_ok then (app1, t0, .returned false)
  else
    let t1 := t0 ++ [fw (.external "glfwWindowHint"), fw (.external "glfwCreateWindow")]
    match env.window with
    | none => ({ app1 with m_window := none }, t1, .returned false)
    | some window =>
        match env.backend with
        | .failed _ =>
            ({ app1 with m_window := some window },
              t1 ++
                [fw (.external "glfwSetCallbacks"), fw (.external "glfwMakeContextCurrent"),
                 fw (.backend_create app1.m_vsync env.settings.srgb env.debug_build
                   env.settings.ray_tracing env.settings.device_extensions)],
              .construction_failed)
        | .returned backend =>
        let app2 := { app1 with
          m_window := some window
          m_vk_backend := backend
          m_present_complete_semaphore := env.present_complete_semaphore
          m_render_complete_semaphore := env.render_complete_semaphore }
        let t2 := t1 ++
          [fw (.external "glfwSetCallbacks"), fw (.external "glfwMakeContextCurrent"),
           fw (.backend_create app1.m_vsync env.settings.srgb env.debug_build
             env.settings.ray_tracing env.settings.device_extensions),
           fw (.semaphore_create backend), fw (.semaphore_create backend),
           fw (.initialize_common_resources backend)] ++
          (if cls.dwsf_imgui then
            [fw (.external "ImGui::CreateContext"), fw (.external "ImGui_ImplGlfw_InitForVulkan")]
           else
            [fw (.external "glfwGetPrimaryMonitor"), fw (.external "glfwGetMonitorContentScale"),
             fw (.external "glfwGetFramebufferSize")])
        match backend with
        | none =>
            (if cls.dwsf_imgui then app2
             else { app2 with m_width := env.framebuffer_size.1,
                              m_height := env.framebuffer_size.2 },
              t2, .null_dereference)
        | some _ =>
            Application.init_finish cls app2 env
              (t1 ++
                [fw (.external "glfwSetCallbacks"), fw (.external "glfwMakeContextCurrent"),
                 fw (.backend_create app1.m_vsync env.settings.srgb env.debug_build
                   env.settings.ray_tracing env.settings.device_extensions),
                 fw (.semaphore_create backend), fw (.semaphore_create backend),
                 fw (.initialize_common_resources backend)] ++
                (if cls.dwsf_imgui then
                  [fw (.external "ImGui::CreateContext"),
                   fw (.external "ImGui_ImplGlfw_InitForVulkan")] ++ Application.init_imgui env
                 else []))

/-- `Application::shutdown_base` (application.cpp:365-409), Vulkan build: the two
semaphores are reset, then the destructor of the `Backend` is called through
`m_vk_backend`, which keeps pointing at it. -/
def Application.shutdown_base (cls : AppClass) (app : Application) :
    Application × List Call × Outcome Unit :=
  let t0 := by_subclass (cls.shutdown app) ++
    [fw (.external "profiler::shutdown"), fw (.external "DebugDraw::shutdown"),
     fw (.external "Material::shutdown_common_resources")] ++
    (if cls.dwsf_imgui then [fw (.external "ImGui_ImplVulkan_Shutdown")] else []) ++
    [fw (.semaphore_reset app.m_present_complete_semaphore),
     fw (.semaphore_reset app.m_render_complete_semaphore)]
  let app1 := { app with m_present_complete_semaphore := none,
                         m_render_complete_semaphore := none }
  match app.m_vk_backend with
  | none => (app1, t0, .null_dereference)
  | some backend =>
      (app1,
        t0 ++ [fw (.backend_destructor (some backend))] ++
          (if cls.dwsf_imgui then
            [fw (.external "ImGui_ImplGlfw_Shutdown"), fw (.external "ImGui::DestroyContext")]
           else []) ++
          [fw (.external "glfwDestroyWindow"), fw (.external "glfwTerminate"),
           fw (.external "logger::close_file_stream"),
           fw (.external "logger::close_console_stream")],
        .returned ())

/-- `Application::run` (application.cpp:121-140), Vulkan build; `inputs` holds the input
of every frame that runs before exit is requested.  `run` handles no failure: what
leaves `init_base` or `shutdown_base` other than by a return leaves `run` too. -/
def Application.run (cls : AppClass) (app : Application) (env : InitEnv)
    (inputs : List FrameInput) : Application × List Call × Outcome Int :=
  let i := Application.init_base cls app env
  match i.2.2 with
  | .null_dereference => (i.1, i.2.1, .null_dereference)
  | .construction_failed => (i.1, i.2.1, .construction_failed)
  | .returned false => (i.1, i.2.1, .returned 1)
  | .returned true =>
      let l := Application.frame_loop cls i.1 inputs
      match l.1.m_vk_backend with
      | none => (l.1, i.2.1 ++ l.2, .null_dereference)
      | some _ =>
          let sd := Application.shutdown_base cls l.1
          match sd.2.2 with
          | .null_dereference => (sd.1, i.2.1 ++ l.2 ++ [fw .wait_idle] ++ sd.2.1,
              .null_dereference)
          | .construction_failed => (sd.1, i.2.1 ++ l.2 ++ [fw .wait_idle] ++ sd.2.1,
              .construction_failed)
          | .returned _ => (sd.1, i.2.1 ++ l.2 ++ [fw .wait_idle] ++ sd.2.1, .returned 0)

/-- Settings of the ray-tracing Sample (main_vk_rt.cpp:109-120); the fields the Sample
does not set are given plain values. -/
def Sample.settings : AppSettings :=
  { width := 1280, height := 720, title := "Hello dwSampleFramework (Vulkan Ray-Tracing)",
    maximized := false, fullscreen := false, vsync := false, srgb := true,
    ray_tracing := true, device_extensions := [], enable_debug_callback := false }

/-- The call is `acquire_next_swap_chain_image`. -/
def Event.is_acquire : Event → Bool
  | .acquire_next_swap_chain_image _ => true
  | _ => false

/-- The `recreate_swapchain` and `acquire_next_swap_chain_image` calls that the frame code
of `Application` itself makes in a trace, in order. -/
def framework_swapchain_calls (trace : List Call) : List Event :=
  (trace.filter (fun c =>
    decide (c.origin = .framework) && (c.event.is_recreate_swapchain || c.event.is_acquire))).map
    Call.event

/-- Every `recreate_swapchain` call made by the frame code of `Application` is preceded
in the trace by a `wait_idle` made inside a subclass method, with no queue submission
between the two. -/
def recreate_after_subclass_wait_idle (trace : List Call) : Prop :=
  ∀ (pre post : List Call) (vsync : Bool),
    trace = pre ++ fw (.recreate_swapchain vsync) :: post →
    ∃ (a b : List Call), pre = a ++ ⟨.subclass, .wait_idle⟩ :: b ∧
      ∀ c ∈ b, c.event.is_submission = false

/-- Three frames of the ray-tracing Sample: two resize notifications arrive while the
first frame polls, none during the second, one during the third. -/
def example_frames_two_resizes : List FrameInput :=
  [⟨[(640, 480), (800, 600)], 1⟩, ⟨[], 2⟩, ⟨[(1024, 768)], 3⟩]

/-! ## The Sample's per-frame uniform buffer (sample/main_vk_rt.cpp) -/

/-- `sizeof(Transforms)` (main_vk_rt.cpp:12-18): two 16-byte aligned `glm::mat4`. -/
def sizeof_Transforms : Nat := 128

/-- `Sample::create_uniform_buffer` (main_vk_rt.cpp:153-159): the size of the uniform
buffer, `m_ubo_size * kMaxFramesInFlight` in `size_t` arithmetic, where `m_ubo_size` is
what `aligned_dynamic_ubo_size(sizeof(Transforms))` returned. -/
def Sample.uniform_buffer_size (m_ubo_size : Nat) : Nat :=
  (m_ubo_size * vk.kMaxFramesInFlight) % vk.SIZE_MOD

/-- `Sample::update_uniforms` (main_vk_rt.cpp:454-455): the byte offset into the mapped
buffer at which the transforms are copied, `m_ubo_size * current_frame_idx()` in
`size_t` arithmetic. -/
def Sample.update_uniforms_offset (m_ubo_size current_frame_idx : Nat) : Nat :=
  (m_ubo_size * current_frame_idx) % vk.SIZE_MOD

/-- `Sample::trace_scene` (main_vk_rt.cpp:347): the dynamic offset bound with the
descriptor set, the `size_t` product narrowed to `uint32_t`. -/
def Sample.dynamic_offset (m_ubo_size current_frame_idx : Nat) : Nat :=
  ((m_ubo_size * current_frame_idx) % vk.SIZE_MOD) % vk.UINT32_MOD

/-- The `memcpy` of `Sample::update_uniforms` (main_vk_rt.cpp:455) on the mapped bytes of
the uniform buffer: `sizeof(Transforms)` bytes of `transforms` go to the slice of the
current frame slot. -/
def Sample.write_transforms (mapped : Nat → Nat) (m_ubo_size current_frame_idx : Nat)
    (transforms : List Nat) : Nat → Nat :=
  fun a =>
    if Sample.update_uniforms_offset m_ubo_size current_frame_idx ≤ a ∧
        a < Sample.update_uniforms_offset m_ubo_size current_frame_idx + sizeof_Transforms then
      transforms.getD (a - Sample.update_uniforms_offset m_ubo_size current_frame_idx) 0
    else mapped a

/-- Byte `k` of the transforms a frame slot reads through the dynamic uniform-buffer
descriptor: buffer offset 0 and range `sizeof(Transforms)` (main_vk_rt.cpp:234-236)
plus the dynamic offset of the slot. -/
def Sample.read_transforms (mapped : Nat → Nat) (m_ubo_size frame_idx k : Nat) : Nat :=
  mapped (Sample.dynamic_offset m_ubo_size frame_idx + k)

/-! ## Application::run: start-up examples -/

/-- A start-up on a machine where every step of `init_base` works. -/
def example_env : InitEnv :=
  { settings := Sample.settings, debug_build := false, glfw_init_ok := true,
    window := some 1, backend := .returned (some 1), present_complete_semaphore := some 2,
    render_complete_semaphore := some 3, imgui_cmd_buf := 0, framebuffer_size := (1280, 720),
    debug_draw_init_ok := true }

/-- A start-up on a machine where `glfwInit` fails. -/
def example_env_without_glfw : InitEnv :=
  { example_env with glfw_init_ok := false }

/-! ## Application::~Application (application.cpp:117) -/

/-- `Application::~Application` (application.cpp:117).  The body is empty; the members
are then destroyed, and an owning pointer that is not empty releases what it owns.
The `Application` is the only owner of its `Backend` (every resource keeps a
`std::weak_ptr` to it, vk.h:218), so releasing a non-empty `m_vk_backend` runs the
`Backend` destructor. -/
def Application.destructor (app : Application) : List Call :=
  match app.m_vk_backend with
  | none => []
  | some backend => [fw (.backend_destructor (some backend))]

/-! ## The ray-tracing Sample: init and load_mesh (sample/main_vk_rt.cpp) -/

/-- A call made by `Sample::init`: the three calls of `load_mesh` that involve the mesh
pointer (`none` is a null `Mesh::Ptr`), or a call of another member function of the
Sample, recorded by name. -/
inductive SampleCall where
  | mesh_load
  | initialize_for_ray_tracing (mesh : Option Nat)
  | scene_create (instance_mesh : Option Nat)
  | member (name : String)
  deriving DecidableEq, Repr

/-- `Sample::create_shaders` (main_vk_rt.cpp:136-139). -/
def Sample.create_shaders : Bool := true

/-- `Sample::create_uniform_buffer` (main_vk_rt.cpp:153-159): its result. -/
def Sample.create_uniform_buffer : Bool := true

/-- `Sample::load_mesh` (main_vk_rt.cpp:304-317); `loaded` is what `dw::Mesh::load`
yields.  `initialize_for_ray_tracing` is called through `m_mesh` right after the load;
the comparison with `nullptr` is the last statement. -/
def Sample.load_mesh (loaded : Option Nat) : List SampleCall × Outcome Bool :=
  let m_mesh := loaded
  let t := [SampleCall.mesh_load, SampleCall.initialize_for_ray_tracing m_mesh]
  match m_mesh with
  | none => (t, .null_dereference)
  | some _ => (t ++ [SampleCall.scene_create m_mesh], .returned (m_mesh != none))

/-- `Sample::init` (main_vk_rt.cpp:25-49); `loaded` is what `dw::Mesh::load` yields. -/
def Sample.init (loaded : Option Nat) : List SampleCall × Outcome Bool :=
  let t0 := [SampleCall.member "create_shaders"]
  if !Sample.create_shaders then (t0, .returned false)
  else
    let t1 := t0 ++ [SampleCall.member "create_uniform_buffer"]
    if !Sample.create_uniform_buffer then (t1, .returned false)
    else
      let t2 := t1 ++ [SampleCall.member "load_mesh"] ++ (Sample.load_mesh loaded).1
      match (Sample.load_mesh loaded).2 with
      | .null_dereference => (t2, .null_dereference)
      | .construction_failed => (t2, .construction_failed)
      | .returned false => (t2, .returned false)
      | .returned true =>
          (t2 ++ [SampleCall.member "create_output_image",
                  SampleCall.member "create_descriptor_set_layout",
                  SampleCall.member "create_descriptor_set",
                  SampleCall.member "write_descriptor_set",
                  SampleCall.member "create_copy_pipeline",
                  SampleCall.member "create_ray_tracing_pipeline",
                  SampleCall.member "create_camera"], .returned true)

/-! ## Application::load_initial_settings_from_file (application.cpp:515-539) -/

/-- `GLFW_RELEASE` (glfw3.h). -/
def GLFW_RELEASE : Int := 0

/-- `GLFW_PRESS` (glfw3.h). -/
def GLFW_PRESS : Int := 1

/-- `GLFW_REPEAT` (glfw3.h). -/
def GLFW_REPEAT : Int := 2

/-- `GLFW_KEY_UNKNOWN` (glfw3.h). -/
def GLFW_KEY_UNKNOWN : Int := -1

/-- `GLFW_KEY_ESCAPE` (glfw3.h). -/
def GLFW_KEY_ESCAPE : Int := 256

/-- What an input callback leaves behind: the state array after the call, the indices of
the array elements it accessed, in order, and the calls it made. -/
structure CallbackResult where
  state : List Bool
  accessed : List Int
  calls : List Event
  deriving DecidableEq, Repr

/-- `Application::key_callback` (application.cpp:571-588).  `MAX_KEYS` is declared in
application.h, which is not in the sources, and is a parameter; `m_keys` is the array
`m_keys[MAX_KEYS]`. -/
def Application.key_callback (MAX_KEYS : Int) (m_keys : List Bool)
    (key _scancode action _mode : Int) : CallbackResult :=
  let t0 : List Event :=
    if key == GLFW_KEY_ESCAPE && action == GLFW_PRESS then
      [.external "glfwSetWindowShouldClose"]
    else []
  if decide (key ≥ 0) && decide (key < MAX_KEYS) then
    if action == GLFW_PRESS then
      { state := m_keys.set key.toNat true, accessed := [key],
        calls := t0 ++ [.external "key_pressed"] }
    else if action == GLFW_RELEASE then
      { state := m_keys.set key.toNat false, accessed := [key],
        calls := t0 ++ [.external "key_released"] }
    else { state := m_keys, accessed := [], calls := t0 }
  else { state := m_keys, accessed := [], calls := t0 }

/-- `Application::mouse_button_callback` (application.cpp:608-623).  `MAX_MOUSE_BUTTONS`
is declared in application.h and is a parameter; `m_mouse_buttons` is the array
`m_mouse_buttons[MAX_MOUSE_BUTTONS]`. -/
def Application.mouse_button_callback (MAX_MOUSE_BUTTONS : Int) (m_mouse_buttons : List Bool)
    (button action _mods : Int) : CallbackResult :=
  if decide (button ≥ 0) && decide (button < MAX_MOUSE_BUTTONS) then
    if action == GLFW_PRESS then
      { state := m_mouse_buttons.set button.toNat true, accessed := [button],
        calls := [.external "mouse_pressed"] }
    else if action == GLFW_RELEASE then
      { state := m_mouse_buttons.set button.toNat false, accessed := [button],
        calls := [.external "mouse_released"] }
    else { state := m_mouse_buttons, accessed := [], calls := [] }
  else { state := m_mouse_buttons, accessed := [], calls := [] }

/-- The effect of an input callback with array bound `bound` on its state array: the
array changes only at `index` and only when `index` is inside the bound, to true on a
press and to false on a release; outside the bound, or for another action, the array is
as before and no element is accessed. -/
def callback_effect (bound : Int) (before : List Bool) (index action : Int)
    (r : CallbackResult) : Prop :=
  r.state.length = before.length ∧
  (∀ i : Nat, (i : Int) ≠ index → r.state[i]? = before[i]?) ∧
  (0 ≤ index → index < bound → action = GLFW_PRESS →
    r.state = before.set index.toNat true ∧ r.accessed = [index] ∧
    (index.toNat < before.length → r.state[index.toNat]? = some true)) ∧
  (0 ≤ index → index < bound → action = GLFW_RELEASE →
    r.state = before.set index.toNat false ∧ r.accessed = [index] ∧
    (index.toNat < before.length → r.state[index.toNat]? = some false)) ∧
  (¬ (0 ≤ index ∧ index < bound) ∨ (action ≠ GLFW_PRESS ∧ action ≠ GLFW_RELEASE) →
    r.state = before ∧ r.accessed = [])

/-! ## The OpenGL Sample (sample/mymain.cpp) -/

namespace mymain

/-- What the outside world answers during `Sample::init` of the OpenGL Sample: the
shaders `Shader::create_from_file` yields for the vertex and the fragment stage, the
program `Program::create` yields, and the mesh `Mesh::load` yields (`none` is null). -/
structure InitEnv where
  vs : Option Nat
  fs : Option Nat
  program : Option Nat
  mesh : Option Nat
  deriving DecidableEq, Repr

/-- `Sample::set_initial_states` (mymain.cpp:130-134). -/
def Sample.set_initial_states : List Event :=
  [.external "glEnable", .external "glCullFace"]

/-- `Sample::create_shaders` (mymain.cpp:102-126). -/
def Sample.create_shaders (env : InitEnv) : List Event × Bool :=
  let m_vs := env.vs
  let m_fs := env.fs
  let t0 : List Event := [.external "Shader::create_from_file(GL_VERTEX_SHADER)",
    .external "Shader::create_from_file(GL_FRAGMENT_SHADER)"]
  if m_vs.isNone || m_fs.isNone then (t0 ++ [.external "DW_LOG_FATAL"], false)
  else
    let m_program := env.program
    let t1 := t0 ++ [.external "Program::create"]
    if m_program.isNone then (t1 ++ [.external "DW_LOG_FATAL"], false)
    else (t1 ++ [.external "Program::uniform_block_binding"], true)

/-- `Sample::create_uniform_buffer` (mymain.cpp:138-144). -/
def Sample.create_uniform_buffer : List Event × Bool :=
  ([.external "Buffer::create"], true)

/-- `Sample::load_mesh` (mymain.cpp:148-152). -/
def Sample.load_mesh (env : InitEnv) : List Event × Bool :=
  let m_mesh := env.mesh
  ([.external "Mesh::load"], m_mesh != none)

/-- `Sample::create_camera` (mymain.cpp:156-160). -/
def Sample.create_camera : List Event :=
  [.external "std::make_unique<dw::Camera>"]

/-- `Sample::init` (mymain.cpp:25-46). -/
def Sample.init (env : InitEnv) : List Event × Bool :=
  let t0 := Sample.set_initial_states ++ (Sample.create_shaders env).1
  if !(Sample.create_shaders env).2 then (t0, false)
  else
    let t1 := t0 ++ Sample.create_uniform_buffer.1
    if !Sample.create_uniform_buffer.2 then (t1, false)
    else
      let t2 := t1 ++ (Sample.load_mesh env).1
      if !(Sample.load_mesh env).2 then (t2, false)
      else (t2 ++ Sample.create_camera, true)

end mymain

/-! ## The frame loop with every registered callback (application.cpp:224-229, 571-695) -/

namespace callbacks

/-- A notification GLFW delivers, while `glfwPollEvents` runs, to one of the six callbacks
`init_base` registers (application.cpp:224-229).  The `double` arguments of the cursor
and scroll callbacks are left out. -/
inductive InputEvent where
  | key (key scancode action mode : Int)
  | cursor_pos
  | scroll
  | mouse_button (button action mods : Int)
  | char (codepoint : Nat)
  | window_size (width height : Int)
  deriving DecidableEq, Repr

/-- What the outside world answers during one frame: the notifications that
`glfwPollEvents` delivers, in order, and the command buffer that
`allocate_graphics_command_buffer` hands out. -/
structure FrameInput where
  events : List InputEvent
  cmd_buf : Nat
  deriving DecidableEq, Repr

/-- The window-size notifications of the frame, in order. -/
def FrameInput.resizes (input : FrameInput) : List (Int × Int) :=
  input.events.filterMap fun e =>
    match e with
    | .window_size width height => some (width, height)
    | _ => none

/-- The frame input as the `update` method of the subclass is given it. -/
def FrameInput.base (input : FrameInput) : dw.FrameInput :=
  ⟨input.resizes, input.cmd_buf⟩

/-- An `Application` subclass together with its input side: the array bounds `MAX_KEYS`
and `MAX_MOUSE_BUTTONS` (declared in application.h, which is not in the sources) and
the six input hooks, each given by the calls it makes.  `Application` itself defines
all six with an empty body (application.cpp:543-567). -/
structure AppClass extends dw.AppClass where
  MAX_KEYS : Int
  MAX_MOUSE_BUTTONS : Int
  key_pressed : Application → Int → List Event
  key_released : Application → Int → List Event
  mouse_pressed : Application → Int → List Event
  mouse_released : Application → Int → List Event
  mouse_move : Application → List Event
  mouse_scrolled : Application → List Event

/-- A subclass that overrides none of the six input hooks. -/
def AppClass.inherited_input (cls : dw.AppClass) (MAX_KEYS MAX_MOUSE_BUTTONS : Int) :
    AppClass :=
  { toAppClass := cls
    MAX_KEYS := MAX_KEYS
    MAX_MOUSE_BUTTONS := MAX_MOUSE_BUTTONS
    key_pressed := fun _ _ => []
    key_released := fun _ _ => []
    mouse_pressed := fun _ _ => []
    mouse_released := fun _ _ => []
    mouse_move := fun _ => []
    mouse_scrolled := fun _ => [] }

/-- `Application::key_callback_glfw` and `Application::key_callback`
(application.cpp:641-648, 571-588): the calls they make. -/
def Application.key_callback (cls : AppClass) (app : Application)
    (key _scancode action _mode : Int) : List Call :=
  (if cls.dwsf_imgui then [fw (.external "ImGui_ImplGlfw_KeyCallback")] else []) ++
    [fw (.external "glfwGetWindowUserPointer")] ++
    (if key == GLFW_KEY_ESCAPE && action == GLFW_PRESS then
      [fw (.external "glfwSetWindowShouldClose")]
     else []) ++
    (if decide (key ≥ 0) && decide (key < cls.MAX_KEYS) then
      if action == GLFW_PRESS then by_subclass (cls.key_pressed app key)
      else if action == GLFW_RELEASE then by_subclass (cls.key_released app key)
      else []
     else [])

/-- `Application::mouse_callback_glfw` and `Application::mouse_callback`
(application.cpp:652-656, 592-597): the calls they make. -/
def Application.mouse_callback (cls : AppClass) (app : Application) : List Call :=
  [fw (.external "glfwGetWindowUserPointer")] ++ by_subclass (cls.mouse_move app)

/-- `Application::scroll_callback_glfw` and `Application::scroll_callback`
(application.cpp:660-667, 601-604): the calls they make. -/
def Application.scroll_callback (cls : AppClass) (app : Application) : List Call :=
  (if cls.dwsf_imgui then [fw (.external "ImGui_ImplGlfw_ScrollCallback")] else []) ++
    [fw (.external "glfwGetWindowUserPointer")] ++ by_subclass (cls.mouse_scrolled app)

/-- `Application::mouse_button_callback_glfw` and `Application::mouse_button_callback`
(application.cpp:671-678, 608-623): the calls they make. -/
def Application.mouse_button_callback (cls : AppClass) (app : Application)
    (button action _mods : Int) : List Call :=
  (if cls.dwsf_imgui then [fw (.external "ImGui_ImplGlfw_MouseButtonCallback")] else []) ++
    [fw (.external "glfwGetWindowUserPointer")] ++
    (if decide (button ≥ 0) && decide (button < cls.MAX_MOUSE_BUTTONS) then
      if action == GLFW_PRESS then by_subclass (cls.mouse_pressed app button)
      else if action == GLFW_RELEASE then by_subclass (cls.mouse_released app button)
      else []
     else [])

/-- `Application::char_callback_glfw` (application.cpp:682-687). -/
def Application.char_callback (cls : AppClass) : List Call :=
  if cls.dwsf_imgui then [fw (.external "ImGui_ImplGlfw_CharCallback")] else []

/-- `Application::window_size_callback_glfw` and `Application::window_size_callback`
(application.cpp:691-695, 627-637). -/
def Application.window_size_callback (cls : AppClass) (app : Application)
    (width height : Int) : Application × List Call :=
  let app1 := { app with m_width := width, m_height := height,
                         m_should_recreate_swap_chain := true }
  (app1, [fw (.external "glfwGetWindowUserPointer")] ++
    by_subclass (cls.window_resized app1 width height))

/-- One notification delivered to its callback. -/
def Application.dispatch (cls : AppClass) (app : Application) :
    InputEvent → Application × List Call
  | .key key scancode action mode =>
      (app, Application.key_callback cls app key scancode action mode)
  | .cursor_pos => (app, Application.mouse_callback cls app)
  | .scroll => (app, Application.scroll_callback cls app)
  | .mouse_button button action mods =>
      (app, Application.mouse_button_callback cls app button action mods)
  | .char _ => (app, Application.char_callback cls)
  | .window_size width height => Application.window_size_callback cls app width height

/-- `glfwPollEvents` inside `begin_frame`: the pending notifications are delivered to
their callbacks, one after the other. -/
def Application.poll_events (cls : AppClass) (app : Application) :
    List InputEvent → Application × List Call
  | [] => (app, [])
  | e :: rest =>
      let r := Application.dispatch cls app e
      let rs := Application.poll_events cls r.1 rest
      (rs.1, r.2 ++ rs.2)

/-- `Application::begin_frame` (application.cpp:438-474). -/
def Application.begin_frame (cls : AppClass) (app : Application) (input : FrameInput) :
    Application × List Call :=
  let polled := Application.poll_events cls app input.events
  let recreated : Application × List Call :=
    if polled.1.m_should_recreate_swap_chain then
      ({ polled.1 with m_should_recreate_swap_chain := false },
        [fw (.recreate_swapchain polled.1.m_vsync)])
    else (polled.1, [])
  (recreated.1,
    [fw (.external "m_timer.start"), fw (.external "glfwPollEvents")] ++ polled.2 ++
      recreated.2 ++
      [fw (.acquire_next_swap_chain_image recreated.1.m_present_complete_semaphore)] ++
      (if cls.dwsf_imgui then
        [fw (.external "ImGui_ImplVulkan_NewFrame"), fw (.external "ImGui_ImplGlfw_NewFrame"),
         fw (.external "ImGui::NewFrame")]
       else []) ++
      [fw (.external "profiler::begin_frame")])

/-- `Application::update_base` (application.cpp:356-361). -/
def Application.update_base (cls : AppClass) (app : Application) (input : FrameInput) :
    Application × List Call :=
  let b := Application.begin_frame cls app input
  (b.1, b.2 ++ by_subclass (cls.update b.1 input.base) ++ Application.end_frame)

/-- The frame loop of `Application::run` (application.cpp:129-130): one `update_base` per
frame until exit is requested; `inputs` holds the input of each frame that runs. -/
def Application.frame_loop (cls : AppClass) (app : Application) :
    List FrameInput → Application × List Call
  | [] => (app, [])
  | input :: rest =>
      let r := Application.update_base cls app input
      let rs := Application.frame_loop cls r.1 rest
      (rs.1, r.2 ++ rs.2)

/-- The ray-tracing Sample, which overrides none of the input hooks, with example values
for the two array bounds. -/
def example_sample : AppClass :=
  AppClass.inherited_input (Sample.class false [] true) 512 8

/-- A subclass like the ray-tracing Sample, `window_resized` included, that also submits
a command buffer when a key is pressed. -/
def example_class_submitting_on_key : AppClass :=
  { example_sample with
    key_pressed := fun _ _ => [.flush_graphics [7]] }

/-- Two frames; a resize notification arrives while the second one polls. -/
def example_frames_with_resize : List FrameInput :=
  [⟨[], 1⟩, ⟨[.window_size 800 600], 2⟩]

/-- One frame; while it polls, a resize notification arrives and then a key inside the
bound is pressed. -/
def example_frame_resize_then_key : List FrameInput :=
  [⟨[.window_size 800 600, .key 65 0 GLFW_PRESS 0], 1⟩]

end callbacks

namespace vk

/-! # Theorems -/

/-! ## Deferred deletion queue -/

theorem decrement_countdown_snd (e : ObjectPtr × Nat) (h1 : 1 ≤ e.2)
    (h3 : e.2 ≤ kMaxFramesInFlight) : (decrement_countdown e).2 = e.2 - 1 := by
  unfold decrement_countdown kMaxFramesInFlight UINT32_MOD at *
  simp only
  omega

theorem dropWhile_expired_eq_filter (q : List (ObjectPtr × Nat)) (hs : countdowns_sorted q) :
    q.dropWhile countdown_expired = q.filter (fun e => !countdown_expired e) := by
  induction q with
  | nil => rfl
  | cons a t ih =>
    have hs' : countdowns_sorted t := (List.pairwise_cons.mp hs).2
    have hhead := (List.pairwise_cons.mp hs).1
    by_cases ha : countdown_expired a = true
    · simp [List.dropWhile_cons, List.filter_cons, ha, ih hs']
    · have hall : ∀ e ∈ t, (!countdown_expired e) = true := by
        intro e he
        have hle := hhead e he
        simp only [countdown_expired, beq_iff_eq] at ha ⊢
        simp only [Bool.not_eq_true', beq_eq_false_iff_ne, ne_eq]
        omega
      simp [List.dropWhile_cons, List.filter_cons, ha, List.filter_eq_self.mpr hall]

theorem takeWhile_expired_eq_filter (q : List (ObjectPtr × Nat)) (hs : countdowns_sorted q) :
    q.takeWhile countdown_expired = q.filter countdown_expired := by
  induction q with
  | nil => rfl
  | cons a t ih =>
    have hs' : countdowns_sorted t := (List.pairwise_cons.mp hs).2
    have hhead := (List.pairwise_cons.mp hs).1
    by_cases ha : countdown_expired a = true
    · simp [List.takeWhile_cons, List.filter_cons, ha, ih hs']
    · have hall : ∀ e ∈ t, ¬ (countdown_expired e = true) := by
        intro e he
        have hle := hhead e he
        simp only [countdown_expired, beq_iff_eq] at ha ⊢
        omega
      simp [List.takeWhile_cons, List.filter_cons, ha, List.filter_eq_nil_iff.mpr hall]

theorem map_decrement_sorted (q : List (ObjectPtr × Nat)) (hs : countdowns_sorted q)
    (hr : countdowns_in_range q) : countdowns_sorted (q.map decrement_countdown) := by
  unfold countdowns_sorted at *
  rw [List.pairwise_map]
  refine hs.imp_of_mem ?_
  intro a b ha hb hab
  rw [decrement_countdown_snd a (hr a ha).1 (hr a ha).2,
    decrement_countdown_snd b (hr b hb).1 (hr b hb).2]
  omega

theorem queue_object_deletion_inv (b : Backend) (o : ObjectPtr)
    (hs : countdowns_sorted b.m_deletion_queue) (hr : countdowns_in_range b.m_deletion_queue) :
    countdowns_sorted (b.queue_object_deletion o).m_deletion_queue ∧
      countdowns_in_range (b.queue_object_deletion o).m_deletion_queue := by
  constructor
  · unfold countdowns_sorted Backend.queue_object_deletion at *
    simp only
    rw [List.pairwise_append]
    refine ⟨hs, List.pairwise_singleton _ _, ?_⟩
    intro a ha c hc
    simp only [List.mem_singleton] at hc
    subst hc
    exact (hr a ha).2
  · intro e he
    simp only [Backend.queue_object_deletion, List.mem_append, List.mem_singleton] at he
    rcases he with he | he
    · exact hr e he
    · subst he
      simp [kMaxFramesInFlight]

theorem process_deletion_queue_inv (b : Backend)
    (hs : countdowns_sorted b.m_deletion_queue) (hr : countdowns_in_range b.m_deletion_queue) :
    countdowns_sorted b.process_deletion_queue.m_deletion_queue ∧
      countdowns_in_range b.process_deletion_queue.m_deletion_queue := by
  have hsorted := map_decrement_sorted _ hs hr
  have hsub : List.Sublist
      ((b.m_deletion_queue.map decrement_countdown).dropWhile countdown_expired)
      (b.m_deletion_queue.map decrement_countdown) :=
    (List.dropWhile_suffix _).sublist
  constructor
  · exact List.Pairwise.sublist hsub hsorted
  · intro e he
    simp only [Backend.process_deletion_queue] at he
    rw [dropWhile_expired_eq_filter _ hsorted, List.mem_filter, List.mem_map] at he
    obtain ⟨⟨a, ha, rfl⟩, hne⟩ := he
    have h1 := (hr a ha).1
    have h3 := (hr a ha).2
    have hd := decrement_countdown_snd a h1 h3
    simp only [countdown_expired, Bool.not_eq_true', beq_eq_false_iff_ne, ne_eq] at hne
    unfold kMaxFramesInFlight at *
    omega

theorem run_deletion_ops_snoc (b : Backend) (ops : List DeletionOp) (op : DeletionOp) :
    run_deletion_ops b (ops ++ [op]) = DeletionOp.apply (run_deletion_ops b ops) op := by
  simp [run_deletion_ops, List.foldl_append]

theorem run_deletion_ops_inv (n : Nat) (ops : List DeletionOp) :
    countdowns_sorted (run_deletion_ops (Backend.fresh n) ops).m_deletion_queue ∧
      countdowns_in_range (run_deletion_ops (Backend.fresh n) ops).m_deletion_queue := by
  induction ops using List.reverseRecOn with
  | nil =>
    refine ⟨List.Pairwise.nil, ?_⟩
    intro e he
    simp [run_deletion_ops, Backend.fresh] at he
  | append_singleton ops op ih =>
    rw [run_deletion_ops_snoc]
    cases op with
    | queue o => exact queue_object_deletion_inv _ o ih.1 ih.2
    | process => exact process_deletion_queue_inv _ ih.1 ih.2

theorem process_calls_snoc_queue (ops : List DeletionOp) (o : ObjectPtr) :
    process_calls (ops ++ [.queue o]) = process_calls ops := by
  induction ops with
  | nil => rfl
  | cons a t ih => cases a <;> simp [process_calls, ih]

theorem process_calls_snoc_process (ops : List DeletionOp) :
    process_calls (ops ++ [.process]) = process_calls ops + 1 := by
  induction ops with
  | nil => rfl
  | cons a t ih => cases a <;> simp [process_calls, ih]

theorem pending_after_snoc_queue (ops : List DeletionOp) (o : ObjectPtr) :
    pending_after (ops ++ [.queue o]) = pending_after ops ++ [(o, kMaxFramesInFlight)] := by
  induction ops with
  | nil => simp [pending_after, process_calls, kMaxFramesInFlight]
  | cons a t ih =>
    cases a with
    | queue x =>
      simp only [List.cons_append, pending_after, List.append_eq, process_calls_snoc_queue, ih]
      split <;> simp
    | process => simp [pending_after, ih]

theorem decrement_countdown_mk (x : ObjectPtr) (c : Nat) (h1 : 1 ≤ c)
    (h3 : c ≤ kMaxFramesInFlight) : decrement_countdown (x, c) = (x, c - 1) := by
  have h := decrement_countdown_snd (x, c) h1 h3
  exact Prod.ext rfl h

theorem pending_after_snoc_process (ops : List DeletionOp) :
    pending_after (ops ++ [.process]) =
      ((pending_after ops).map decrement_countdown).filter (fun e => !countdown_expired e) := by
  induction ops with
  | nil => simp [pending_after]
  | cons a t ih =>
    cases a with
    | queue x =>
      simp only [List.cons_append, pending_after, List.append_eq, process_calls_snoc_process, ih]
      by_cases h3 : process_calls t < kMaxFramesInFlight
      · have hd := decrement_countdown_mk x (kMaxFramesInFlight - process_calls t)
          (by unfold kMaxFramesInFlight at *; omega) (by unfold kMaxFramesInFlight at *; omega)
        rw [if_pos h3, List.map_cons, List.filter_cons, hd]
        by_cases h2 : process_calls t + 1 < kMaxFramesInFlight
        · have hne : (!countdown_expired (x, kMaxFramesInFlight - process_calls t - 1)) = true := by
            simp only [countdown_expired, Bool.not_eq_true', beq_eq_false_iff_ne, ne_eq]
            unfold kMaxFramesInFlight at *
            omega
          rw [if_pos h2, if_pos hne]
          congr 2
        · have hne : ¬ ((!countdown_expired (x, kMaxFramesInFlight - process_calls t - 1))
              = true) := by
            simp only [countdown_expired, Bool.not_eq_true', beq_eq_false_iff_ne, ne_eq,
              not_not]
            unfold kMaxFramesInFlight at *
            omega
          rw [if_neg h2, if_neg hne]
      · have h2 : ¬ process_calls t + 1 < kMaxFramesInFlight := by omega
        rw [if_neg h3, if_neg h2]
    | process => simp [pending_after, ih]

theorem destroyed_after_snoc_queue (ops : List DeletionOp) (o : ObjectPtr) :
    destroyed_after (ops ++ [.queue o]) = destroyed_after ops := by
  induction ops with
  | nil => simp [destroyed_after, process_calls, kMaxFramesInFlight]
  | cons a t ih =>
    cases a with
    | queue x =>
      simp only [List.cons_append, destroyed_after, List.append_eq, process_calls_snoc_queue, ih]
    | process => simp [destroyed_after, ih]

theorem destroyed_after_eq_nil (ops : List DeletionOp)
    (h : process_calls ops < kMaxFramesInFlight) : destroyed_after ops = [] := by
  induction ops with
  | nil => rfl
  | cons a t ih =>
    cases a with
    | queue x =>
      simp only [process_calls] at h
      simp only [destroyed_after]
      rw [if_neg (by omega), ih h]
    | process =>
      simp only [process_calls] at h
      simp only [destroyed_after]
      exact ih (by omega)

theorem destroyed_after_snoc_process (ops : List DeletionOp) :
    destroyed_after (ops ++ [.process]) =
      destroyed_after ops ++ queued_with_processes 2 ops := by
  induction ops with
  | nil => simp [destroyed_after, queued_with_processes]
  | cons a t ih =>
    cases a with
    | queue x =>
      simp only [List.cons_append, destroyed_after, queued_with_processes, List.append_eq,
        process_calls_snoc_process, ih]
      by_cases h3 : kMaxFramesInFlight ≤ process_calls t
      · have h3' : kMaxFramesInFlight ≤ process_calls t + 1 := by omega
        have h2 : ¬ process_calls t = 2 := by unfold kMaxFramesInFlight at h3; omega
        rw [if_pos h3, if_pos h3', if_neg h2]
        rfl
      · by_cases h2 : process_calls t = 2
        · have h3' : kMaxFramesInFlight ≤ process_calls t + 1 := by
            unfold kMaxFramesInFlight; omega
          rw [if_neg h3, if_pos h3', if_pos h2, destroyed_after_eq_nil t (by omega)]
          rfl
        · have h3' : ¬ kMaxFramesInFlight ≤ process_calls t + 1 := by
            unfold kMaxFramesInFlight at *; omega
          rw [if_neg h3, if_neg h3', if_neg h2]
    | process => simp [destroyed_after, queued_with_processes, ih]

theorem expired_of_pending_after (ops : List DeletionOp) :
    (((pending_after ops).map decrement_countdown).filter countdown_expired).map Prod.fst =
      queued_with_processes 2 ops := by
  induction ops with
  | nil => rfl
  | cons a t ih =>
    cases a with
    | queue x =>
      simp only [pending_after, queued_with_processes]
      by_cases h3 : process_calls t < kMaxFramesInFlight
      · have hd := decrement_countdown_mk x (kMaxFramesInFlight - process_calls t)
          (by unfold kMaxFramesInFlight at *; omega) (by unfold kMaxFramesInFlight at *; omega)
        rw [if_pos h3, List.map_cons, List.filter_cons, hd]
        by_cases h2 : process_calls t = 2
        · have he : countdown_expired (x, kMaxFramesInFlight - process_calls t - 1) = true := by
            simp only [countdown_expired, beq_iff_eq]
            unfold kMaxFramesInFlight
            omega
          rw [if_pos he, if_pos h2, List.map_cons, ih]
        · have he : ¬ countdown_expired (x, kMaxFramesInFlight - process_calls t - 1) = true := by
            simp only [countdown_expired, beq_iff_eq]
            unfold kMaxFramesInFlight at *
            omega
          rw [if_neg he, if_neg h2, ih]
      · have h2 : ¬ process_calls t = 2 := by unfold kMaxFramesInFlight at h3; omega
        rw [if_neg h3, if_neg h2, ih]
    | process => simpa [pending_after, queued_with_processes] using ih

theorem pending_after_sorted (ops : List DeletionOp) :
    countdowns_sorted (pending_after ops) ∧ countdowns_in_range (pending_after ops) ∧
      ∀ e ∈ pending_after ops, kMaxFramesInFlight - process_calls ops ≤ e.2 := by
  induction ops with
  | nil =>
    refine ⟨List.Pairwise.nil, ?_, ?_⟩ <;> intro e he <;> simp [pending_after] at he
  | cons a t ih =>
    obtain ⟨ihs, ihr, ihl⟩ := ih
    cases a with
    | queue x =>
      simp only [pending_after, process_calls]
      by_cases h3 : process_calls t < kMaxFramesInFlight
      · rw [if_pos h3]
        refine ⟨List.pairwise_cons.mpr ⟨fun e he => ihl e he, ihs⟩, ?_, ?_⟩
        · intro e he
          rcases List.mem_cons.mp he with rfl | he
          · simp only
            unfold kMaxFramesInFlight at *
            omega
          · exact ihr e he
        · intro e he
          rcases List.mem_cons.mp he with rfl | he
          · exact le_refl _
          · exact ihl e he
      · rw [if_neg h3]
        exact ⟨ihs, ihr, ihl⟩
    | process =>
      simp only [pending_after, process_calls]
      refine ⟨ihs, ihr, ?_⟩
      intro e he
      have := ihl e he
      omega

theorem run_deletion_ops_eq (n : Nat) (ops : List DeletionOp) :
    run_deletion_ops (Backend.fresh n) ops =
      { Backend.fresh n with
        m_deletion_queue := pending_after ops
        destroyed := destroyed_after ops } := by
  induction ops using List.reverseRecOn with
  | nil => rfl
  | append_singleton ops op ih =>
    rw [run_deletion_ops_snoc, ih]
    cases op with
    | queue o =>
      simp only [DeletionOp.apply, Backend.queue_object_deletion, pending_after_snoc_queue,
        destroyed_after_snoc_queue]
    | process =>
      obtain ⟨hs, hr, _⟩ := pending_after_sorted ops
      have hsorted := map_decrement_sorted _ hs hr
      simp only [DeletionOp.apply, Backend.process_deletion_queue, pending_after_snoc_process,
        destroyed_after_snoc_process]
      rw [dropWhile_expired_eq_filter _ hsorted, takeWhile_expired_eq_filter _ hsorted,
        expired_of_pending_after]

theorem process_calls_map_queue (objs : List ObjectPtr) (rest : List DeletionOp) :
    process_calls (objs.map DeletionOp.queue ++ rest) = process_calls rest := by
  induction objs with
  | nil => rfl
  | cons a t ih => simpa [process_calls] using ih

theorem pending_after_map_queue (objs : List ObjectPtr) (rest : List DeletionOp)
    (h : process_calls rest < kMaxFramesInFlight) :
    pending_after (objs.map DeletionOp.queue ++ rest) =
      objs.map (fun o => (o, kMaxFramesInFlight - process_calls rest)) ++ pending_after rest := by
  induction objs with
  | nil => rfl
  | cons a t ih =>
    simp only [List.map_cons, List.cons_append, pending_after, List.append_eq,
      process_calls_map_queue, if_pos h, ih]

theorem destroyed_after_map_queue (objs : List ObjectPtr) (rest : List DeletionOp)
    (h : kMaxFramesInFlight ≤ process_calls rest) :
    destroyed_after (objs.map DeletionOp.queue ++ rest) = objs ++ destroyed_after rest ∧
      pending_after (objs.map DeletionOp.queue ++ rest) = pending_after rest := by
  induction objs with
  | nil => exact ⟨rfl, rfl⟩
  | cons a t ih =>
    have h' : ¬ process_calls rest < kMaxFramesInFlight := by omega
    simp only [List.map_cons, List.cons_append, pending_after, destroyed_after, List.append_eq,
      process_calls_map_queue, if_pos h, if_neg h', ih.1, ih.2, and_self]

/-- C1: starting from the empty queue, after any interleaving of `queue_object_deletion`
and `process_deletion_queue` calls the queue holds exactly the objects whose enqueue
is followed by fewer than `kMaxFramesInFlight` (3) process calls and the destroyed
objects are exactly those followed by at least 3; a process call destroys exactly the
objects whose enqueue is followed by exactly 2 earlier process calls, so each object
dies during the 3rd process call after its enqueue and never earlier.  N objects
queued back-to-back are all pending after 2 process calls and all destroyed after the
3rd, and with one object queued before each of three process calls the first is
destroyed after the 3rd call while the second and third are still queued. -/
theorem deletion_after_exactly_kMaxFramesInFlight_process_calls :
    (∀ (n : Nat) (ops : List DeletionOp),
      (run_deletion_ops (Backend.fresh n) ops).m_deletion_queue = pending_after ops ∧
      (run_deletion_ops (Backend.fresh n) ops).destroyed = destroyed_after ops) ∧
    (∀ (n : Nat) (ops : List DeletionOp),
      (run_deletion_ops (Backend.fresh n) (ops ++ [.process])).destroyed =
        (run_deletion_ops (Backend.fresh n) ops).destroyed ++
          queued_with_processes (kMaxFramesInFlight - 1) ops) ∧
    (∀ (n : Nat) (objs : List ObjectPtr),
      (run_deletion_ops (Backend.fresh n)
          (objs.map DeletionOp.queue ++ [.process, .process])).destroyed = [] ∧
      (run_deletion_ops (Backend.fresh n)
          (objs.map DeletionOp.queue ++ [.process, .process])).m_deletion_queue =
        objs.map (fun o => (o, 1)) ∧
      (run_deletion_ops (Backend.fresh n)
          (objs.map DeletionOp.queue ++ [.process, .process, .process])).destroyed = objs ∧
      (run_deletion_ops (Backend.fresh n)
          (objs.map DeletionOp.queue ++ [.process, .process, .process])).m_deletion_queue = []) ∧
    (∀ (n : Nat) (a b c : ObjectPtr),
      (run_deletion_ops (Backend.fresh n)
          [.queue a, .process, .queue b, .process, .queue c, .process]).destroyed = [a] ∧
      (run_deletion_ops (Backend.fresh n)
          [.queue a, .process, .queue b, .process, .queue c, .process]).m_deletion_queue =
        [(b, 1), (c, 2)]) := by
  refine ⟨?_, ?_, ?_, ?_⟩
  · intro n ops
    rw [run_deletion_ops_eq]
    exact ⟨rfl, rfl⟩
  · intro n ops
    rw [run_deletion_ops_eq, run_deletion_ops_eq]
    exact destroyed_after_snoc_process ops
  · intro n objs
    have h2 : process_calls [DeletionOp.process, DeletionOp.process] < kMaxFramesInFlight := by
      decide
    have h3 : kMaxFramesInFlight ≤
        process_calls [DeletionOp.process, DeletionOp.process, DeletionOp.process] := by
      decide
    rw [run_deletion_ops_eq, run_deletion_ops_eq]
    refine ⟨?_, ?_, ?_, ?_⟩
    · exact destroyed_after_eq_nil _ (by rw [process_calls_map_queue]; exact h2)
    · simp only [pending_after_map_queue objs _ h2]
      simp [pending_after, process_calls, kMaxFramesInFlight]
    · simp only [(destroyed_after_map_queue objs _ h3).1]
      simp [destroyed_after]
    · simp only [(destroyed_after_map_queue objs _ h3).2]
      simp [pending_after]
  · intro n a b c
    rw [run_deletion_ops_eq]
    simp [pending_after, destroyed_after, process_calls, kMaxFramesInFlight]

/-- C9: in every state reachable from the empty queue the countdowns are non-decreasing
from front to back and lie in `[1, kMaxFramesInFlight]`; so after the decrement the
entries at zero form a contiguous prefix of the queue (the aged queue is its expired
entries followed by its live entries), and the front scan of
`process_deletion_queue` destroys the same entries in the same order, and keeps the
same entries, as a full scan. -/
theorem deletion_queue_front_scan_suffices (n : Nat) (ops : List DeletionOp) :
    countdowns_sorted (run_deletion_ops (Backend.fresh n) ops).m_deletion_queue ∧
    countdowns_in_range (run_deletion_ops (Backend.fresh n) ops).m_deletion_queue ∧
    ((run_deletion_ops (Backend.fresh n) ops).m_deletion_queue.map decrement_countdown =
      ((run_deletion_ops (Backend.fresh n) ops).m_deletion_queue.map
          decrement_countdown).filter countdown_expired ++
        ((run_deletion_ops (Backend.fresh n) ops).m_deletion_queue.map
          decrement_countdown).filter (fun e => !countdown_expired e)) ∧
    (run_deletion_ops (Backend.fresh n) ops).process_deletion_queue =
      (run_deletion_ops (Backend.fresh n) ops).process_deletion_queue_full_scan := by
  obtain ⟨hs, hr⟩ := run_deletion_ops_inv n ops
  have hsorted := map_decrement_sorted _ hs hr
  refine ⟨hs, hr, ?_, ?_⟩
  · rw [← dropWhile_expired_eq_filter _ hsorted, ← takeWhile_expired_eq_filter _ hsorted,
      List.takeWhile_append_dropWhile]
  · simp only [Backend.process_deletion_queue, Backend.process_deletion_queue_full_scan]
    rw [dropWhile_expired_eq_filter _ hsorted, takeWhile_expired_eq_filter _ hsorted]

/-! ## Frame slot -/

theorem frames_snoc (b : Backend) (imgs : List Nat) (img : Nat) :
    b.frames (imgs ++ [img]) = (b.frames imgs).frame img := by
  simp [Backend.frames, List.foldl_append]

theorem frame_current_frame (b : Backend) (img : Nat) :
    (b.frame img).m_current_frame =
      ((b.m_current_frame + 1) % UINT32_MOD) % kMaxFramesInFlight := rfl

theorem frames_current_frame (n_images : Nat) (imgs : List Nat) :
    ((Backend.fresh n_images).frames imgs).m_current_frame =
      imgs.length % kMaxFramesInFlight := by
  induction imgs using List.reverseRecOn with
  | nil => rfl
  | append_singleton imgs img ih =>
    rw [frames_snoc, frame_current_frame, ih, List.length_append, List.length_singleton]
    unfold UINT32_MOD kMaxFramesInFlight
    omega

/-- C2: starting from frame slot 0, after `n` completed frames `current_frame_idx()` is
`n mod kMaxFramesInFlight`; every frame moves it to `(slot + 1) mod 3`, it is always
below 3, and two runs of the same length end in the same slot whatever the number
of swapchain images and whatever image indices acquire returned. -/
theorem current_frame_idx_round_robin :
    (∀ (n_images : Nat) (imgs : List Nat),
      ((Backend.fresh n_images).frames imgs).current_frame_idx =
        imgs.length % kMaxFramesInFlight ∧
      ((Backend.fresh n_images).frames imgs).current_frame_idx < kMaxFramesInFlight) ∧
    (∀ (n_images : Nat) (imgs : List Nat) (img : Nat),
      ((Backend.fresh n_images).frames (imgs ++ [img])).current_frame_idx =
        (((Backend.fresh n_images).frames imgs).current_frame_idx + 1) % kMaxFramesInFlight) ∧
    (∀ (n_images n_images2 : Nat) (imgs : List (Nat × Nat)),
      ((Backend.fresh n_images).frames (imgs.map Prod.fst)).current_frame_idx =
        ((Backend.fresh n_images2).frames (imgs.map Prod.snd)).current_frame_idx) := by
  refine ⟨?_, ?_, ?_⟩
  · intro n_images imgs
    simp only [Backend.current_frame_idx, frames_current_frame]
    exact ⟨trivial, Nat.mod_lt _ (by decide)⟩
  · intro n_images imgs img
    simp only [Backend.current_frame_idx, frames_current_frame, List.length_append,
      List.length_singleton]
    unfold kMaxFramesInFlight
    omega
  · intro n1 n2 imgs
    simp only [Backend.current_frame_idx, frames_current_frame, List.length_map]

/-! ## StagingBuffer -/

theorem insert_data_facts (sb : StagingBuffer) (data : List Nat)
    (hc : sb.m_current_size ≤ sb.m_total_size) (ht : sb.m_total_size < SIZE_MOD)
    (hs : data.length ≤ sb.m_total_size - sb.m_current_size) :
    (sb.insert_data data).2 = sb.m_current_size ∧
    (sb.insert_data data).1.m_current_size = sb.m_current_size + data.length ∧
    (sb.insert_data data).1.m_total_size = sb.m_total_size ∧
    (sb.insert_data data).1.remaining_size = sb.remaining_size - data.length ∧
    sb.remaining_size = sb.m_total_size - sb.m_current_size := by
  have hcur : (sb.m_current_size + data.length) % SIZE_MOD = sb.m_current_size + data.length :=
    Nat.mod_eq_of_lt (by omega)
  refine ⟨rfl, hcur, rfl, ?_, ?_⟩
  · simp only [StagingBuffer.remaining_size, StagingBuffer.insert_data, hcur]
    unfold SIZE_MOD at *
    omega
  · simp only [StagingBuffer.remaining_size]
    unfold SIZE_MOD at *
    omega

theorem insert_all_ranges (datas : List (List Nat)) :
    ∀ (sb : StagingBuffer), sb.m_current_size ≤ sb.m_total_size → sb.m_total_size < SIZE_MOD →
      total_bytes datas ≤ sb.m_total_size - sb.m_current_size →
      (sb.insert_all datas).1.m_current_size = sb.m_current_size + total_bytes datas ∧
      (sb.insert_all datas).1.m_total_size = sb.m_total_size ∧
      (∀ r ∈ (sb.insert_all datas).2,
        sb.m_current_size ≤ r.1 ∧ r.1 + r.2 ≤ sb.m_current_size + total_bytes datas) ∧
      (sb.insert_all datas).2.Pairwise (fun r1 r2 => r1.1 + r1.2 ≤ r2.1) := by
  induction datas with
  | nil =>
    intro sb _ _ _
    simp [StagingBuffer.insert_all, total_bytes]
  | cons data rest ih =>
    intro sb hc ht hs
    have hsum : total_bytes (data :: rest) = data.length + total_bytes rest := by
      simp [total_bytes]
    rw [hsum] at hs ⊢
    obtain ⟨h2, hcur, htot, _, _⟩ := insert_data_facts sb data hc ht (by omega)
    obtain ⟨ic, it, ir, ip⟩ := ih (sb.insert_data data).1 (by rw [hcur, htot]; omega)
      (by rw [htot]; exact ht) (by rw [hcur, htot]; omega)
    simp only [StagingBuffer.insert_all]
    refine ⟨by rw [ic, hcur]; omega, by rw [it, htot], ?_, ?_⟩
    · intro r hr
      rcases List.mem_cons.mp hr with rfl | hr
      · simp only [h2]
        omega
      · have := ir r hr
        rw [hcur] at this
        omega
    · refine List.pairwise_cons.mpr ⟨?_, ip⟩
      intro r hr
      have := ir r hr
      rw [hcur] at this
      simp only [h2]
      omega

/-- C10: for a staging buffer with current offset `c <= t` (total size, a `size_t`) and an
insert of `s <= t - c` bytes, `insert_data` returns `c`, `remaining_size()` drops by
exactly `s`, `total_size()` is unchanged, the current offset does not decrease,
`remaining_size() + current offset = total_size()` holds before and after, and
successive inserts that fit occupy pairwise disjoint byte ranges, each lying after the
previous one. -/
theorem staging_buffer_bump_allocation (sb : StagingBuffer) (data : List Nat)
    (datas : List (List Nat))
    (hc : sb.m_current_size ≤ sb.m_total_size) (ht : sb.m_total_size < SIZE_MOD)
    (hs : data.length ≤ sb.m_total_size - sb.m_current_size)
    (hall : total_bytes datas ≤ sb.m_total_size - sb.m_current_size) :
    (sb.insert_data data).2 = sb.m_current_size ∧
    (sb.insert_data data).1.remaining_size + data.length = sb.remaining_size ∧
    (sb.insert_data data).1.total_size = sb.total_size ∧
    sb.m_current_size ≤ (sb.insert_data data).1.m_current_size ∧
    (sb.insert_data data).1.m_current_size ≤ (sb.insert_data data).1.m_total_size ∧
    sb.remaining_size + sb.m_current_size = sb.total_size ∧
    (sb.insert_data data).1.remaining_size + (sb.insert_data data).1.m_current_size =
      (sb.insert_data data).1.total_size ∧
    (sb.insert_all datas).2.Pairwise (fun r1 r2 => r1.1 + r1.2 ≤ r2.1) ∧
    (∀ r ∈ (sb.insert_all datas).2, sb.m_current_size ≤ r.1 ∧ r.1 + r.2 ≤ sb.m_total_size) := by
  obtain ⟨h2, hcur, htot, hrem, hrem0⟩ := insert_data_facts sb data hc ht hs
  obtain ⟨_, _, ir, ip⟩ := insert_all_ranges datas sb hc ht hall
  refine ⟨h2, ?_, htot, ?_, ?_, ?_, ?_, ip, ?_⟩
  · rw [hrem, hrem0]; omega
  · rw [hcur]; omega
  · rw [hcur, htot]; omega
  · rw [hrem0]; simp only [StagingBuffer.total_size]; omega
  · rw [hrem, hrem0, hcur]; simp only [StagingBuffer.total_size, htot]; omega
  · intro r hr
    have := ir r hr
    omega

/-- Witness for C10: a 16-byte staging buffer holding 4 bytes receives 3 more, then a
sequence of three inserts of 2, 0 and 5 bytes. -/
theorem staging_buffer_bump_allocation_witness :
    ((StagingBuffer.mk (fun _ => 0) 16 4).insert_data [7, 8, 9]).2 = 4 ∧
    ((StagingBuffer.mk (fun _ => 0) 16 4).insert_data [7, 8, 9]).1.remaining_size + 3 =
      (StagingBuffer.mk (fun _ => 0) 16 4).remaining_size ∧
    ((StagingBuffer.mk (fun _ => 0) 16 4).insert_all [[1, 2], [], [3, 4, 5, 6, 7]]).2 =
      [(4, 2), (6, 0), (6, 5)] := by
  have h := staging_buffer_bump_allocation (StagingBuffer.mk (fun _ => 0) 16 4) [7, 8, 9]
    [[1, 2], [], [3, 4, 5, 6, 7]] (by decide) (by decide) (by decide) (by decide)
  exact ⟨h.1, h.2.1, by decide⟩

/-! ## BatchUploader -/

theorem stack_extends_refl (stack : List StagingBuffer) : stack_extends stack stack :=
  fun _ sb h => ⟨sb, h, le_refl _, rfl, fun _ _ => rfl⟩

theorem stack_extends_trans {s1 s2 s3 : List StagingBuffer} (h12 : stack_extends s1 s2)
    (h23 : stack_extends s2 s3) : stack_extends s1 s3 := by
  intro i sb h
  obtain ⟨sb2, e2, c2, t2, m2⟩ := h12 i sb h
  obtain ⟨sb3, e3, c3, t3, m3⟩ := h23 i sb2 e2
  exact ⟨sb3, e3, le_trans c2 c3, t3.trans t2,
    fun a ha => (m3 a (lt_of_lt_of_le ha c2)).trans (m2 a ha)⟩

theorem stack_extends_append (stack : List StagingBuffer) (sb : StagingBuffer) :
    stack_extends stack (stack ++ [sb]) := by
  intro i x h
  have hi : i < stack.length := (List.getElem?_eq_some_iff.mp h).1
  exact ⟨x, by rw [List.getElem?_append_left hi]; exact h, le_refl _, rfl, fun _ _ => rfl⟩

theorem exec_copy_congr {stack stack2 : List StagingBuffer} (h : stack_extends stack stack2)
    (mem : DeviceMemory) (c : BufferCopy) (hc : copy_in_bounds stack c) :
    exec_copy stack2 mem c = exec_copy stack mem c := by
  obtain ⟨sb, hsb, hb⟩ := hc
  obtain ⟨sb2, hsb2, _, _, hm⟩ := h c.src sb hsb
  funext b a
  simp only [exec_copy]
  by_cases hcond : b = c.dst ∧ c.dst_offset ≤ a ∧ a < c.dst_offset + c.size
  · rw [if_pos hcond, if_pos hcond]
    simp only [staging_read, hsb, hsb2]
    exact hm _ (by omega)
  · rw [if_neg hcond, if_neg hcond]

theorem foldl_exec_copy_congr {stack stack2 : List StagingBuffer}
    (h : stack_extends stack stack2) (cmds : List BufferCopy)
    (hc : ∀ c ∈ cmds, copy_in_bounds stack c) (mem : DeviceMemory) :
    cmds.foldl (exec_copy stack2) mem = cmds.foldl (exec_copy stack) mem := by
  induction cmds generalizing mem with
  | nil => rfl
  | cons c t ih =>
    simp only [List.foldl_cons]
    rw [exec_copy_congr h mem c (hc c (List.mem_cons_self _ _))]
    exact ih (fun x hx => hc x (List.mem_cons_of_mem _ hx)) _

theorem copy_in_bounds_mono {stack stack2 : List StagingBuffer}
    (h : stack_extends stack stack2) (c : BufferCopy) (hc : copy_in_bounds stack c) :
    copy_in_bounds stack2 c := by
  obtain ⟨sb, hsb, hb⟩ := hc
  obtain ⟨sb2, hsb2, hle, _, _⟩ := h c.src sb hsb
  exact ⟨sb2, hsb2, le_trans hb hle⟩

/-- What bump-inserting `data` into the top buffer `t` of a stack does to the stack. -/
theorem set_top_facts (stack : List StagingBuffer) (t : StagingBuffer) (data : List Nat)
    (hwf : stack_wf stack) (htop : stack[stack.length - 1]? = some t)
    (hfit : data.length ≤ t.m_total_size - t.m_current_size) :
    stack_wf (stack.set (stack.length - 1) (t.insert_data data).1) ∧
    stack_extends stack (stack.set (stack.length - 1) (t.insert_data data).1) ∧
    (stack.set (stack.length - 1) (t.insert_data data).1).length = stack.length ∧
    ∃ sb2, (stack.set (stack.length - 1) (t.insert_data data).1)[stack.length - 1]? = some sb2 ∧
      (t.insert_data data).2 + data.length ≤ sb2.m_current_size ∧
      ∀ k, k < data.length → sb2.m_mapped_ptr ((t.insert_data data).2 + k) = data.getD k 0 := by
  have hn : stack.length - 1 < stack.length := (List.getElem?_eq_some_iff.mp htop).1
  have ht := hwf t (List.getElem?_mem htop)
  obtain ⟨h2, hcur, htot, _, _⟩ := insert_data_facts t data ht.1 ht.2 hfit
  refine ⟨?_, ?_, List.length_set _ _ _, ?_⟩
  · intro sb hsb
    rcases List.mem_or_eq_of_mem_set hsb with h | h
    · exact hwf sb h
    · subst h
      rw [hcur, htot]
      exact ⟨by omega, ht.2⟩
  · intro i sb hsb
    by_cases hi : stack.length - 1 = i
    · subst hi
      rw [htop] at hsb
      cases hsb
      refine ⟨(t.insert_data data).1, List.getElem?_set_self hn, by rw [hcur]; omega,
        htot, ?_⟩
      intro a ha
      simp only [StagingBuffer.insert_data]
      rw [if_neg (by omega)]
    · exact ⟨sb, by rw [List.getElem?_set_ne hi]; exact hsb, le_refl _, rfl, fun _ _ => rfl⟩
  · refine ⟨(t.insert_data data).1, List.getElem?_set_self hn, by rw [h2, hcur], ?_⟩
    intro k hk
    simp only [StagingBuffer.insert_data]
    rw [if_pos (by omega)]
    congr 1
    omega

theorem ensure_facts (u : BatchUploader) (size : Nat) (hwf : stack_wf u.m_staging_buffers)
    (hs : size < SIZE_MOD) (hcap : u.staging_capacity < SIZE_MOD) :
    stack_wf (if u.needs_staging_buffer size then u.add_staging_buffer size
      else u).m_staging_buffers ∧
    stack_extends u.m_staging_buffers (if u.needs_staging_buffer size then
      u.add_staging_buffer size else u).m_staging_buffers ∧
    (if u.needs_staging_buffer size then u.add_staging_buffer size else u).m_cmd = u.m_cmd ∧
    (if u.needs_staging_buffer size then u.add_staging_buffer size
      else u).staging_capacity = u.staging_capacity ∧
    ∃ t, (if u.needs_staging_buffer size then u.add_staging_buffer size else u).top = some t ∧
      size ≤ t.m_total_size - t.m_current_size := by
  by_cases hn : u.needs_staging_buffer size = true
  · simp only [hn, if_true]
    have hmax : max size u.staging_capacity < SIZE_MOD := max_lt hs hcap
    have htot : (StagingBuffer.create (max size u.staging_capacity)).m_total_size =
        max size u.staging_capacity := Nat.mod_eq_of_lt hmax
    refine ⟨?_, stack_extends_append _ _, rfl, rfl,
      StagingBuffer.create (max size u.staging_capacity), ?_, ?_⟩
    · intro sb hsb
      simp only [BatchUploader.add_staging_buffer, List.mem_append, List.mem_singleton] at hsb
      rcases hsb with h | h
      · exact hwf sb h
      · subst h
        rw [htot]
        exact ⟨Nat.zero_le _, hmax⟩
    · simp [BatchUploader.top, BatchUploader.add_staging_buffer]
    · rw [htot]
      simp only [StagingBuffer.create, Nat.sub_zero]
      exact le_max_left _ _
  · rw [if_neg hn]
    refine ⟨hwf, stack_extends_refl _, rfl, rfl, ?_⟩
    unfold BatchUploader.needs_staging_buffer at hn
    cases htop : u.top with
    | none => simp [htop] at hn
    | some t =>
      simp only [htop, decide_eq_true_eq, not_lt] at hn
      refine ⟨t, rfl, ?_⟩
      have ht := hwf t (List.getElem?_mem htop)
      simp only [StagingBuffer.remaining_size] at hn
      unfold SIZE_MOD at *
      omega

theorem insert_data_step (u : BatchUploader) (data : List Nat)
    (hwf : stack_wf u.m_staging_buffers) (hs : data.length < SIZE_MOD)
    (hcap : u.staging_capacity < SIZE_MOD) :
    stack_wf (u.insert_data data).1.m_staging_buffers ∧
    stack_extends u.m_staging_buffers (u.insert_data data).1.m_staging_buffers ∧
    (u.insert_data data).1.m_cmd = u.m_cmd ∧
    (u.insert_data data).1.staging_capacity = u.staging_capacity ∧
    ∃ sb2, (u.insert_data data).1.m_staging_buffers[(u.insert_data data).2.1]? = some sb2 ∧
      (u.insert_data data).2.2 + data.length ≤ sb2.m_current_size ∧
      ∀ k, k < data.length →
        sb2.m_mapped_ptr ((u.insert_data data).2.2 + k) = data.getD k 0 := by
  obtain ⟨hwf1, hext1, hcmd1, hcap1, t, htop, hfit⟩ := ensure_facts u data.length hwf hs hcap
  have htop2 := htop
  unfold BatchUploader.top at htop2
  obtain ⟨hwf2, hext2, _, sb2, hsb2, hb, hm⟩ := set_top_facts _ t data hwf1 htop2 hfit
  simp only [BatchUploader.insert_data, htop]
  exact ⟨hwf2, stack_extends_trans hext1 hext2, hcmd1, hcap1, sb2, hsb2, hb, hm⟩

theorem exec_copy_eq_write_direct (stack : List StagingBuffer) (mem : DeviceMemory)
    (up : Upload) (src src_offset : Nat) (sb : StagingBuffer) (hsb : stack[src]? = some sb)
    (hm : ∀ k, k < up.data.length → sb.m_mapped_ptr (src_offset + k) = up.data.getD k 0) :
    exec_copy stack mem
      { src := src, src_offset := src_offset, dst := up.buffer, dst_offset := up.offset,
        size := up.data.length } = write_direct mem up := by
  funext b a
  simp only [exec_copy, write_direct]
  by_cases hcond : b = up.buffer ∧ up.offset ≤ a ∧ a < up.offset + up.data.length
  · rw [if_pos hcond, if_pos hcond]
    simp only [staging_read, hsb]
    exact hm _ (by omega)
  · rw [if_neg hcond, if_neg hcond]

theorem upload_buffer_data_inv (u : BatchUploader) (uploads : List Upload) (up : Upload)
    (hinv : uploader_inv u uploads) (hs : up.data.length < SIZE_MOD) :
    uploader_inv (u.upload_buffer_data up) (uploads ++ [up]) := by
  obtain ⟨hwf, hcap, hb, hrun⟩ := hinv
  obtain ⟨hwf2, hext, hcmd, hcap2, sb2, hsb2, hbound, hm⟩ :=
    insert_data_step u up.data hwf hs hcap
  refine ⟨hwf2, by rw [← hcap2] at hcap; exact hcap, ?_, ?_⟩
  · intro c hc
    simp only [BatchUploader.upload_buffer_data, List.mem_append, List.mem_singleton] at hc
    rcases hc with h | h
    · rw [hcmd] at h
      exact copy_in_bounds_mono hext c (hb c h)
    · subst h
      exact ⟨sb2, hsb2, hbound⟩
  · intro mem
    simp only [BatchUploader.upload_buffer_data, List.foldl_append, List.foldl_cons,
      List.foldl_nil]
    rw [hcmd, foldl_exec_copy_congr hext _ hb, hrun]
    exact exec_copy_eq_write_direct _ _ up _ _ sb2 hsb2 hm

theorem upload_all_snoc (u : BatchUploader) (uploads : List Upload) (up : Upload) :
    u.upload_all (uploads ++ [up]) = (u.upload_all uploads).upload_buffer_data up := by
  simp [BatchUploader.upload_all, List.foldl_append]

theorem upload_all_inv (cap : Nat) (uploads : List Upload) (hcap : cap < SIZE_MOD)
    (hs : ∀ up ∈ uploads, up.data.length < SIZE_MOD) :
    uploader_inv ((BatchUploader.create cap).upload_all uploads) uploads := by
  induction uploads using List.reverseRecOn with
  | nil =>
    refine ⟨?_, hcap, ?_, fun _ => rfl⟩
    · intro sb hsb
      simp [BatchUploader.upload_all, BatchUploader.create] at hsb
    · intro c hc
      simp [BatchUploader.upload_all, BatchUploader.create] at hc
  | append_singleton ups up ih =>
    rw [upload_all_snoc]
    exact upload_buffer_data_inv _ ups up
      (ih (fun x hx => hs x (List.mem_append_left _ hx)))
      (hs up (List.mem_append_right _ (List.mem_singleton_self _)))

theorem foldl_write_direct_not_covered (post : List Upload) (mem : DeviceMemory) (b a : Nat)
    (h : ∀ later ∈ post, later.covers b a = false) :
    post.foldl write_direct mem b a = mem b a := by
  induction post generalizing mem with
  | nil => rfl
  | cons up t ih =>
    simp only [List.foldl_cons]
    rw [ih _ (fun x hx => h x (List.mem_cons_of_mem _ hx))]
    have hup := h up (List.mem_cons_self _ _)
    simp only [Upload.covers, decide_eq_false_iff_not] at hup
    simp only [write_direct]
    rw [if_neg hup]

theorem upload_buffer_data_length (u : BatchUploader) (up : Upload) :
    (u.upload_buffer_data up).m_staging_buffers.length =
      u.m_staging_buffers.length + (if u.needs_staging_buffer up.data.length then 1 else 0) := by
  by_cases hn : u.needs_staging_buffer up.data.length = true
  · have htop : (u.add_staging_buffer up.data.length).top =
        some (StagingBuffer.create (max up.data.length u.staging_capacity)) := by
      simp [BatchUploader.top, BatchUploader.add_staging_buffer]
    simp only [BatchUploader.upload_buffer_data, BatchUploader.insert_data, hn, if_true, htop,
      List.length_set]
    simp [BatchUploader.add_staging_buffer]
  · rw [if_neg hn]
    have hn2 := hn
    unfold BatchUploader.needs_staging_buffer at hn2
    cases htop : u.top with
    | none => simp [htop] at hn2
    | some t =>
      simp only [BatchUploader.upload_buffer_data, BatchUploader.insert_data]
      rw [if_neg hn]
      simp only [htop, List.length_set, Nat.add_zero]

/-- C8 as stated fails on two counts.  With two uploads to overlapping ranges of one
buffer, `[1, 2]` at offset 0 and then `[9]` at offset 1, byte 1 of the buffer holds 9
after `submit()`, not the source byte 2 of the upload addressed to `[0, 2)`: the later
copy wins.  And the first upload on a fresh uploader pushes a staging buffer although
the stack is empty, so that no top buffer has a `remaining_size()` smaller than the
upload. -/
theorem batch_upload_overlap_later_upload_wins :
    (((BatchUploader.create 4).upload_all [⟨0, [1, 2], 0⟩, ⟨0, [9], 1⟩]).submit
        (fun _ _ => 0)).2 0 1 = 9 ∧
    (Upload.mk 0 [1, 2] 0).data.getD (1 - (Upload.mk 0 [1, 2] 0).offset) 0 = 2 ∧
    (Upload.mk 0 [1, 2] 0).covers 0 1 = true ∧
    (BatchUploader.create 4).top.isNone = true ∧
    (BatchUploader.create 4).m_staging_buffers.length = 0 ∧
    ((BatchUploader.create 4).upload_buffer_data ⟨0, [1, 2], 0⟩).m_staging_buffers.length =
      1 := by
  decide

/-- C8 (amended): for every sequence of `upload_buffer_data` calls on a fresh uploader
(sizes and staging capacity being `size_t` values), whatever the total size, after
`submit()` the destination buffers hold exactly what writing each upload's source bytes
to `[offset, offset + size)` in call order gives; so every byte of an upload's range
that no later upload of the batch covers holds that upload's source byte.  An upload
pushes a new staging buffer exactly when the stack is empty or the top buffer's
`remaining_size()` is smaller than the upload size; the buffers already on the stack
stay, at their position, with their capacity and their filled bytes, until `submit()`
releases them all. -/
theorem batch_upload_round_trip (cap : Nat) (uploads : List Upload) (mem : DeviceMemory)
    (hcap : cap < SIZE_MOD) (hs : ∀ up ∈ uploads, up.data.length < SIZE_MOD) :
    (((BatchUploader.create cap).upload_all uploads).submit mem).2 =
      uploads.foldl write_direct mem ∧
    (∀ (pre post : List Upload) (up : Upload) (k : Nat), uploads = pre ++ up :: post →
      k < up.data.length →
      (∀ later ∈ post, later.covers up.buffer (up.offset + k) = false) →
      (((BatchUploader.create cap).upload_all uploads).submit mem).2 up.buffer (up.offset + k) =
        up.data.getD k 0) ∧
    (∀ (u : BatchUploader) (up : Upload),
      (u.upload_buffer_data up).m_staging_buffers.length =
        u.m_staging_buffers.length +
          (if u.needs_staging_buffer up.data.length then 1 else 0)) ∧
    (∀ (u : BatchUploader) (top : StagingBuffer) (size : Nat), u.top = some top →
      (u.needs_staging_buffer size = true ↔ top.remaining_size < size)) ∧
    (∀ (u : BatchUploader) (size : Nat), u.top = none → u.needs_staging_buffer size = true) ∧
    (∀ (pre post : List Upload) (up : Upload), uploads = pre ++ up :: post →
      stack_extends ((BatchUploader.create cap).upload_all pre).m_staging_buffers
        ((BatchUploader.create cap).upload_all (pre ++ [up])).m_staging_buffers) ∧
    (((BatchUploader.create cap).upload_all uploads).submit mem).1.m_staging_buffers = [] := by
  obtain ⟨_, _, _, hrun⟩ := upload_all_inv cap uploads hcap hs
  have hfinal : (((BatchUploader.create cap).upload_all uploads).submit mem).2 =
      uploads.foldl write_direct mem := hrun mem
  refine ⟨hfinal, ?_, upload_buffer_data_length, ?_, ?_, ?_, rfl⟩
  · intro pre post up k huploads hk hlater
    rw [hfinal, huploads, List.foldl_append, List.foldl_cons,
      foldl_write_direct_not_covered post _ _ _ hlater]
    simp only [write_direct]
    rw [if_pos ⟨trivial, by omega, by omega⟩]
    congr 1
    omega
  · intro u top size htop
    simp [BatchUploader.needs_staging_buffer, htop]
  · intro u size htop
    simp [BatchUploader.needs_staging_buffer, htop]
  · intro pre post up huploads
    have hpre : ∀ x ∈ pre, x.data.length < SIZE_MOD := fun x hx =>
      hs x (by rw [huploads]; exact List.mem_append_left _ hx)
    have hup : up.data.length < SIZE_MOD :=
      hs up (by rw [huploads]; exact List.mem_append_right _ (List.mem_cons_self _ _))
    obtain ⟨hwf, hc, _, _⟩ := upload_all_inv cap pre hcap hpre
    rw [upload_all_snoc]
    exact (insert_data_step _ up.data hwf hup hc).2.1

/-- Witness for C8 (amended): with 4-byte staging buffers, four uploads of 3, 3, 1 and 1
bytes use three staging buffers; the last one overwrites byte 1 of the first, and a byte
no later upload covers holds its source byte. -/
theorem batch_upload_round_trip_witness :
    (((BatchUploader.create 4).upload_all
        [⟨0, [1, 2, 3], 0⟩, ⟨0, [4, 5, 6], 3⟩, ⟨1, [7], 2⟩, ⟨0, [9], 1⟩]).submit
          (fun _ _ => 0)).2 =
      [Upload.mk 0 [1, 2, 3] 0, ⟨0, [4, 5, 6], 3⟩, ⟨1, [7], 2⟩, ⟨0, [9], 1⟩].foldl write_direct
        (fun _ _ => 0) ∧
    (((BatchUploader.create 4).upload_all
        [⟨0, [1, 2, 3], 0⟩, ⟨0, [4, 5, 6], 3⟩, ⟨1, [7], 2⟩, ⟨0, [9], 1⟩]).submit
          (fun _ _ => 0)).2 0 4 = 5 ∧
    (((BatchUploader.create 4).upload_all
        [⟨0, [1, 2, 3], 0⟩, ⟨0, [4, 5, 6], 3⟩, ⟨1, [7], 2⟩, ⟨0, [9], 1⟩]).submit
          (fun _ _ => 0)).2 0 1 = 9 ∧
    ((BatchUploader.create 4).upload_all
        [⟨0, [1, 2, 3], 0⟩, ⟨0, [4, 5, 6], 3⟩, ⟨1, [7], 2⟩,
         ⟨0, [9], 1⟩]).m_staging_buffers.length = 3 := by
  have h := batch_upload_round_trip 4
    [⟨0, [1, 2, 3], 0⟩, ⟨0, [4, 5, 6], 3⟩, ⟨1, [7], 2⟩, ⟨0, [9], 1⟩]
    (fun _ _ => 0) (by decide) (by decide)
  refine ⟨h.1, ?_, ?_, by decide⟩
  · exact h.2.1 [⟨0, [1, 2, 3], 0⟩] [⟨1, [7], 2⟩, ⟨0, [9], 1⟩] ⟨0, [4, 5, 6], 3⟩ 1 rfl
      (by decide) (by decide)
  · exact h.2.1 [⟨0, [1, 2, 3], 0⟩, ⟨0, [4, 5, 6], 3⟩, ⟨1, [7], 2⟩] [] ⟨0, [9], 1⟩ 0 rfl
      (by decide) (by decide)

/-! ## Device selection -/

theorem graphics_quality_nonneg (flags : Nat) : 0 ≤ graphics_quality flags := by
  unfold graphics_quality
  split_ifs <;> decide

theorem find_queues_step_graphics (infos : QueueInfos) (i : Nat) (fam : QueueFamily)
    (hq : 0 ≤ infos.graphics_queue_quality)
    (hi : infos.graphics_queue_quality ≠ 0 → 0 ≤ infos.graphics_queue_index) :
    0 ≤ (find_queues_step infos i fam).graphics_queue_quality ∧
    ((find_queues_step infos i fam).graphics_queue_quality ≠ 0 →
      0 ≤ (find_queues_step infos i fam).graphics_queue_index) := by
  have hg := graphics_quality_nonneg fam.queueFlags
  unfold find_queues_step
  by_cases hc : fam.queueCount = 0
  · rw [if_pos hc]
    exact ⟨hq, hi⟩
  · rw [if_neg hc]
    simp only
    split_ifs <;> first
      | exact ⟨hq, hi⟩
      | exact ⟨hg, fun _ => Int.ofNat_nonneg i⟩

theorem find_queues_loop_graphics (fams : List QueueFamily) :
    ∀ (infos : QueueInfos) (i : Nat), 0 ≤ infos.graphics_queue_quality →
      (infos.graphics_queue_quality ≠ 0 → 0 ≤ infos.graphics_queue_index) →
      0 ≤ (find_queues_loop infos i fams).graphics_queue_quality ∧
      ((find_queues_loop infos i fams).graphics_queue_quality ≠ 0 →
        0 ≤ (find_queues_loop infos i fams).graphics_queue_index) := by
  induction fams with
  | nil => exact fun _ _ hq hi => ⟨hq, hi⟩
  | cons fam rest ih =>
    intro infos i hq hi
    obtain ⟨hq2, hi2⟩ := find_queues_step_graphics infos i fam hq hi
    exact ih _ _ hq2 hi2

theorem is_device_suitable_graphics (d : PhysicalDevice) (type : PhysicalDeviceType)
    (exts : List String) (rt : Bool) (infos : QueueInfos)
    (h : is_device_suitable d type exts rt = some infos) :
    1 ≤ infos.graphics_queue_quality ∧ 0 ≤ infos.graphics_queue_index ∧
      infos = (find_queues d).2 ∧
      (rt = true → d.ray_tracing_pipeline = true ∧ d.acceleration_structure = true) := by
  unfold is_device_suitable at h
  split_ifs at h with hc
  cases h
  obtain ⟨_, _, _, _, hfound, hrt⟩ := hc
  obtain ⟨hq, hi⟩ := find_queues_loop_graphics d.queue_families {} 0 (by decide)
    (fun hne => absurd rfl hne)
  simp only [find_queues, Bool.and_eq_true, bne_iff_ne, ne_eq] at hfound
  have hne := hfound.1
  refine ⟨?_, hi hne, rfl, hrt⟩
  show 1 ≤ (find_queues_loop {} 0 d.queue_families).graphics_queue_quality
  omega

theorem first_suitable_spec (type : PhysicalDeviceType) (exts : List String) (rt : Bool)
    (devices : List PhysicalDevice) (d : PhysicalDevice) (infos : QueueInfos)
    (h : first_suitable type exts rt devices = some (d, infos)) :
    d ∈ devices ∧ is_device_suitable d type exts rt = some infos := by
  induction devices with
  | nil => simp [first_suitable] at h
  | cons x rest ih =>
    unfold first_suitable at h
    cases hx : is_device_suitable x type exts rt with
    | none =>
      rw [hx] at h
      obtain ⟨hm, hs⟩ := ih h
      exact ⟨List.mem_cons_of_mem _ hm, hs⟩
    | some i =>
      rw [hx] at h
      simp only [Option.some.injEq, Prod.mk.injEq] at h
      obtain ⟨rfl, rfl⟩ := h
      exact ⟨List.mem_cons_self _ _, hx⟩

theorem try_device_types_spec (devices : List PhysicalDevice) (exts : List String) (rt : Bool)
    (types : List PhysicalDeviceType) (d : PhysicalDevice) (infos : QueueInfos)
    (h : try_device_types devices exts rt types = some (d, infos)) :
    ∃ type, d ∈ devices ∧ is_device_suitable d type exts rt = some infos := by
  induction types with
  | nil => simp [try_device_types] at h
  | cons t rest ih =>
    unfold try_device_types at h
    cases ht : first_suitable t exts rt devices with
    | none =>
      rw [ht] at h
      exact ih h
    | some r =>
      rw [ht] at h
      simp only [Option.some.injEq] at h
      subst h
      exact ⟨t, first_suitable_spec t exts rt devices d infos ht⟩

/-- C6: for every list of enumerated devices, if device selection succeeds then the
committed device is one of the enumerated devices and its `QueueInfos` has
`graphics_queue_quality >= 1` and `graphics_queue_index >= 0`; it never succeeds with
graphics quality 0. -/
theorem selected_device_has_graphics_queue (devices : List PhysicalDevice)
    (extensions : List String) (require_ray_tracing : Bool) (d : PhysicalDevice)
    (infos : QueueInfos)
    (h : find_physical_device devices extensions require_ray_tracing = some (d, infos)) :
    d ∈ devices ∧ 1 ≤ infos.graphics_queue_quality ∧ 0 ≤ infos.graphics_queue_index ∧
      infos.graphics_queue_quality ≠ 0 := by
  obtain ⟨type, hm, hs⟩ := try_device_types_spec devices extensions require_ray_tracing _ d infos h
  obtain ⟨hq, hi, _, _⟩ := is_device_suitable_graphics d type extensions require_ray_tracing infos hs
  exact ⟨hm, hq, hi, by omega⟩

/-- Witness for C6: with an integrated and a discrete GPU enumerated, the discrete GPU is
committed, with graphics family 0 at quality 1. -/
theorem selected_device_has_graphics_queue_witness :
    find_physical_device [example_integrated_gpu, example_discrete_gpu] ["VK_KHR_swapchain"]
        false = some (example_discrete_gpu, example_queue_infos) ∧
    example_discrete_gpu ∈ [example_integrated_gpu, example_discrete_gpu] ∧
    1 ≤ example_queue_infos.graphics_queue_quality ∧
    0 ≤ example_queue_infos.graphics_queue_index ∧
    example_queue_infos.graphics_queue_quality ≠ 0 :=
  ⟨by decide,
    selected_device_has_graphics_queue [example_integrated_gpu, example_discrete_gpu]
      ["VK_KHR_swapchain"] false example_discrete_gpu example_queue_infos (by decide)⟩

theorem is_device_suitable_none_of_no_acceleration_structure (d : PhysicalDevice)
    (type : PhysicalDeviceType) (exts : List String)
    (h : d.acceleration_structure = false) : is_device_suitable d type exts true = none := by
  unfold is_device_suitable
  rw [if_neg]
  rintro ⟨_, _, _, _, _, hrt⟩
  have := (hrt rfl).2
  rw [h] at this
  exact Bool.false_ne_true this

theorem first_suitable_none_of_no_acceleration_structure (type : PhysicalDeviceType)
    (exts : List String) (devices : List PhysicalDevice)
    (h : ∀ d ∈ devices, d.acceleration_structure = false) :
    first_suitable type exts true devices = none := by
  induction devices with
  | nil => rfl
  | cons x rest ih =>
    unfold first_suitable
    rw [is_device_suitable_none_of_no_acceleration_structure x type exts
      (h x (List.mem_cons_self _ _))]
    exact ih (fun d hd => h d (List.mem_cons_of_mem _ hd))

theorem try_device_types_none_of_no_acceleration_structure (devices : List PhysicalDevice)
    (exts : List String) (types : List PhysicalDeviceType)
    (h : ∀ d ∈ devices, d.acceleration_structure = false) :
    try_device_types devices exts true types = none := by
  induction types with
  | nil => rfl
  | cons t rest ih =>
    unfold try_device_types
    rw [first_suitable_none_of_no_acceleration_structure t exts devices h]
    exact ih

/-- C7: when ray tracing is required and no enumerated device reports the
acceleration-structure feature, device selection fails for every candidate list, and
`Backend::create` returns an error and no device context: `NoSuitableDeviceError`
whenever the earlier steps (validation layers, surface) succeeded. -/
theorem create_fails_without_acceleration_structure (platform : Platform)
    (vsync srgb_swapchain enable_validation_layers : Bool) (extensions : List String)
    (h : ∀ d ∈ platform.devices, d.acceleration_structure = false) :
    find_physical_device platform.devices extensions true = none ∧
    (∃ e, Backend.create platform vsync srgb_swapchain enable_validation_layers true
      extensions = .error e) ∧
    (∀ ctx, Backend.create platform vsync srgb_swapchain enable_validation_layers true
      extensions ≠ .ok ctx) ∧
    ((enable_validation_layers && !platform.validation_layers_available) = false →
      platform.surface_created = true →
      Backend.create platform vsync srgb_swapchain enable_validation_layers true extensions =
        .error .NoSuitableDeviceError) := by
  have hfind : find_physical_device platform.devices extensions true = none :=
    try_device_types_none_of_no_acceleration_structure _ _ _ h
  have herr : ∃ e, Backend.create platform vsync srgb_swapchain enable_validation_layers true
      extensions = .error e := by
    unfold Backend.create
    rw [hfind]
    by_cases hv : (enable_validation_layers && !platform.validation_layers_available) = true
    · exact ⟨_, if_pos hv⟩
    · rw [if_neg hv]
      by_cases hsurf : (!platform.surface_created) = true
      · exact ⟨_, if_pos hsurf⟩
      · exact ⟨_, if_neg hsurf⟩
  refine ⟨hfind, herr, ?_, ?_⟩
  · intro ctx hctx
    obtain ⟨e, he⟩ := herr
    rw [he] at hctx
    cases hctx
  · intro hv hsurf
    unfold Backend.create
    rw [hfind, hv, hsurf]
    rfl

/-- Witness for C7: a machine whose only adapter lacks the acceleration-structure feature;
creation with ray tracing required ends in `NoSuitableDeviceError`. -/
theorem create_fails_without_acceleration_structure_witness :
    Backend.create ⟨true, true, [example_integrated_gpu], true, true⟩ true false false true
      ["VK_KHR_swapchain"] = .error .NoSuitableDeviceError :=
  (create_fails_without_acceleration_structure
    ⟨true, true, [example_integrated_gpu], true, true⟩ true false false
    ["VK_KHR_swapchain"] (by decide)).2.2.2 rfl rfl

end vk

/-! ## Application frame loop -/

theorem frame_steps_append (t1 t2 : List Call) :
    frame_steps (t1 ++ t2) = frame_steps t1 ++ frame_steps t2 := by
  simp [frame_steps]

theorem poll_events_semaphores (cls : AppClass) (resizes : List (Int × Int)) :
    ∀ app : Application,
      (Application.poll_events cls app resizes).1.m_present_complete_semaphore =
        app.m_present_complete_semaphore ∧
      (Application.poll_events cls app resizes).1.m_render_complete_semaphore =
        app.m_render_complete_semaphore ∧
      (Application.poll_events cls app resizes).1.m_vsync = app.m_vsync := by
  induction resizes with
  | nil => exact fun _ => ⟨rfl, rfl, rfl⟩
  | cons r rest ih =>
    intro app
    obtain ⟨w, h⟩ := r
    simp only [Application.poll_events]
    obtain ⟨h1, h2, h3⟩ := ih (Application.window_size_callback cls app w h).1
    exact ⟨h1, h2, h3⟩

theorem begin_frame_semaphores (cls : AppClass) (app : Application) (input : FrameInput) :
    (Application.begin_frame cls app input).1.m_present_complete_semaphore =
        app.m_present_complete_semaphore ∧
      (Application.begin_frame cls app input).1.m_render_complete_semaphore =
        app.m_render_complete_semaphore := by
  obtain ⟨h1, h2, _⟩ := poll_events_semaphores cls input.resizes app
  simp only [Application.begin_frame]
  split_ifs <;> exact ⟨h1, h2⟩

theorem sample_poll_events_frame_steps (imgui : Bool) (ic : List Event) (ir : Bool)
    (resizes : List (Int × Int)) :
    ∀ app : Application,
      frame_steps (Application.poll_events (Sample.class imgui ic ir) app resizes).2 = [] := by
  induction resizes with
  | nil => exact fun _ => rfl
  | cons r rest ih =>
    intro app
    obtain ⟨w, h⟩ := r
    simp only [Application.poll_events]
    rw [frame_steps_append, ih]
    rfl

theorem begin_frame_frame_steps (cls : AppClass) (app : Application) (input : FrameInput) :
    frame_steps (Application.begin_frame cls app input).2 =
      frame_steps (Application.poll_events cls app input.resizes).2 ++
        [.acquire_next_swap_chain_image app.m_present_complete_semaphore] := by
  obtain ⟨hp, _, _⟩ := poll_events_semaphores cls input.resizes app
  simp only [Application.begin_frame]
  generalize Application.poll_events cls app input.resizes = polled at hp ⊢
  obtain ⟨app1, calls⟩ := polled
  simp only at hp
  simp only [frame_steps_append]
  cases hflag : app1.m_should_recreate_swap_chain <;> cases himgui : cls.dwsf_imgui <;>
    simp [frame_steps, fw, Event.is_frame_step, Event.is_submission, hp]

theorem sample_update_frame_steps (dwsf_imgui : Bool) (app : Application) (input : FrameInput) :
    frame_steps (by_subclass (Sample.update dwsf_imgui app input)) =
      [.submit_graphics [input.cmd_buf] [app.m_present_complete_semaphore]
          [VK_PIPELINE_STAGE_COLOR_ATTACHMENT_OUTPUT_BIT] [app.m_render_complete_semaphore],
       .present [app.m_render_complete_semaphore]] := by
  cases dwsf_imgui <;> rfl

/-- C3: in every frame that `Application::update_base` runs with the ray-tracing Sample,
whatever resize notifications arrive, the frame-sequence calls the `Backend` sees are
exactly one `acquire_next_swap_chain_image`, then one `submit_graphics`, then one
`present`; `submit_graphics` gets one wait semaphore with one wait stage, that
semaphore is the one given to acquire (present-complete), and `present` waits only
on the semaphore `submit_graphics` signals (render-complete). -/
theorem sample_frame_acquire_submit_present (dwsf_imgui : Bool) (init_calls : List Event)
    (init_result : Bool) (app : Application) (input : FrameInput) :
    frame_steps
        (Application.update_base (Sample.class dwsf_imgui init_calls init_result) app input).2 =
      [.acquire_next_swap_chain_image app.m_present_complete_semaphore,
       .submit_graphics [input.cmd_buf] [app.m_present_complete_semaphore]
          [VK_PIPELINE_STAGE_COLOR_ATTACHMENT_OUTPUT_BIT] [app.m_render_complete_semaphore],
       .present [app.m_render_complete_semaphore]] := by
  obtain ⟨hp, hr⟩ := begin_frame_semaphores (Sample.class dwsf_imgui init_calls init_result)
    app input
  have hupd : (Sample.class dwsf_imgui init_calls init_result).update =
      Sample.update dwsf_imgui := rfl
  have hend : frame_steps Application.end_frame = [] := rfl
  simp only [Application.update_base, frame_steps_append, begin_frame_frame_steps,
    sample_poll_events_frame_steps, hupd, sample_update_frame_steps, hp, hr, hend]
  rfl

/-! ## recreate_swapchain and wait_idle -/

theorem idle_after_append (idle : Bool) (t1 t2 : List Call) :
    idle_after idle (t1 ++ t2) = idle_after (idle_after idle t1) t2 := by
  simp [idle_after, List.foldl_append]

theorem idle_after_cons (idle : Bool) (c : Call) (t : List Call) :
    idle_after idle (c :: t) = idle_after (idle_after_call idle c) t := rfl

theorem idle_after_true_of_no_submission (t : List Call)
    (h : ∀ c ∈ t, c.event.is_submission = false) : idle_after true t = true := by
  induction t with
  | nil => rfl
  | cons c rest ih =>
    rw [idle_after_cons]
    have hc := h c (List.mem_cons_self _ _)
    have : idle_after_call true c = true := by
      unfold idle_after_call
      split_ifs <;> simp_all
    rw [this]
    exact ih (fun x hx => h x (List.mem_cons_of_mem _ hx))

theorem recreate_guarded_append (idle : Bool) (t1 t2 : List Call) :
    recreate_guarded idle (t1 ++ t2) =
      (recreate_guarded idle t1 && recreate_guarded (idle_after idle t1) t2) := by
  induction t1 generalizing idle with
  | nil => simp [recreate_guarded, idle_after]
  | cons c rest ih =>
    simp only [List.cons_append, recreate_guarded, List.append_eq, ih, idle_after_cons,
      Bool.and_assoc]

theorem recreate_guarded_of_no_framework_recreate (t : List Call)
    (h : ∀ c ∈ t, ¬ (c.origin = .framework ∧ c.event.is_recreate_swapchain = true)) :
    ∀ idle, recreate_guarded idle t = true := by
  induction t with
  | nil => exact fun _ => rfl
  | cons c rest ih =>
    intro idle
    simp only [recreate_guarded]
    rw [if_neg (h c (List.mem_cons_self _ _)),
      ih (fun x hx => h x (List.mem_cons_of_mem _ hx))]
    rfl

theorem recreate_guarded_by_subclass (es : List Event) (idle : Bool) :
    recreate_guarded idle (by_subclass es) = true := by
  apply recreate_guarded_of_no_framework_recreate
  intro c hc
  simp only [by_subclass, List.mem_map] at hc
  obtain ⟨e, _, rfl⟩ := hc
  simp

/-- The scan is sound: a trace it accepts has a `wait_idle`, with no submission after it,
before every `recreate_swapchain` of the frame code (or was idle from the start). -/
theorem recreate_guarded_sound (t : List Call) :
    ∀ idle, recreate_guarded idle t = true →
      ∀ (pre post : List Call) (vsync : Bool),
        t = pre ++ fw (.recreate_swapchain vsync) :: post →
        (∃ (a b : List Call) (o : Origin), pre = a ++ ⟨o, .wait_idle⟩ :: b ∧
          ∀ c ∈ b, c.event.is_submission = false) ∨
        (idle = true ∧ ∀ c ∈ pre, c.event.is_submission = false) := by
  induction t with
  | nil =>
    intro idle _ pre post vsync h
    simp at h
  | cons c rest ih =>
    intro idle hg pre post vsync h
    simp only [recreate_guarded, Bool.and_eq_true] at hg
    obtain ⟨hhead, hrest⟩ := hg
    cases pre with
    | nil =>
      simp only [List.nil_append, List.cons.injEq] at h
      obtain ⟨rfl, _⟩ := h
      right
      refine ⟨?_, by simp⟩
      simpa [fw, Event.is_recreate_swapchain] using hhead
    | cons p pre2 =>
      simp only [List.cons_append, List.cons.injEq] at h
      obtain ⟨rfl, hrest_eq⟩ := h
      rcases ih _ hrest pre2 post vsync hrest_eq with ⟨a, b, o, hpre, hb⟩ | ⟨hidle, hsub⟩
      · left
        exact ⟨c :: a, b, o, by rw [hpre]; rfl, hb⟩
      · unfold idle_after_call at hidle
        by_cases hw : c.event = .wait_idle
        · left
          refine ⟨[], pre2, c.origin, ?_, hsub⟩
          cases c
          simp only at hw
          subst hw
          rfl
        · rw [if_neg hw] at hidle
          by_cases hs : c.event.is_submission = true
          · rw [if_pos hs] at hidle
            exact absurd hidle (by decide)
          · rw [if_neg hs] at hidle
            right
            refine ⟨hidle, ?_⟩
            intro x hx
            rcases List.mem_cons.mp hx with rfl | hx
            · simpa using hs
            · exact hsub x hx

theorem idle_after_hook (es pre post : List Event) (idle : Bool)
    (hes : es = pre ++ .wait_idle :: post) (hpost : ∀ e ∈ post, e.is_submission = false) :
    idle_after idle (by_subclass es) = true := by
  subst hes
  simp only [by_subclass, List.map_append, List.map_cons]
  rw [idle_after_append, idle_after_cons]
  have : idle_after_call (idle_after idle (List.map (Call.mk .subclass) pre))
      ⟨.subclass, .wait_idle⟩ = true := by
    simp [idle_after_call]
  rw [this]
  apply idle_after_true_of_no_submission
  intro c hc
  obtain ⟨e, he, rfl⟩ := List.mem_map.mp hc
  exact hpost e he

theorem poll_events_idle (cls : AppClass)
    (hhook : ∀ (a : Application) (w h : Int), ∃ pre post,
      cls.window_resized a w h = pre ++ .wait_idle :: post ∧
        ∀ e ∈ post, e.is_submission = false)
    (resizes : List (Int × Int)) :
    ∀ (app : Application) (idle : Bool),
      recreate_guarded idle (Application.poll_events cls app resizes).2 = true ∧
      ((Application.poll_events cls app resizes).1.m_should_recreate_swap_chain = true →
        app.m_should_recreate_swap_chain = true ∨
          idle_after idle (Application.poll_events cls app resizes).2 = true) ∧
      (idle = true → idle_after idle (Application.poll_events cls app resizes).2 = true) := by
  induction resizes with
  | nil =>
    intro app idle
    exact ⟨rfl, fun h => Or.inl h, fun h => h⟩
  | cons r rest ih =>
    intro app idle
    obtain ⟨w, h⟩ := r
    obtain ⟨pre, post, hes, hpost⟩ := hhook
      { app with m_width := w, m_height := h, m_should_recreate_swap_chain := true } w h
    have hidle : idle_after idle (Application.window_size_callback cls app w h).2 = true :=
      idle_after_hook _ pre post idle hes hpost
    obtain ⟨ihg, _, ihi⟩ := ih (Application.window_size_callback cls app w h).1 true
    simp only [Application.poll_events]
    rw [recreate_guarded_append, idle_after_append, hidle]
    refine ⟨?_, fun _ => Or.inr (ihi rfl), fun _ => ihi rfl⟩
    rw [ihg, Bool.and_true]
    exact recreate_guarded_by_subclass _ _

theorem framework_tail_guarded (cls : AppClass) (app : Application) (input : FrameInput)
    (idle : Bool) :
    recreate_guarded idle
      ([fw (.acquire_next_swap_chain_image app.m_present_complete_semaphore)] ++
        (if cls.dwsf_imgui then
          [fw (.external "ImGui_ImplVulkan_NewFrame"), fw (.external "ImGui_ImplGlfw_NewFrame"),
           fw (.external "ImGui::NewFrame")]
         else []) ++
        [fw (.external "profiler::begin_frame")] ++ by_subclass (cls.update app input) ++
        Application.end_frame) = true := by
  apply recreate_guarded_of_no_framework_recreate
  intro c hc
  simp only [List.mem_append, by_subclass, List.mem_map] at hc
  rcases hc with (((hc | hc) | hc) | ⟨e, _, rfl⟩) | hc
  · simp only [List.mem_singleton] at hc
    subst hc
    simp [fw, Event.is_recreate_swapchain]
  · cases hi : cls.dwsf_imgui <;> rw [hi] at hc <;> simp at hc
    rcases hc with rfl | rfl | rfl <;> simp [fw, Event.is_recreate_swapchain]
  · simp only [List.mem_singleton] at hc
    subst hc
    simp [fw, Event.is_recreate_swapchain]
  · simp
  · simp only [Application.end_frame, List.mem_cons, List.mem_singleton, List.not_mem_nil,
      or_false] at hc
    rcases hc with rfl | rfl <;> simp [fw, Event.is_recreate_swapchain]

theorem update_base_guarded (cls : AppClass)
    (hhook : ∀ (a : Application) (w h : Int), ∃ pre post,
      cls.window_resized a w h = pre ++ .wait_idle :: post ∧
        ∀ e ∈ post, e.is_submission = false)
    (app : Application) (input : FrameInput) (idle : Bool)
    (hflag : app.m_should_recreate_swap_chain = false) :
    recreate_guarded idle (Application.update_base cls app input).2 = true ∧
      (Application.update_base cls app input).1.m_should_recreate_swap_chain = false := by
  obtain ⟨hg, hflag2, _⟩ := poll_events_idle cls hhook input.resizes app idle
  simp only [Application.update_base, Application.begin_frame]
  generalize Application.poll_events cls app input.resizes = polled at hg hflag2 ⊢
  obtain ⟨app1, calls⟩ := polled
  simp only at hg hflag2 ⊢
  have htimer : ∀ i t, recreate_guarded i
      ([fw (.external "m_timer.start"), fw (.external "glfwPollEvents")] ++ t) =
        recreate_guarded i t := by
    intro i t
    simp [recreate_guarded, fw, Event.is_recreate_swapchain, idle_after_call,
      Event.is_submission]
  cases hf : app1.m_should_recreate_swap_chain
  · simp only [Bool.false_eq_true, if_false, List.append_nil, List.append_assoc]
    refine ⟨?_, hf⟩
    rw [htimer, recreate_guarded_append, hg, Bool.true_and]
    have := framework_tail_guarded cls app1 input (idle_after idle calls)
    simpa [List.append_assoc] using this
  · have hidle : idle_after idle calls = true := by
      rcases hflag2 hf with h | h
      · rw [hflag] at h
        exact absurd h (by decide)
      · exact h
    simp only [if_true, List.append_assoc]
    refine ⟨?_, trivial⟩
    rw [htimer, recreate_guarded_append, hg, Bool.true_and]
    simp only [List.cons_append, List.nil_append, recreate_guarded, hidle]
    have := framework_tail_guarded cls { app1 with m_should_recreate_swap_chain := false }
      input (idle_after_call true (fw (.recreate_swapchain app1.m_vsync)))
    simp only [List.cons_append, List.nil_append, List.append_assoc, recreate_guarded] at this
    simpa [fw, Event.is_recreate_swapchain] using this

theorem frame_loop_guarded (cls : AppClass)
    (hhook : ∀ (a : Application) (w h : Int), ∃ pre post,
      cls.window_resized a w h = pre ++ .wait_idle :: post ∧
        ∀ e ∈ post, e.is_submission = false)
    (inputs : List FrameInput) :
    ∀ (app : Application) (idle : Bool), app.m_should_recreate_swap_chain = false →
      recreate_guarded idle (Application.frame_loop cls app inputs).2 = true := by
  induction inputs with
  | nil => exact fun _ _ _ => rfl
  | cons input rest ih =>
    intro app idle hflag
    obtain ⟨hg, hf⟩ := update_base_guarded cls hhook app input idle hflag
    simp only [Application.frame_loop]
    rw [recreate_guarded_append, hg, ih _ _ hf]
    rfl

namespace vk

/-! ## Declarations: default arguments and default members -/

/-- C16: `Backend::create` called with only `(window, vsync, srgb_swapchain)` is
`create(window, vsync, srgb_swapchain, false, false, {})`: validation layers are not
requested, ray tracing is not required and no additional device extension is asked
for; so such a call never fails for a missing validation layer and a context it
returns has ray tracing disabled. -/
theorem create_default_arguments (platform : Platform) (vsync srgb_swapchain : Bool) :
    Backend.create platform vsync srgb_swapchain =
      Backend.create platform vsync srgb_swapchain false false [] ∧
    Backend.create platform vsync srgb_swapchain ≠ .error .ValidationLayerUnavailable ∧
    (∀ ctx, Backend.create platform vsync srgb_swapchain = .ok ctx →
      ctx.m_ray_tracing_enabled = false ∧ ctx.m_vsync = vsync ∧
        ctx.m_srgb_swapchain = srgb_swapchain) := by
  refine ⟨rfl, ?_, ?_⟩
  · unfold Backend.create
    cases find_physical_device platform.devices [] false with
    | none => simp only [Bool.false_and, Bool.false_eq_true, if_false]; split_ifs <;> simp
    | some r =>
      obtain ⟨d, i⟩ := r
      simp only [Bool.false_and, Bool.false_eq_true, if_false]
      split_ifs <;> simp
  · intro ctx h
    unfold Backend.create at h
    cases hf : find_physical_device platform.devices [] false with
    | none =>
      rw [hf] at h
      simp only [Bool.false_and, Bool.false_eq_true, if_false] at h
      split_ifs at h
    | some r =>
      obtain ⟨d, i⟩ := r
      rw [hf] at h
      simp only [Bool.false_and, Bool.false_eq_true, if_false] at h
      split_ifs at h
      cases h
      exact ⟨rfl, rfl, rfl⟩

/-- Witness for C16: on a machine with a suitable discrete GPU the three-argument call
returns a context with ray tracing disabled. -/
theorem create_default_arguments_witness :
    Backend.create example_platform true false = .ok example_default_context ∧
    example_default_context.m_ray_tracing_enabled = false ∧
    example_default_context.m_vsync = true ∧
    example_default_context.m_srgb_swapchain = false := by
  have hfind : find_physical_device [example_discrete_gpu] [] false =
      some (example_discrete_gpu, example_queue_infos) := by decide
  have hcreate : Backend.create example_platform true false = .ok example_default_context := by
    unfold Backend.create example_platform
    rw [hfind]
    rfl
  exact ⟨hcreate, (create_default_arguments example_platform true false).2.2 _ hcreate⟩

/-- C20: a default-constructed `QueueInfos` stands for "nothing found" in every role: the
three quality scores are 0, the graphics, compute, transfer and presentation queue
indices are -1 and `queue_count` is 0. -/
theorem default_queue_infos_nothing_found :
    ({} : QueueInfos).graphics_queue_quality = 0 ∧
    ({} : QueueInfos).compute_queue_quality = 0 ∧
    ({} : QueueInfos).transfer_queue_quality = 0 ∧
    ({} : QueueInfos).graphics_queue_index = -1 ∧
    ({} : QueueInfos).compute_queue_index = -1 ∧
    ({} : QueueInfos).transfer_queue_index = -1 ∧
    ({} : QueueInfos).presentation_queue_index = -1 ∧
    ({} : QueueInfos).queue_count = 0 ∧
    ({} : QueueInfos) =
      { graphics_queue_index := -1, graphics_queue_quality := 0, compute_queue_index := -1,
        compute_queue_quality := 0, transfer_queue_index := -1, transfer_queue_quality := 0,
        presentation_queue_index := -1, queue_count := 0 } :=
  ⟨rfl, rfl, rfl, rfl, rfl, rfl, rfl, rfl, rfl⟩

end vk

/-! ## Resize notifications and swapchain recreation -/

theorem framework_swapchain_calls_append (t1 t2 : List Call) :
    framework_swapchain_calls (t1 ++ t2) =
      framework_swapchain_calls t1 ++ framework_swapchain_calls t2 := by
  simp [framework_swapchain_calls]

theorem framework_swapchain_calls_by_subclass (es : List Event) :
    framework_swapchain_calls (by_subclass es) = [] := by
  induction es with
  | nil => rfl
  | cons e rest ih =>
    simp only [by_subclass, List.map_cons] at ih ⊢
    simp only [framework_swapchain_calls] at ih ⊢
    rw [List.filter_cons]
    simp [ih]

theorem poll_events_flag (cls : AppClass) (resizes : List (Int × Int)) :
    ∀ app : Application,
      (Application.poll_events cls app resizes).1.m_should_recreate_swap_chain =
        (app.m_should_recreate_swap_chain || !resizes.isEmpty) ∧
      framework_swapchain_calls (Application.poll_events cls app resizes).2 = [] := by
  induction resizes with
  | nil =>
    intro app
    simp [Application.poll_events, framework_swapchain_calls]
  | cons r rest ih =>
    intro app
    obtain ⟨w, h⟩ := r
    obtain ⟨ihf, ihc⟩ := ih (Application.window_size_callback cls app w h).1
    simp only [Application.poll_events]
    rw [ihf, framework_swapchain_calls_append, ihc]
    refine ⟨by simp [Application.window_size_callback], ?_⟩
    simp only [Application.window_size_callback, List.append_nil]
    exact framework_swapchain_calls_by_subclass _

theorem begin_frame_swapchain_calls (cls : AppClass) (app : Application) (input : FrameInput) :
    framework_swapchain_calls (Application.begin_frame cls app input).2 =
      (if (app.m_should_recreate_swap_chain || !input.resizes.isEmpty) = true then
        [Event.recreate_swapchain app.m_vsync] else []) ++
        [.acquire_next_swap_chain_image app.m_present_complete_semaphore] ∧
    (Application.begin_frame cls app input).1.m_should_recreate_swap_chain = false := by
  obtain ⟨hf, hc⟩ := poll_events_flag cls input.resizes app
  obtain ⟨hp, _, hv⟩ := poll_events_semaphores cls input.resizes app
  simp only [Application.begin_frame]
  generalize Application.poll_events cls app input.resizes = polled at hf hc hp hv ⊢
  obtain ⟨app1, calls⟩ := polled
  simp only at hf hc hp hv
  rw [← hf]
  simp only [framework_swapchain_calls_append, hc]
  cases hflag : app1.m_should_recreate_swap_chain <;> cases himgui : cls.dwsf_imgui <;>
    simp [framework_swapchain_calls, fw, Event.is_recreate_swapchain, Event.is_acquire, hp, hv,
      hflag]

/-- C11: `window_size_callback` stores the notified width and height and sets the pending
flag.  A `begin_frame` that follows one or more notifications (delivered before it or
while it polls) calls `recreate_swapchain` exactly once, with the application's
vsync setting, before `acquire_next_swap_chain_image`, and leaves the flag clear; a
`begin_frame` with no notification since the previous `begin_frame` calls only
acquire. -/
theorem begin_frame_recreates_once_after_resize :
    (∀ (cls : AppClass) (app : Application) (width height : Int),
      (Application.window_size_callback cls app width height).1.m_width = width ∧
      (Application.window_size_callback cls app width height).1.m_height = height ∧
      (Application.window_size_callback cls app width height).1.m_should_recreate_swap_chain =
        true ∧
      (Application.window_size_callback cls app width height).1.m_vsync = app.m_vsync) ∧
    (∀ (cls : AppClass) (app : Application) (input : FrameInput),
      framework_swapchain_calls (Application.begin_frame cls app input).2 =
        (if (app.m_should_recreate_swap_chain || !input.resizes.isEmpty) = true then
          [Event.recreate_swapchain app.m_vsync] else []) ++
          [.acquire_next_swap_chain_image app.m_present_complete_semaphore] ∧
      (Application.begin_frame cls app input).1.m_should_recreate_swap_chain = false) ∧
    (∀ (cls : AppClass) (app : Application) (width height : Int) (more : List (Int × Int))
        (cmd_buf : Nat),
      framework_swapchain_calls
          (Application.begin_frame cls app ⟨(width, height) :: more, cmd_buf⟩).2 =
        [.recreate_swapchain app.m_vsync,
         .acquire_next_swap_chain_image app.m_present_complete_semaphore] ∧
      framework_swapchain_calls
          (Application.begin_frame cls (Application.window_size_callback cls app width height).1
            ⟨more, cmd_buf⟩).2 =
        [.recreate_swapchain app.m_vsync,
         .acquire_next_swap_chain_image app.m_present_complete_semaphore]) ∧
    (∀ (cls : AppClass) (app : Application) (input : FrameInput) (cmd_buf : Nat),
      framework_swapchain_calls
          (Application.begin_frame cls (Application.begin_frame cls app input).1
            ⟨[], cmd_buf⟩).2 =
        [.acquire_next_swap_chain_image app.m_present_complete_semaphore]) := by
  refine ⟨fun _ _ _ _ => ⟨rfl, rfl, rfl, rfl⟩, begin_frame_swapchain_calls, ?_, ?_⟩
  · intro cls app width height more cmd_buf
    constructor
    · rw [(begin_frame_swapchain_calls cls app ⟨(width, height) :: more, cmd_buf⟩).1]
      simp
    · rw [(begin_frame_swapchain_calls cls _ ⟨more, cmd_buf⟩).1]
      simp [Application.window_size_callback]
  · intro cls app input cmd_buf
    rw [(begin_frame_swapchain_calls cls _ ⟨[], cmd_buf⟩).1,
      (begin_frame_swapchain_calls cls app input).2,
      (begin_frame_semaphores cls app input).1]
    simp

/-! ## The ray-tracing Sample waits for the device before the swapchain is recreated -/

theorem poll_events_no_framework_call (cls : AppClass) (resizes : List (Int × Int)) :
    ∀ (app : Application) (e : Event), fw e ∉ (Application.poll_events cls app resizes).2 := by
  induction resizes with
  | nil =>
    intro app e h
    simp [Application.poll_events] at h
  | cons r rest ih =>
    intro app e h
    obtain ⟨w, ht⟩ := r
    simp only [Application.poll_events, List.mem_append] at h
    rcases h with h | h
    · simp [Application.window_size_callback, by_subclass, fw] at h
    · exact ih _ e h

theorem update_base_no_framework_wait_idle (cls : AppClass) (app : Application)
    (input : FrameInput) : fw .wait_idle ∉ (Application.update_base cls app input).2 := by
  intro h
  simp only [Application.update_base, Application.begin_frame, List.mem_append] at h
  rcases h with (h | h) | h
  · rcases h with ((((h | h) | h) | h) | h) | h
    · simp [fw] at h
    · exact poll_events_no_framework_call cls input.resizes app _ h
    · split_ifs at h <;> simp [fw] at h
    · simp [fw] at h
    · split_ifs at h <;> simp [fw] at h
    · simp [fw] at h
  · simp [by_subclass, fw] at h
  · simp [Application.end_frame, fw] at h

theorem frame_loop_no_framework_wait_idle (cls : AppClass) (inputs : List FrameInput) :
    ∀ app : Application, fw .wait_idle ∉ (Application.frame_loop cls app inputs).2 := by
  induction inputs with
  | nil =>
    intro app h
    simp [Application.frame_loop] at h
  | cons input rest ih =>
    intro app h
    simp only [Application.frame_loop, List.mem_append] at h
    rcases h with h | h
    · exact update_base_no_framework_wait_idle cls app input h
    · exact ih _ h

theorem sample_window_resized_waits (app : Application) (width height : Int) :
    ∃ pre post, Sample.window_resized app width height = pre ++ .wait_idle :: post ∧
      ∀ e ∈ post, e.is_submission = false :=
  ⟨[.external "Camera::update_projection"],
    Sample.create_output_image ++ Sample.write_descriptor_set, rfl, by decide⟩

/-- C17: in the ray-tracing Sample, with resize notifications delivered during
`glfwPollEvents` inside `begin_frame` and the pending flag clear at the start, every
`recreate_swapchain` call of the frame loop is preceded by a `wait_idle` made inside a
subclass method (the frame code of `Application` makes none) with no `submit_*`,
`flush_*` or `present` between the two; `window_size_callback` sets the pending flag
and then runs `Sample::window_resized`, which calls `wait_idle`. -/
theorem sample_recreate_swapchain_after_wait_idle (dwsf_imgui : Bool)
    (init_calls : List Event) (init_result : Bool) (app : Application)
    (inputs : List FrameInput) (hflag : app.m_should_recreate_swap_chain = false) :
    recreate_after_subclass_wait_idle
        (Application.frame_loop (Sample.class dwsf_imgui init_calls init_result) app inputs).2 ∧
    (∀ (a : Application) (width height : Int),
      (Application.window_size_callback (Sample.class dwsf_imgui init_calls init_result) a
          width height).2 =
        by_subclass (Sample.window_resized
          { a with m_width := width, m_height := height, m_should_recreate_swap_chain := true }
          width height) ∧
      (⟨.subclass, .wait_idle⟩ : Call) ∈
        (Application.window_size_callback (Sample.class dwsf_imgui init_calls init_result) a
          width height).2) := by
  have hg := frame_loop_guarded (Sample.class dwsf_imgui init_calls init_result)
    (fun a w h => sample_window_resized_waits a w h) inputs app false hflag
  refine ⟨?_, fun a w h => ⟨rfl, ?_⟩⟩
  · intro pre post vsync ht
    rcases recreate_guarded_sound _ false hg pre post vsync ht with
      ⟨a, b, o, hpre, hb⟩ | ⟨h, _⟩
    · cases o with
      | subclass => exact ⟨a, b, hpre, hb⟩
      | framework =>
        exfalso
        apply frame_loop_no_framework_wait_idle (Sample.class dwsf_imgui init_calls init_result)
          inputs app
        rw [ht, hpre]
        simp [fw]
    · exact absurd h (by decide)
  · simp [Application.window_size_callback, Sample.class, Sample.window_resized, by_subclass]

/-- Witness for C17: three frames of the Sample with resize notifications in the first and
the third. -/
theorem sample_recreate_swapchain_after_wait_idle_witness :
    example_app.m_should_recreate_swap_chain = false ∧
    recreate_after_subclass_wait_idle
      (Application.frame_loop (Sample.class true [] true) example_app
        example_frames_two_resizes).2 ∧
    framework_swapchain_calls
      (Application.frame_loop (Sample.class true [] true) example_app
        example_frames_two_resizes).2 =
      [.recreate_swapchain true, .acquire_next_swap_chain_image (some 10),
       .acquire_next_swap_chain_image (some 10),
       .recreate_swapchain true, .acquire_next_swap_chain_image (some 10)] :=
  ⟨rfl,
    (sample_recreate_swapchain_after_wait_idle true [] true example_app
      example_frames_two_resizes rfl).1,
    by decide⟩

namespace vk

/-! ## Swapchain negotiation -/

theorem clamp_bounds (v lo hi : Nat) (h : lo ≤ hi) : lo ≤ clamp v lo hi ∧ clamp v lo hi ≤ hi := by
  unfold clamp
  omega

theorem clamp_of_mem (v lo hi : Nat) (h1 : lo ≤ v) (h2 : v ≤ hi) : clamp v lo hi = v := by
  unfold clamp
  omega

/-- C12: for every surface capability report with `minImageCount <= maxImageCount` the
image count negotiated by `create_swapchain` lies in `[minImageCount, maxImageCount]`,
and `create_swapchain` (also when reached through `recreate_swapchain`) creates
exactly that many swap images, image views and framebuffers. -/
theorem create_swapchain_image_count_clamped (s : SwapchainState) (surface : Surface)
    (vsync : Bool)
    (h : surface.details.capabilities.minImageCount ≤
      surface.details.capabilities.maxImageCount) :
    surface.details.capabilities.minImageCount ≤
      negotiated_image_count s.preferred_image_count surface.details.capabilities ∧
    negotiated_image_count s.preferred_image_count surface.details.capabilities ≤
      surface.details.capabilities.maxImageCount ∧
    (s.create_swapchain surface).m_swap_chain_images.length =
      negotiated_image_count s.preferred_image_count surface.details.capabilities ∧
    (s.create_swapchain surface).m_swap_chain_image_views.length =
      negotiated_image_count s.preferred_image_count surface.details.capabilities ∧
    (s.create_swapchain surface).m_swap_chain_framebuffers.length =
      negotiated_image_count s.preferred_image_count surface.details.capabilities ∧
    (s.recreate_swapchain vsync surface).m_swap_chain_images.length =
      negotiated_image_count s.preferred_image_count surface.details.capabilities ∧
    (s.recreate_swapchain vsync surface).m_swap_chain_image_views.length =
      negotiated_image_count s.preferred_image_count surface.details.capabilities ∧
    (s.recreate_swapchain vsync surface).m_swap_chain_framebuffers.length =
      negotiated_image_count s.preferred_image_count surface.details.capabilities := by
  obtain ⟨h1, h2⟩ := clamp_bounds s.preferred_image_count _ _ h
  refine ⟨h1, h2, ?_, ?_, ?_, ?_, ?_, ?_⟩ <;>
    simp [SwapchainState.create_swapchain, SwapchainState.recreate_swapchain]

/-- Witness for C12: a surface allowing 2 to 8 images and a `Backend` asking for 3 gets 3
images, views and framebuffers. -/
theorem create_swapchain_image_count_clamped_witness :
    2 ≤ negotiated_image_count 3 example_surface.details.capabilities ∧
    negotiated_image_count 3 example_surface.details.capabilities ≤ 8 ∧
    (example_swapchain_state.create_swapchain example_surface).m_swap_chain_images =
      [(0, 0), (0, 1), (0, 2)] ∧
    (example_swapchain_state.create_swapchain example_surface).m_swap_chain_framebuffers.length =
      3 := by
  have h := create_swapchain_image_count_clamped example_swapchain_state example_surface true
    (by decide)
  exact ⟨h.1, h.2.1, by decide, by decide⟩

/-- C13: `choose_swap_extent` returns the surface's current extent when the surface
reports a fixed extent; otherwise (any size allowed) it returns the framebuffer size
clamped component-wise, which lies between `minImageExtent` and `maxImageExtent` in
width and height for every report whose minimum does not exceed its maximum, and is
the framebuffer size itself when that already lies in the range. -/
theorem choose_swap_extent_fixed_or_clamped (capabilities : VkSurfaceCapabilitiesKHR)
    (framebuffer_width framebuffer_height : Nat) :
    (capabilities.currentExtent.width ≠ UINT32_MAX →
      choose_swap_extent capabilities framebuffer_width framebuffer_height =
        capabilities.currentExtent) ∧
    (capabilities.currentExtent.width = UINT32_MAX →
      choose_swap_extent capabilities framebuffer_width framebuffer_height =
        ⟨clamp framebuffer_width capabilities.minImageExtent.width
            capabilities.maxImageExtent.width,
          clamp framebuffer_height capabilities.minImageExtent.height
            capabilities.maxImageExtent.height⟩) ∧
    (capabilities.currentExtent.width = UINT32_MAX →
      capabilities.minImageExtent.width ≤ capabilities.maxImageExtent.width →
      capabilities.minImageExtent.height ≤ capabilities.maxImageExtent.height →
      capabilities.minImageExtent.width ≤
        (choose_swap_extent capabilities framebuffer_width framebuffer_height).width ∧
      (choose_swap_extent capabilities framebuffer_width framebuffer_height).width ≤
        capabilities.maxImageExtent.width ∧
      capabilities.minImageExtent.height ≤
        (choose_swap_extent capabilities framebuffer_width framebuffer_height).height ∧
      (choose_swap_extent capabilities framebuffer_width framebuffer_height).height ≤
        capabilities.maxImageExtent.height) ∧
    (capabilities.currentExtent.width = UINT32_MAX →
      capabilities.minImageExtent.width ≤ framebuffer_width →
      framebuffer_width ≤ capabilities.maxImageExtent.width →
      capabilities.minImageExtent.height ≤ framebuffer_height →
      framebuffer_height ≤ capabilities.maxImageExtent.height →
      choose_swap_extent capabilities framebuffer_width framebuffer_height =
        ⟨framebuffer_width, framebuffer_height⟩) := by
  refine ⟨?_, ?_, ?_, ?_⟩
  · intro hfixed
    simp [choose_swap_extent, hfixed]
  · intro hany
    simp [choose_swap_extent, hany]
  · intro hany hw hh
    simp only [choose_swap_extent, hany, ne_eq, not_true_eq_false, if_false]
    obtain ⟨w1, w2⟩ := clamp_bounds framebuffer_width _ _ hw
    obtain ⟨h1, h2⟩ := clamp_bounds framebuffer_height _ _ hh
    exact ⟨w1, w2, h1, h2⟩
  · intro hany w1 w2 h1 h2
    simp only [choose_swap_extent, hany, ne_eq, not_true_eq_false, if_false]
    rw [clamp_of_mem _ _ _ w1 w2, clamp_of_mem _ _ _ h1 h2]

/-- Witness for C13: a surface that allows any size from 1x1 to 4096x4096 and a 5000x720
framebuffer give a 4096x720 swapchain; a surface with the fixed extent 800x600 gives
800x600. -/
theorem choose_swap_extent_fixed_or_clamped_witness :
    choose_swap_extent example_surface.details.capabilities 5000 720 = ⟨4096, 720⟩ ∧
    (1 ≤ (choose_swap_extent example_surface.details.capabilities 5000 720).width ∧
      (choose_swap_extent example_surface.details.capabilities 5000 720).width ≤ 4096 ∧
      1 ≤ (choose_swap_extent example_surface.details.capabilities 5000 720).height ∧
      (choose_swap_extent example_surface.details.capabilities 5000 720).height ≤ 4096) ∧
    choose_swap_extent ⟨2, 8, ⟨800, 600⟩, ⟨1, 1⟩, ⟨4096, 4096⟩⟩ 5000 720 = ⟨800, 600⟩ :=
  ⟨by decide,
    (choose_swap_extent_fixed_or_clamped example_surface.details.capabilities 5000 720).2.2.1
      (by decide) (by decide) (by decide),
    (choose_swap_extent_fixed_or_clamped ⟨2, 8, ⟨800, 600⟩, ⟨1, 1⟩, ⟨4096, 4096⟩⟩ 5000 720).1
      (by decide)⟩

/-- C14: swapchain negotiation is deterministic.  Calling `recreate_swapchain` a second
time with the same vsync flag on an unchanged surface gives the same image count,
the same `swap_chain_image_format()` and the same `swap_chain_extents()` (and present
mode) as the first call, although it starts from the swapchain the first call
built; the outcome does not depend on anything of the old swapchain state except the
sRGB flag and the image-count preference of the `Backend`. -/
theorem recreate_swapchain_deterministic (s : SwapchainState) (vsync : Bool)
    (surface : Surface) :
    ((s.recreate_swapchain vsync surface).recreate_swapchain vsync surface).swapchain_size =
      (s.recreate_swapchain vsync surface).swapchain_size ∧
    ((s.recreate_swapchain vsync surface).recreate_swapchain vsync
        surface).m_swap_chain_images.length =
      (s.recreate_swapchain vsync surface).m_swap_chain_images.length ∧
    ((s.recreate_swapchain vsync surface).recreate_swapchain vsync
        surface).swap_chain_image_format =
      (s.recreate_swapchain vsync surface).swap_chain_image_format ∧
    ((s.recreate_swapchain vsync surface).recreate_swapchain vsync
        surface).swap_chain_extents =
      (s.recreate_swapchain vsync surface).swap_chain_extents ∧
    ((s.recreate_swapchain vsync surface).recreate_swapchain vsync surface).present_mode =
      (s.recreate_swapchain vsync surface).present_mode ∧
    (∀ old : SwapchainState,
      (SwapchainState.recreate_swapchain
          { old with m_srgb_swapchain := s.m_srgb_swapchain,
                     preferred_image_count := s.preferred_image_count }
          vsync surface).m_swap_chain_images.length =
        (s.recreate_swapchain vsync surface).m_swap_chain_images.length ∧
      (SwapchainState.recreate_swapchain
          { old with m_srgb_swapchain := s.m_srgb_swapchain,
                     preferred_image_count := s.preferred_image_count }
          vsync surface).swap_chain_image_format =
        (s.recreate_swapchain vsync surface).swap_chain_image_format ∧
      (SwapchainState.recreate_swapchain
          { old with m_srgb_swapchain := s.m_srgb_swapchain,
                     preferred_image_count := s.preferred_image_count }
          vsync surface).swap_chain_extents =
        (s.recreate_swapchain vsync surface).swap_chain_extents) := by
  refine ⟨?_, ?_, rfl, rfl, rfl, fun old => ⟨?_, rfl, rfl⟩⟩ <;>
    simp [SwapchainState.recreate_swapchain, SwapchainState.create_swapchain,
      SwapchainState.swapchain_size]

end vk

namespace vk

/-! ## Thread-local pool cache -/

theorem thread_local_pool_lookup (c : PoolCache) (thread : Nat) (role : PoolRole) :
    lookup_pool (thread, role) (c.thread_local_pool thread role).1.pools =
      some (c.thread_local_pool thread role).2 := by
  unfold PoolCache.thread_local_pool
  cases h : lookup_pool (thread, role) c.pools with
  | none => simp [lookup_pool]
  | some pool => simpa using h

theorem thread_local_pool_keeps (c : PoolCache) (thread : Nat) (role : PoolRole)
    (k : Nat × PoolRole) (pool : Nat) (h : lookup_pool k c.pools = some pool) :
    lookup_pool k (c.thread_local_pool thread role).1.pools = some pool := by
  unfold PoolCache.thread_local_pool
  cases hk : lookup_pool (thread, role) c.pools with
  | some q => simpa using h
  | none =>
    simp only [lookup_pool]
    by_cases heq : (thread, role) = k
    · subst heq
      rw [hk] at h
      cases h
    · rw [if_neg heq]
      exact h

theorem thread_local_pool_wf (c : PoolCache) (thread : Nat) (role : PoolRole) (hwf : c.wf) :
    (c.thread_local_pool thread role).1.wf := by
  obtain ⟨hlt, hinj⟩ := hwf
  unfold PoolCache.thread_local_pool
  cases hk : lookup_pool (thread, role) c.pools with
  | some q => exact ⟨hlt, hinj⟩
  | none =>
    constructor
    · intro k pool h
      simp only [lookup_pool] at h
      split_ifs at h with heq
      · cases h
        exact Nat.lt_succ_self _
      · exact Nat.lt_succ_of_lt (hlt k pool h)
    · intro k1 k2 pool h1 h2
      simp only [lookup_pool] at h1 h2
      split_ifs at h1 h2 with e1 e2 e2
      · exact e1.symm.trans e2
      · cases h1
        exact absurd (hlt k2 _ h2) (lt_irrefl _)
      · cases h2
        exact absurd (hlt k1 _ h1) (lt_irrefl _)
      · exact hinj k1 k2 pool h1 h2

theorem requests_snoc (c : PoolCache) (calls : List (Nat × PoolRole)) (k : Nat × PoolRole) :
    c.requests (calls ++ [k]) = ((c.requests calls).thread_local_pool k.1 k.2).1 := by
  simp [PoolCache.requests, List.foldl_append]

theorem requests_cons (c : PoolCache) (calls : List (Nat × PoolRole)) (k : Nat × PoolRole) :
    c.requests (k :: calls) = (c.thread_local_pool k.1 k.2).1.requests calls := rfl

theorem requests_wf (calls : List (Nat × PoolRole)) :
    ∀ c : PoolCache, c.wf → (c.requests calls).wf := by
  induction calls with
  | nil => exact fun _ h => h
  | cons k rest ih =>
    intro c h
    rw [requests_cons]
    exact ih _ (thread_local_pool_wf c k.1 k.2 h)

theorem requests_keeps (calls : List (Nat × PoolRole)) :
    ∀ (c : PoolCache) (k : Nat × PoolRole) (pool : Nat), lookup_pool k c.pools = some pool →
      lookup_pool k (c.requests calls).pools = some pool := by
  induction calls with
  | nil => exact fun _ _ _ h => h
  | cons x rest ih =>
    intro c k pool h
    rw [requests_cons]
    exact ih _ k pool (thread_local_pool_keeps c x.1 x.2 k pool h)

theorem requests_lookup_none (calls : List (Nat × PoolRole)) :
    ∀ (c : PoolCache) (k : Nat × PoolRole),
      lookup_pool k (c.requests calls).pools = none ↔
        lookup_pool k c.pools = none ∧ k ∉ calls := by
  induction calls with
  | nil => intro c k; simp [PoolCache.requests]
  | cons x rest ih =>
    intro c k
    rw [requests_cons, ih]
    have hx := thread_local_pool_lookup c x.1 x.2
    constructor
    · rintro ⟨h1, h2⟩
      have hne : k ≠ x := by
        rintro rfl
        rw [h1] at hx
        cases hx
      refine ⟨?_, by simp [hne, h2]⟩
      cases hc : lookup_pool k c.pools with
      | none => rfl
      | some q =>
        rw [thread_local_pool_keeps c x.1 x.2 k q hc] at h1
        cases h1
    · rintro ⟨h1, h2⟩
      simp only [List.mem_cons, not_or] at h2
      refine ⟨?_, h2.2⟩
      unfold PoolCache.thread_local_pool
      cases hk : lookup_pool (x.1, x.2) c.pools with
      | some q => simpa using h1
      | none =>
        simp only [lookup_pool]
        rw [if_neg (fun e => h2.1 e.symm)]
        exact h1

theorem empty_wf : PoolCache.empty.wf := by
  constructor <;> intro <;> simp [PoolCache.empty, lookup_pool] at *

theorem thread_local_pool_of_lookup (c : PoolCache) (thread : Nat) (role : PoolRole)
    (pool : Nat) (h : lookup_pool (thread, role) c.pools = some pool) :
    c.thread_local_pool thread role = (c, pool) := by
  unfold PoolCache.thread_local_pool
  rw [h]

/-- C15: with the pool cache a map keyed by (thread identity, role), starting empty and
after any sequence of requests: a request creates a pool exactly when its thread has
not asked for that role before; asking again returns the same pool and creates
nothing, also after any number of requests in between; and two requests return the
same pool only if they come from the same thread for the same role, so two different
threads get different pools. -/
theorem thread_local_pool_per_thread_and_role (calls : List (Nat × PoolRole)) (thread : Nat)
    (role : PoolRole) :
    ((PoolCache.empty.requests calls).thread_local_pool thread role).1.created =
      (PoolCache.empty.requests calls).created + (if (thread, role) ∈ calls then 0 else 1) ∧
    ((PoolCache.empty.requests calls).thread_local_pool thread role).1.thread_local_pool
        thread role =
      (((PoolCache.empty.requests calls).thread_local_pool thread role).1,
        ((PoolCache.empty.requests calls).thread_local_pool thread role).2) ∧
    (∀ more : List (Nat × PoolRole),
      ((((PoolCache.empty.requests calls).thread_local_pool thread role).1.requests
          more).thread_local_pool thread role) =
        ((((PoolCache.empty.requests calls).thread_local_pool thread role).1.requests more),
          ((PoolCache.empty.requests calls).thread_local_pool thread role).2)) ∧
    (∀ (more : List (Nat × PoolRole)) (thread2 : Nat) (role2 : PoolRole),
      ((((PoolCache.empty.requests calls).thread_local_pool thread role).1.requests
          more).thread_local_pool thread2 role2).2 =
        ((PoolCache.empty.requests calls).thread_local_pool thread role).2 ↔
      (thread2, role2) = (thread, role)) ∧
    (∀ (more : List (Nat × PoolRole)) (thread2 : Nat) (role2 : PoolRole), thread2 ≠ thread →
      ((((PoolCache.empty.requests calls).thread_local_pool thread role).1.requests
          more).thread_local_pool thread2 role2).2 ≠
        ((PoolCache.empty.requests calls).thread_local_pool thread role).2) := by
  have hwf : (PoolCache.empty.requests calls).wf := requests_wf calls _ empty_wf
  have hx := thread_local_pool_lookup (PoolCache.empty.requests calls) thread role
  have hwfx := thread_local_pool_wf _ thread role hwf
  have hiff : ∀ (more : List (Nat × PoolRole)) (thread2 : Nat) (role2 : PoolRole),
      ((((PoolCache.empty.requests calls).thread_local_pool thread role).1.requests
          more).thread_local_pool thread2 role2).2 =
        ((PoolCache.empty.requests calls).thread_local_pool thread role).2 ↔
      (thread2, role2) = (thread, role) := by
    intro more thread2 role2
    have hkeep := requests_keeps more _ _ _ hx
    constructor
    · intro heq
      have hz := thread_local_pool_wf _ thread2 role2 (requests_wf more _ hwfx)
      have h2 := thread_local_pool_lookup
        (((PoolCache.empty.requests calls).thread_local_pool thread role).1.requests more)
        thread2 role2
      rw [heq] at h2
      exact hz.2 _ _ _ h2 (thread_local_pool_keeps _ thread2 role2 _ _ hkeep)
    · intro heq
      simp only [Prod.mk.injEq] at heq
      obtain ⟨rfl, rfl⟩ := heq
      rw [thread_local_pool_of_lookup _ _ _ _ hkeep]
  refine ⟨?_, thread_local_pool_of_lookup _ _ _ _ hx, ?_, hiff, ?_⟩
  · have hnone := requests_lookup_none calls PoolCache.empty (thread, role)
    unfold PoolCache.thread_local_pool
    by_cases hmem : (thread, role) ∈ calls
    · rw [if_pos hmem]
      cases hl : lookup_pool (thread, role) (PoolCache.empty.requests calls).pools with
      | some q => rfl
      | none => exact absurd hmem (hnone.mp hl).2
    · rw [if_neg hmem]
      rw [hnone.mpr ⟨rfl, hmem⟩]
  · intro more
    exact thread_local_pool_of_lookup _ _ _ _ (requests_keeps more _ _ _ hx)
  · intro more thread2 role2 hne heq
    have := (hiff more thread2 role2).mp heq
    simp only [Prod.mk.injEq] at this
    exact hne this.1

/-- Witness for C15: thread 1 asks for its graphics pool, thread 2 for its graphics pool,
thread 1 again: two pools are created, and thread 1 gets pool 0 both times while
thread 2 gets pool 1. -/
theorem thread_local_pool_per_thread_and_role_witness :
    (PoolCache.empty.thread_local_graphics_command_pool 1).2 = 0 ∧
    ((PoolCache.empty.thread_local_graphics_command_pool
      1).1.thread_local_graphics_command_pool 2).2 = 1 ∧
    ((((PoolCache.empty.thread_local_graphics_command_pool
      1).1.thread_local_graphics_command_pool 2).1.thread_local_graphics_command_pool 1) =
        (⟨[((2, .graphics), 1), ((1, .graphics), 0)], 2⟩, 0)) ∧
    ((((PoolCache.empty.requests []).thread_local_pool 1 .graphics).1.requests
        []).thread_local_pool 2 .graphics).2 ≠
      ((PoolCache.empty.requests []).thread_local_pool 1 .graphics).2 :=
  ⟨by decide, by decide, by decide,
    (thread_local_pool_per_thread_and_role [] 1 .graphics).2.2.2.2 [] 2 .graphics (by decide)⟩

end vk

/-! ## The Sample's per-frame uniform buffer -/

theorem mul_frame_idx_cases (s f : Nat) (hf : f < vk.kMaxFramesInFlight) :
    s * f = 0 ∨ s * f = s ∨ s * f = s + s := by
  unfold vk.kMaxFramesInFlight at hf
  interval_cases f
  · left; simp
  · right; left; simp
  · right; right; omega

theorem mul_kMaxFramesInFlight (s : Nat) : s * vk.kMaxFramesInFlight = s + s + s := by
  unfold vk.kMaxFramesInFlight
  omega

/-- C18: the per-frame uniform write of the ray-tracing Sample stays inside the uniform
buffer: with `s >= sizeof(Transforms)` the aligned size, a buffer of `s *
kMaxFramesInFlight` bytes (a `size_t` value) and a frame slot `f < kMaxFramesInFlight`,
the write starts at `s * f` and ends at `s * f + sizeof(Transforms)`, which is at most
the buffer size. -/
theorem update_uniforms_write_in_bounds (s f : Nat) (hs : sizeof_Transforms ≤ s)
    (hf : f < vk.kMaxFramesInFlight) (hsize : s * vk.kMaxFramesInFlight < vk.SIZE_MOD) :
    Sample.update_uniforms_offset s f = s * f ∧
    Sample.uniform_buffer_size s = s * vk.kMaxFramesInFlight ∧
    s * f + sizeof_Transforms ≤ s * vk.kMaxFramesInFlight ∧
    Sample.update_uniforms_offset s f + sizeof_Transforms ≤ Sample.uniform_buffer_size s := by
  have h3 := mul_kMaxFramesInFlight s
  have hcases := mul_frame_idx_cases s f hf
  have hle : s * f + sizeof_Transforms ≤ s * vk.kMaxFramesInFlight := by omega
  have hoff : Sample.update_uniforms_offset s f = s * f :=
    Nat.mod_eq_of_lt (by omega)
  have hbuf : Sample.uniform_buffer_size s = s * vk.kMaxFramesInFlight :=
    Nat.mod_eq_of_lt hsize
  exact ⟨hoff, hbuf, hle, by rw [hoff, hbuf]; exact hle⟩

/-- Witness for C18: an aligned size of 256 bytes and frame slot 2: the write covers
bytes 512 to 640 of a 768-byte buffer. -/
theorem update_uniforms_write_in_bounds_witness :
    Sample.update_uniforms_offset 256 2 = 512 ∧ Sample.uniform_buffer_size 256 = 768 ∧
    Sample.update_uniforms_offset 256 2 + sizeof_Transforms ≤ Sample.uniform_buffer_size 256 :=
  ⟨by decide, by decide,
    (update_uniforms_write_in_bounds 256 2 (by decide) (by decide) (by decide)).2.2.2⟩

theorem slices_disjoint (s f g : Nat) (hs : sizeof_Transforms ≤ s)
    (hf : f < vk.kMaxFramesInFlight) (hg : g < vk.kMaxFramesInFlight) (hne : f ≠ g) :
    s * f + sizeof_Transforms ≤ s * g ∨ s * g + sizeof_Transforms ≤ s * f := by
  unfold vk.kMaxFramesInFlight at hf hg
  unfold sizeof_Transforms at *
  interval_cases f <;> interval_cases g <;> simp_all <;> omega

/-- C19: in the ray-tracing Sample each frame slot uses its own slice of the uniform
buffer.  For frame slots `f != g` below `kMaxFramesInFlight` and `s >=
sizeof(Transforms)` the ranges `[s*f, s*f + sizeof(Transforms))` and `[s*g, s*g +
sizeof(Transforms))` are disjoint; the dynamic offset `trace_scene` binds for slot `f`
equals the offset `update_uniforms` writes for slot `f` whenever `s*f < 2^32`; so
(offsets fitting 32 bits) writing the transforms of slot `f` leaves every byte that
slot `g` reads unchanged, and slot `f` reads back what was written for it. -/
theorem uniform_slices_per_frame_slot (s f g : Nat) (hs : sizeof_Transforms ≤ s)
    (hf : f < vk.kMaxFramesInFlight) (hg : g < vk.kMaxFramesInFlight) (hne : f ≠ g) :
    (s * f + sizeof_Transforms ≤ s * g ∨ s * g + sizeof_Transforms ≤ s * f) ∧
    (s * f < vk.UINT32_MOD → Sample.dynamic_offset s f = Sample.update_uniforms_offset s f ∧
      Sample.dynamic_offset s f = s * f) ∧
    (s * f < vk.UINT32_MOD → s * g < vk.UINT32_MOD →
      ∀ (mapped : Nat → Nat) (transforms : List Nat) (k : Nat), k < sizeof_Transforms →
        Sample.read_transforms (Sample.write_transforms mapped s f transforms) s g k =
          Sample.read_transforms mapped s g k ∧
        Sample.read_transforms (Sample.write_transforms mapped s f transforms) s f k =
          transforms.getD k 0) := by
  have hdisj := slices_disjoint s f g hs hf hg hne
  have h32 : vk.UINT32_MOD < vk.SIZE_MOD := by decide
  have hoff : ∀ x, s * x < vk.UINT32_MOD →
      Sample.update_uniforms_offset s x = s * x ∧ Sample.dynamic_offset s x = s * x := by
    intro x hx
    have h1 : (s * x) % vk.SIZE_MOD = s * x := Nat.mod_eq_of_lt (by omega)
    refine ⟨h1, ?_⟩
    unfold Sample.dynamic_offset
    rw [h1]
    exact Nat.mod_eq_of_lt hx
  refine ⟨hdisj, ?_, ?_⟩
  · intro hx
    obtain ⟨h1, h2⟩ := hoff f hx
    exact ⟨by rw [h1, h2], h2⟩
  · intro hx hy mapped transforms k hk
    obtain ⟨hf1, hf2⟩ := hoff f hx
    obtain ⟨_, hg2⟩ := hoff g hy
    simp only [Sample.read_transforms, Sample.write_transforms, hf1, hf2, hg2]
    constructor
    · rw [if_neg (by omega)]
    · rw [if_pos (by omega)]
      congr 1
      omega

/-- Witness for C19: aligned size 256, slots 1 and 2: the slices are bytes 256 to 384 and
512 to 640, and a write for slot 1 is read back by slot 1 and not seen by slot 2. -/
theorem uniform_slices_per_frame_slot_witness :
    Sample.dynamic_offset 256 1 = 256 ∧ Sample.update_uniforms_offset 256 1 = 256 ∧
    Sample.dynamic_offset 256 2 = 512 ∧
    Sample.read_transforms (Sample.write_transforms (fun _ => 0) 256 1 [7, 8, 9]) 256 2 1 =
      Sample.read_transforms (fun _ => 0) 256 2 1 ∧
    Sample.read_transforms (Sample.write_transforms (fun _ => 0) 256 1 [7, 8, 9]) 256 1 1 = 8 :=
  ⟨by decide, by decide, by decide,
    ((uniform_slices_per_frame_slot 256 1 2 (by decide) (by decide) (by decide)
      (by decide)).2.2 (by decide) (by decide) (fun _ => 0) [7, 8, 9] 1 (by decide)).1,
    ((uniform_slices_per_frame_slot 256 1 2 (by decide) (by decide) (by decide)
      (by decide)).2.2 (by decide) (by decide) (fun _ => 0) [7, 8, 9] 1 (by decide)).2⟩

namespace vk
namespace utilities

/-! ## utilities::aligned_size -/

theorem and_not_low_mask (x k : Nat) (hx : x < 2 ^ 32) :
    x &&& ((2 ^ 32 - 1) ^^^ (2 ^ k - 1)) = x / 2 ^ k * 2 ^ k := by
  apply Nat.eq_of_testBit_eq
  intro i
  rw [Nat.testBit_and, Nat.testBit_xor, Nat.testBit_two_pow_sub_one, Nat.testBit_two_pow_sub_one,
    Nat.mul_comm, Nat.testBit_mul_pow_two, ← Nat.shiftRight_eq_div_pow, Nat.testBit_shiftRight]
  by_cases hi : i < 32
  · by_cases hik : k ≤ i
    · have h1 : ¬ i < k := by omega
      have h2 : k + (i - k) = i := by omega
      simp [hik, hi, h1, h2]
    · have h1 : i < k := by omega
      simp [hik, h1, hi]
  · have hb : x.testBit i = false := by
      apply Nat.testBit_lt_two_pow
      calc x < 2 ^ 32 := hx
        _ ≤ 2 ^ i := Nat.pow_le_pow_right (by decide) (by omega)
    by_cases hik : k ≤ i
    · have h2 : k + (i - k) = i := by omega
      simp [hb, hik, h2]
    · simp [hb, hik]

theorem aligned_size_two_pow (v k : Nat) (hk : k ≤ 31) :
    aligned_size v (2 ^ k) = (v + 2 ^ k + 4294967295) % 4294967296 / 2 ^ k * 2 ^ k := by
  have hpow : 2 ^ k ≤ 2 ^ 31 := Nat.pow_le_pow_right (by decide) hk
  have hpos : 0 < 2 ^ k := Nat.pos_pow_of_pos k (by decide)
  have h31 : (2:Nat) ^ 31 = 2147483648 := by norm_num
  have h32 : (2:Nat) ^ 32 = 4294967296 := by norm_num
  have hsub : uint32_sub (2 ^ k) 1 = 2 ^ k - 1 := by
    unfold uint32_sub UINT32_MOD
    generalize 2 ^ k = a at *
    omega
  have hadd : uint32_sub (uint32_add v (2 ^ k)) 1 = (v + 2 ^ k + 4294967295) % 4294967296 := by
    unfold uint32_sub uint32_add UINT32_MOD
    generalize 2 ^ k = a at *
    omega
  have hlt : (v + 2 ^ k + 4294967295) % 4294967296 < 2 ^ 32 := by
    rw [h32]; exact Nat.mod_lt _ (by decide)
  unfold aligned_size
  rw [hsub, hadd]
  unfold uint32_not UINT32_MOD
  have hm : (4294967296 - 1 : Nat) = 2 ^ 32 - 1 := by norm_num
  rw [hm]
  exact and_not_low_mask _ k hlt

theorem multiple_add_le_of_lt (a m n : Nat) (hm : a ∣ m) (hn : a ∣ n) (h : m < n) :
    m + a ≤ n := by
  obtain ⟨c, rfl⟩ := hm
  obtain ⟨q, rfl⟩ := hn
  have hcq : c < q := Nat.lt_of_mul_lt_mul_left h
  have h1 : a * (c + 1) ≤ a * q := Nat.mul_le_mul_left a hcq
  rw [Nat.mul_succ] at h1
  exact h1

theorem two_pow_dvd_uint32_mod (k : Nat) (hk : k ≤ 31) : 2 ^ k ∣ 4294967296 := by
  have h : (4294967296 : Nat) = 2 ^ 32 := by norm_num
  rw [h]
  exact Nat.pow_dvd_pow 2 (by omega)

theorem round_down_facts (y a : Nat) (ha : 0 < a) :
    a ∣ y / a * a ∧ y / a * a ≤ y ∧ y < y / a * a + a := by
  refine ⟨Dvd.intro_left _ rfl, Nat.div_mul_le_self y a, ?_⟩
  have h := Nat.div_add_mod y a
  have h2 := Nat.mod_lt y ha
  rw [Nat.mul_comm] at h
  omega

theorem aligned_size_no_wrap (v k : Nat) (hk : k ≤ 31) (h : v + 2 ^ k ≤ 4294967296) :
    aligned_size v (2 ^ k) = (v + 2 ^ k - 1) / 2 ^ k * 2 ^ k := by
  have hpos : 0 < 2 ^ k := Nat.pos_pow_of_pos k (by decide)
  rw [aligned_size_two_pow v k hk]
  have hx : (v + 2 ^ k + 4294967295) % 4294967296 = v + 2 ^ k - 1 := by
    generalize 2 ^ k = a at *
    omega
  rw [hx]

theorem aligned_size_wrap (v k : Nat) (hk : k ≤ 31) (hv : v < 4294967296)
    (h : 4294967296 < v + 2 ^ k) : aligned_size v (2 ^ k) = 0 := by
  have hpos : 0 < 2 ^ k := Nat.pos_pow_of_pos k (by decide)
  rw [aligned_size_two_pow v k hk]
  have hx : (v + 2 ^ k + 4294967295) % 4294967296 < 2 ^ k := by
    generalize 2 ^ k = a at *
    omega
  rw [Nat.div_eq_of_lt hx, Nat.zero_mul]

theorem round_up_facts (v a : Nat) (ha : 0 < a) :
    a ∣ (v + a - 1) / a * a ∧ v ≤ (v + a - 1) / a * a ∧ (v + a - 1) / a * a < v + a ∧
    ∀ m : Nat, a ∣ m → v ≤ m → (v + a - 1) / a * a ≤ m := by
  obtain ⟨h1, h2, h3⟩ := round_down_facts (v + a - 1) a ha
  refine ⟨h1, by omega, by omega, ?_⟩
  intro m hm hvm
  by_contra hlt
  have h4 := multiple_add_le_of_lt a m _ hm h1 (by omega)
  omega

theorem round_up_of_dvd (v a : Nat) (ha : 0 < a) (h : a ∣ v) : (v + a - 1) / a * a = v := by
  obtain ⟨h1, h2, h3, h4⟩ := round_up_facts v a ha
  exact Nat.le_antisymm (h4 v h (Nat.le_refl v)) h2

/-- C21: for a power-of-two alignment a = 2^k with k at most 31 and a 32-bit value v,
aligned_size v a is ceil(v / a) * a reduced modulo 2^32: when v is at most 2^32 - a it is
the least multiple of a that is at least v, lying in the range from v to below v + a, and
when v exceeds 2^32 - a the 32-bit addition wraps and the result is 0. -/
theorem aligned_size_power_of_two_rounds_up (k v : Nat) (hk : k ≤ 31) (hv : v < UINT32_MOD) :
    aligned_size v (2 ^ k) = ((v + 2 ^ k - 1) / 2 ^ k * 2 ^ k) % UINT32_MOD ∧
    (v ≤ UINT32_MOD - 2 ^ k →
      2 ^ k ∣ aligned_size v (2 ^ k) ∧ v ≤ aligned_size v (2 ^ k) ∧
      aligned_size v (2 ^ k) < v + 2 ^ k ∧
      ∀ m : Nat, 2 ^ k ∣ m → v ≤ m → aligned_size v (2 ^ k) ≤ m) ∧
    (UINT32_MOD - 2 ^ k < v → aligned_size v (2 ^ k) = 0) := by
  have hpos : 0 < 2 ^ k := Nat.pos_pow_of_pos k (by decide)
  have hdvd := two_pow_dvd_uint32_mod k hk
  have hle : 2 ^ k ≤ 4294967296 := Nat.le_of_dvd (by decide) hdvd
  unfold UINT32_MOD at *
  obtain ⟨h1, h2, h3, h4⟩ := round_up_facts v (2 ^ k) hpos
  refine ⟨?_, ?_, ?_⟩
  · by_cases hw : v + 2 ^ k ≤ 4294967296
    · rw [aligned_size_no_wrap v k hk hw, Nat.mod_eq_of_lt]
      omega
    · rw [aligned_size_wrap v k hk hv (by omega)]
      have h5 : (v + 2 ^ k - 1) / 2 ^ k * 2 ^ k = 4294967296 := by
        apply Nat.le_antisymm
        · exact h4 4294967296 hdvd (by omega)
        · by_contra hgt
          have h6 := multiple_add_le_of_lt (2 ^ k) _ 4294967296 h1 hdvd (by omega)
          have h7 := (round_down_facts (v + 2 ^ k - 1) (2 ^ k) hpos).2.2
          omega
      rw [h5]
  · intro hw
    rw [aligned_size_no_wrap v k hk (by omega)]
    exact ⟨h1, h2, h3, h4⟩
  · intro hw
    exact aligned_size_wrap v k hk hv (by omega)

theorem aligned_size_power_of_two_rounds_up_witness :
    aligned_size 5 (2 ^ 2) = ((5 + 2 ^ 2 - 1) / 2 ^ 2 * 2 ^ 2) % UINT32_MOD ∧
    (5 ≤ UINT32_MOD - 2 ^ 2 →
      2 ^ 2 ∣ aligned_size 5 (2 ^ 2) ∧ 5 ≤ aligned_size 5 (2 ^ 2) ∧
      aligned_size 5 (2 ^ 2) < 5 + 2 ^ 2 ∧
      ∀ m : Nat, 2 ^ 2 ∣ m → 5 ≤ m → aligned_size 5 (2 ^ 2) ≤ m) ∧
    (UINT32_MOD - 2 ^ 2 < 5 → aligned_size 5 (2 ^ 2) = 0) :=
  aligned_size_power_of_two_rounds_up 2 5 (by decide) (by decide)

/-- C22: for a power-of-two alignment a = 2^k with k at most 31 and every 32-bit value v,
wrapping ones included, aligned_size is idempotent, and aligned_size v a equals v exactly
when v is a multiple of a. -/
theorem aligned_size_idempotent_and_fixed_points (k v : Nat) (hk : k ≤ 31)
    (hv : v < UINT32_MOD) :
    aligned_size (aligned_size v (2 ^ k)) (2 ^ k) = aligned_size v (2 ^ k) ∧
    (aligned_size v (2 ^ k) = v ↔ 2 ^ k ∣ v) := by
  have hpos : 0 < 2 ^ k := Nat.pos_pow_of_pos k (by decide)
  have hdvd := two_pow_dvd_uint32_mod k hk
  have hle : 2 ^ k ≤ 4294967296 := Nat.le_of_dvd (by decide) hdvd
  unfold UINT32_MOD at *
  have hzero : aligned_size 0 (2 ^ k) = 0 := by
    rw [aligned_size_no_wrap 0 k hk (by omega)]
    exact round_up_of_dvd 0 (2 ^ k) hpos (dvd_zero _)
  by_cases hw : v + 2 ^ k ≤ 4294967296
  · obtain ⟨h1, h2, h3, h4⟩ := round_up_facts v (2 ^ k) hpos
    rw [aligned_size_no_wrap v k hk hw]
    refine ⟨?_, ?_⟩
    · have h5 := multiple_add_le_of_lt (2 ^ k) _ 4294967296 h1 hdvd (by omega)
      rw [aligned_size_no_wrap _ k hk h5]
      exact round_up_of_dvd _ (2 ^ k) hpos h1
    · constructor
      · intro h
        rw [h] at h1
        exact h1
      · intro h
        exact round_up_of_dvd v (2 ^ k) hpos h
  · rw [aligned_size_wrap v k hk hv (by omega)]
    refine ⟨hzero, ?_⟩
    constructor
    · intro h
      omega
    · intro h
      have h5 := multiple_add_le_of_lt (2 ^ k) v 4294967296 h hdvd hv
      omega

theorem aligned_size_idempotent_and_fixed_points_witness :
    aligned_size (aligned_size 4294967295 (2 ^ 4)) (2 ^ 4) = aligned_size 4294967295 (2 ^ 4) ∧
    (aligned_size 4294967295 (2 ^ 4) = 4294967295 ↔ 2 ^ 4 ∣ 4294967295) :=
  aligned_size_idempotent_and_fixed_points 4 4294967295 (by decide) (by decide)

/-- C23: aligned_size rounds up to a multiple only for power-of-two alignments: with
alignment 0 the result is 0 for every value, and for the alignment 3, which is not a power of
two, aligned_size 4 3 is 4, which is not a multiple of 3. -/
theorem aligned_size_not_rounding_for_other_alignments :
    (∀ v : Nat, aligned_size v 0 = 0) ∧
    (¬ ∃ k : Nat, 3 = 2 ^ k) ∧ aligned_size 4 3 = 4 ∧ ¬ 3 ∣ aligned_size 4 3 := by
  refine ⟨?_, ?_, by decide, by decide⟩
  · intro v
    have h : uint32_not (uint32_sub 0 1) = 0 := by decide
    unfold aligned_size
    rw [h, Nat.and_zero]
  · rintro ⟨k, hk⟩
    cases k with
    | zero => omega
    | succ n => rw [Nat.pow_succ] at hk; omega

end utilities
end vk

/-! ## Application::run -/

theorem poll_events_backend (cls : AppClass) (resizes : List (Int × Int)) :
    ∀ app : Application,
      (Application.poll_events cls app resizes).1.m_vk_backend = app.m_vk_backend := by
  induction resizes with
  | nil => exact fun _ => rfl
  | cons r rest ih =>
    intro app
    obtain ⟨w, h⟩ := r
    simp only [Application.poll_events]
    exact ih (Application.window_size_callback cls app w h).1

theorem update_base_backend (cls : AppClass) (app : Application) (input : FrameInput) :
    (Application.update_base cls app input).1.m_vk_backend = app.m_vk_backend := by
  have h := poll_events_backend cls input.resizes app
  simp only [Application.update_base, Application.begin_frame]
  split_ifs <;> exact h

theorem frame_loop_backend (cls : AppClass) (inputs : List FrameInput) :
    ∀ app : Application,
      (Application.frame_loop cls app inputs).1.m_vk_backend = app.m_vk_backend := by
  induction inputs with
  | nil => exact fun _ => rfl
  | cons input rest ih =>
    intro app
    simp only [Application.frame_loop]
    rw [ih, update_base_backend]

theorem init_base_true_backend (cls : AppClass) (app : Application) (env : InitEnv)
    (h : (Application.init_base cls app env).2.2 = .returned true) :
    ∃ backend : Nat, (Application.init_base cls app env).1.m_vk_backend = some backend := by
  unfold Application.init_base at h ⊢
  cases hg : env.glfw_init_ok
  · simp [hg] at h
  · cases hw : env.window with
    | none => simp [hg, hw] at h
    | some window =>
      cases hb : env.backend with
      | failed error => simp [hg, hw, hb] at h
      | returned result =>
        cases result with
        | none => simp [hg, hw, hb] at h
        | some backend =>
          refine ⟨backend, ?_⟩
          simp only [hg, hw, hb, Application.init_finish, Bool.not_true, Bool.false_eq_true,
            if_false]
          split_ifs <;> rfl

/-- C24: `Application::run` returns 1 exactly when `init_base` returns false, and then
the run consists of the calls of `init_base` alone: no `update_base`, no
`Backend::wait_idle`, no `shutdown_base`.  When `init_base` returns true and the frame
loop ends, the run is the calls of `init_base`, then those of the `update_base` frames,
then `Backend::wait_idle`, then those of `shutdown_base`, and `run` returns 0. -/
theorem run_returns_one_iff_init_base_fails (cls : AppClass) (app : Application)
    (env : InitEnv) (inputs : List FrameInput) :
    ((Application.run cls app env inputs).2.2 = .returned 1 ↔
      (Application.init_base cls app env).2.2 = .returned false) ∧
    ((Application.init_base cls app env).2.2 = .returned false →
      (Application.run cls app env inputs).2.1 = (Application.init_base cls app env).2.1) ∧
    ((Application.init_base cls app env).2.2 = .returned true →
      (Application.run cls app env inputs).2.2 = .returned 0 ∧
      (Application.run cls app env inputs).2.1 =
        (Application.init_base cls app env).2.1 ++
        (Application.frame_loop cls (Application.init_base cls app env).1 inputs).2 ++
        [fw .wait_idle] ++
        (Application.shutdown_base cls
          (Application.frame_loop cls (Application.init_base cls app env).1 inputs).1).2.1) := by
  have htrue : (Application.init_base cls app env).2.2 = .returned true →
      (Application.run cls app env inputs).2.2 = .returned 0 ∧
      (Application.run cls app env inputs).2.1 =
        (Application.init_base cls app env).2.1 ++
        (Application.frame_loop cls (Application.init_base cls app env).1 inputs).2 ++
        [fw .wait_idle] ++
        (Application.shutdown_base cls
          (Application.frame_loop cls (Application.init_base cls app env).1 inputs).1).2.1 := by
    intro h
    obtain ⟨backend, hb⟩ := init_base_true_backend cls app env h
    have hl := frame_loop_backend cls inputs (Application.init_base cls app env).1
    rw [hb] at hl
    have hs : (Application.shutdown_base cls
        (Application.frame_loop cls (Application.init_base cls app env).1 inputs).1).2.2 =
        .returned () := by
      simp only [Application.shutdown_base, hl]
    simp only [Application.run, h, hl, hs]
    exact ⟨trivial, trivial⟩
  refine ⟨?_, ?_, htrue⟩
  · constructor
    · intro h
      cases hi : (Application.init_base cls app env).2.2 with
      | null_dereference => simp [Application.run, hi] at h
      | construction_failed => simp [Application.run, hi] at h
      | returned value =>
        cases value with
        | false => rfl
        | true =>
          rw [(htrue hi).1] at h
          cases h
    · intro h
      simp only [Application.run, h]
  · intro h
    simp only [Application.run, h]

theorem run_returns_one_iff_init_base_fails_witness :
    (Application.run (Sample.class false [] true) Application.constructed
        example_env_without_glfw example_frames_with_resize).2.2 = .returned 1 ∧
    (Application.run (Sample.class false [] true) Application.constructed
        example_env_without_glfw example_frames_with_resize).2.1 =
      (Application.init_base (Sample.class false [] true) Application.constructed
        example_env_without_glfw).2.1 ∧
    (Application.run (Sample.class false [] true) Application.constructed
        example_env example_frames_with_resize).2.2 = .returned 0 ∧
    (Application.run (Sample.class false [] true) Application.constructed
        example_env example_frames_with_resize).2.2 ≠ .returned 1 :=
  ⟨(run_returns_one_iff_init_base_fails (Sample.class false [] true) Application.constructed
      example_env_without_glfw example_frames_with_resize).1.mpr (by decide),
   (run_returns_one_iff_init_base_fails (Sample.class false [] true) Application.constructed
      example_env_without_glfw example_frames_with_resize).2.1 (by decide),
   ((run_returns_one_iff_init_base_fails (Sample.class false [] true) Application.constructed
      example_env example_frames_with_resize).2.2 (by decide)).1,
   fun h => absurd
     ((run_returns_one_iff_init_base_fails (Sample.class false [] true) Application.constructed
      example_env example_frames_with_resize).1.mp h) (by decide)⟩

/-! ## Application::shutdown_base -/

/-- C25 fails on the code: `shutdown_base` resets the two semaphores but calls the
destructor of the `Backend` through `m_vk_backend` without resetting it.  After a
shutdown that returns, with or without `DWSF_IMGUI`, both semaphores are empty and were
reset before the destructor call, yet `m_vk_backend` still holds the context; the
destructor has run once inside `shutdown_base` and runs a second time when the
`Application` is destroyed. -/
theorem shutdown_base_keeps_backend_pointer :
    ∀ imgui : Bool,
      (Application.shutdown_base (Sample.class imgui [] true) example_app).2.2 = .returned () ∧
      (Application.shutdown_base (Sample.class imgui [] true)
        example_app).1.m_present_complete_semaphore = none ∧
      (Application.shutdown_base (Sample.class imgui [] true)
        example_app).1.m_render_complete_semaphore = none ∧
      (Application.shutdown_base (Sample.class imgui [] true) example_app).1.m_vk_backend =
        some 1 ∧
      (Application.shutdown_base (Sample.class imgui [] true) example_app).1.m_vk_backend ≠
        none ∧
      List.Sublist
        [fw (.semaphore_reset (some 10)), fw (.semaphore_reset (some 11)),
         fw (.backend_destructor (some 1))]
        (Application.shutdown_base (Sample.class imgui [] true) example_app).2.1 ∧
      ((Application.shutdown_base (Sample.class imgui [] true) example_app).2.1.count
        (fw (.backend_destructor (some 1))) = 1) ∧
      (((Application.shutdown_base (Sample.class imgui [] true) example_app).2.1 ++
          Application.destructor
            (Application.shutdown_base (Sample.class imgui [] true) example_app).1).count
        (fw (.backend_destructor (some 1))) = 2) := by
  intro imgui
  cases imgui <;> decide

/-! ## The ray-tracing Sample: a mesh that fails to load -/

/-- C26 fails on the code: when `Mesh::load` yields a null mesh, `load_mesh` of the
ray-tracing Sample calls `initialize_for_ray_tracing` through the null pointer before it
compares the pointer with `nullptr`; it does not return false, and neither does
`Sample::init`.  With a mesh that loads, both return true. -/
theorem load_mesh_null_mesh_dereferenced :
    (Sample.load_mesh none).2 = .null_dereference ∧
    (Sample.load_mesh none).2 ≠ .returned false ∧
    SampleCall.initialize_for_ray_tracing none ∈ (Sample.load_mesh none).1 ∧
    (Sample.init none).2 = .null_dereference ∧
    (Sample.init none).2 ≠ .returned false ∧
    SampleCall.initialize_for_ray_tracing none ∈ (Sample.init none).1 ∧
    (Sample.load_mesh (some 1)).2 = .returned true ∧
    (Sample.init (some 1)).2 = .returned true := by
  decide

/-! ## Application::load_initial_settings_from_file -/

theorem set_getElem?_of_ne (xs : List Bool) (n : Nat) (b : Bool) (i : Nat) (index : Int)
    (hn : n = index.toNat) (h0 : 0 ≤ index) (hi : (i : Int) ≠ index) :
    (xs.set n b)[i]? = xs[i]? := by
  have hne : n ≠ i := by
    intro h
    apply hi
    rw [← h, hn]
    exact Int.toNat_of_nonneg h0
  exact List.getElem?_set_ne hne

theorem set_effect (bound : Int) (before : List Bool) (index action : Int) (b : Bool)
    (accessed : List Int) (calls : List Event) (h0 : 0 ≤ index) (hb : index < bound)
    (hacc : accessed = [index])
    (hact : (action = GLFW_PRESS ∧ b = true) ∨ (action = GLFW_RELEASE ∧ b = false)) :
    callback_effect bound before index action
      { state := before.set index.toNat b, accessed := accessed, calls := calls } := by
  have hpr : GLFW_PRESS ≠ GLFW_RELEASE := by decide
  refine ⟨List.length_set _ _ _, ?_, ?_, ?_, ?_⟩
  · intro i hi
    exact set_getElem?_of_ne before _ b i index rfl h0 hi
  · intro _ _ ha
    rcases hact with ⟨_, hbt⟩ | ⟨har, _⟩
    · subst hbt
      refine ⟨rfl, hacc, fun hlt => ?_⟩
      simp [List.getElem?_set_self hlt]
    · rw [ha] at har
      exact absurd har hpr
  · intro _ _ ha
    rcases hact with ⟨hap, _⟩ | ⟨_, hbf⟩
    · rw [ha] at hap
      exact absurd hap.symm hpr
    · subst hbf
      refine ⟨rfl, hacc, fun hlt => ?_⟩
      simp [List.getElem?_set_self hlt]
  · rintro (hout | ⟨hp, hr⟩)
    · exact absurd ⟨h0, hb⟩ hout
    · rcases hact with ⟨hap, _⟩ | ⟨har, _⟩
      · exact absurd hap hp
      · exact absurd har hr

theorem unchanged_effect (bound : Int) (before : List Bool) (index action : Int)
    (calls : List Event)
    (h : ¬ (0 ≤ index ∧ index < bound) ∨ (action ≠ GLFW_PRESS ∧ action ≠ GLFW_RELEASE)) :
    callback_effect bound before index action
      { state := before, accessed := [], calls := calls } := by
  refine ⟨rfl, fun _ _ => rfl, ?_, ?_, fun _ => ⟨rfl, rfl⟩⟩
  · intro h0 hb ha
    rcases h with hout | ⟨hp, _⟩
    · exact absurd ⟨h0, hb⟩ hout
    · exact absurd ha hp
  · intro h0 hb ha
    rcases h with hout | ⟨_, hr⟩
    · exact absurd ⟨h0, hb⟩ hout
    · exact absurd ha hr

theorem key_callback_effect (MAX_KEYS : Int) (m_keys : List Bool)
    (key scancode action mode : Int) :
    callback_effect MAX_KEYS m_keys key action
      (Application.key_callback MAX_KEYS m_keys key scancode action mode) := by
  unfold Application.key_callback
  by_cases hin : 0 ≤ key ∧ key < MAX_KEYS
  · obtain ⟨h0, hb⟩ := hin
    by_cases hp : action = GLFW_PRESS
    · simp only [ge_iff_le, h0, hb, decide_True, Bool.and_self, hp, beq_self_eq_true, if_true]
      exact set_effect MAX_KEYS m_keys key GLFW_PRESS true _ _ h0 hb rfl (Or.inl ⟨rfl, rfl⟩)
    · by_cases hr : action = GLFW_RELEASE
      · have hrp : (GLFW_RELEASE == GLFW_PRESS) = false := by decide
        simp only [ge_iff_le, h0, hb, decide_True, Bool.and_self, hr, hrp, beq_self_eq_true,
          if_true, Bool.and_false, Bool.false_eq_true, if_false]
        exact set_effect MAX_KEYS m_keys key GLFW_RELEASE false _ _ h0 hb rfl
          (Or.inr ⟨rfl, rfl⟩)
      · have h1 : (action == GLFW_PRESS) = false := beq_false_of_ne hp
        have h2 : (action == GLFW_RELEASE) = false := beq_false_of_ne hr
        simp only [ge_iff_le, h0, hb, decide_True, Bool.and_self, h1, h2, if_true,
          Bool.and_false, Bool.false_eq_true, if_false]
        exact unchanged_effect MAX_KEYS m_keys key action _ (Or.inr ⟨hp, hr⟩)
  · have hd : (decide (key ≥ 0) && decide (key < MAX_KEYS)) = false := by
      simp only [ge_iff_le, Bool.and_eq_false_imp, decide_eq_true_eq, decide_eq_false_iff_not]
      exact fun h0 hb => hin ⟨h0, hb⟩
    simp only [hd, Bool.false_eq_true, if_false]
    exact unchanged_effect MAX_KEYS m_keys key action _ (Or.inl hin)

theorem mouse_button_callback_effect (MAX_MOUSE_BUTTONS : Int) (m_mouse_buttons : List Bool)
    (button action mods : Int) :
    callback_effect MAX_MOUSE_BUTTONS m_mouse_buttons button action
      (Application.mouse_button_callback MAX_MOUSE_BUTTONS m_mouse_buttons button action
        mods) := by
  unfold Application.mouse_button_callback
  by_cases hin : 0 ≤ button ∧ button < MAX_MOUSE_BUTTONS
  · obtain ⟨h0, hb⟩ := hin
    by_cases hp : action = GLFW_PRESS
    · simp only [ge_iff_le, h0, hb, decide_True, Bool.and_self, hp, beq_self_eq_true, if_true]
      exact set_effect MAX_MOUSE_BUTTONS m_mouse_buttons button GLFW_PRESS true _ _ h0 hb rfl
        (Or.inl ⟨rfl, rfl⟩)
    · by_cases hr : action = GLFW_RELEASE
      · have hrp : (GLFW_RELEASE == GLFW_PRESS) = false := by decide
        simp only [ge_iff_le, h0, hb, decide_True, Bool.and_self, hr, hrp, beq_self_eq_true,
          if_true, Bool.false_eq_true, if_false]
        exact set_effect MAX_MOUSE_BUTTONS m_mouse_buttons button GLFW_RELEASE false _ _ h0 hb
          rfl (Or.inr ⟨rfl, rfl⟩)
      · have h1 : (action == GLFW_PRESS) = false := beq_false_of_ne hp
        have h2 : (action == GLFW_RELEASE) = false := beq_false_of_ne hr
        simp only [ge_iff_le, h0, hb, decide_True, Bool.and_self, h1, h2, if_true,
          Bool.false_eq_true, if_false]
        exact unchanged_effect MAX_MOUSE_BUTTONS m_mouse_buttons button action _
          (Or.inr ⟨hp, hr⟩)
  · have hd : (decide (button ≥ 0) && decide (button < MAX_MOUSE_BUTTONS)) = false := by
      simp only [ge_iff_le, Bool.and_eq_false_imp, decide_eq_true_eq, decide_eq_false_iff_not]
      exact fun h0 hb => hin ⟨h0, hb⟩
    simp only [hd, Bool.false_eq_true, if_false]
    exact unchanged_effect MAX_MOUSE_BUTTONS m_mouse_buttons button action _ (Or.inl hin)

/-- C28: for every key, action and mode, `key_callback` changes the key-state array only
at index `key` and only when `key` is at least 0 and below `MAX_KEYS`: to true on
`GLFW_PRESS`, to false on `GLFW_RELEASE`; for a key outside the bound, such as the
unknown key -1, or another action, such as `GLFW_REPEAT`, the array is unchanged and no
element is accessed.  `mouse_button_callback` does the same for the mouse-button array
with the bound `MAX_MOUSE_BUTTONS`. -/
theorem input_callbacks_array_effect (MAX_KEYS MAX_MOUSE_BUTTONS : Int)
    (m_keys m_mouse_buttons : List Bool) (key scancode button action mode : Int) :
    ((Application.key_callback MAX_KEYS m_keys key scancode action mode).state.length =
        m_keys.length ∧
      (∀ i : Nat, (i : Int) ≠ key →
        (Application.key_callback MAX_KEYS m_keys key scancode action mode).state[i]? =
          m_keys[i]?) ∧
      (0 ≤ key → key < MAX_KEYS → action = GLFW_PRESS →
        (Application.key_callback MAX_KEYS m_keys key scancode action mode).state =
          m_keys.set key.toNat true ∧
        (Application.key_callback MAX_KEYS m_keys key scancode action mode).accessed = [key] ∧
        (key.toNat < m_keys.length →
          (Application.key_callback MAX_KEYS m_keys key scancode action mode).state[key.toNat]? =
            some true)) ∧
      (0 ≤ key → key < MAX_KEYS → action = GLFW_RELEASE →
        (Application.key_callback MAX_KEYS m_keys key scancode action mode).state =
          m_keys.set key.toNat false ∧
        (Application.key_callback MAX_KEYS m_keys key scancode action mode).accessed = [key] ∧
        (key.toNat < m_keys.length →
          (Application.key_callback MAX_KEYS m_keys key scancode action mode).state[key.toNat]? =
            some false)) ∧
      (¬ (0 ≤ key ∧ key < MAX_KEYS) ∨ (action ≠ GLFW_PRESS ∧ action ≠ GLFW_RELEASE) →
        (Application.key_callback MAX_KEYS m_keys key scancode action mode).state = m_keys ∧
        (Application.key_callback MAX_KEYS m_keys key scancode action mode).accessed = [])) ∧
    ((Application.key_callback MAX_KEYS m_keys GLFW_KEY_UNKNOWN scancode action mode).state =
        m_keys ∧
      (Application.key_callback MAX_KEYS m_keys GLFW_KEY_UNKNOWN scancode action mode).accessed =
        [] ∧
      (Application.key_callback MAX_KEYS m_keys key scancode GLFW_REPEAT mode).state = m_keys ∧
      (Application.key_callback MAX_KEYS m_keys key scancode GLFW_REPEAT mode).accessed = []) ∧
    ((Application.mouse_button_callback MAX_MOUSE_BUTTONS m_mouse_buttons button action
          mode).state.length = m_mouse_buttons.length ∧
      (∀ i : Nat, (i : Int) ≠ button →
        (Application.mouse_button_callback MAX_MOUSE_BUTTONS m_mouse_buttons button action
          mode).state[i]? = m_mouse_buttons[i]?) ∧
      (0 ≤ button → button < MAX_MOUSE_BUTTONS → action = GLFW_PRESS →
        (Application.mouse_button_callback MAX_MOUSE_BUTTONS m_mouse_buttons button action
          mode).state = m_mouse_buttons.set button.toNat true ∧
        (Application.mouse_button_callback MAX_MOUSE_BUTTONS m_mouse_buttons button action
          mode).accessed = [button] ∧
        (button.toNat < m_mouse_buttons.length →
          (Application.mouse_button_callback MAX_MOUSE_BUTTONS m_mouse_buttons button action
            mode).state[button.toNat]? = some true)) ∧
      (0 ≤ button → button < MAX_MOUSE_BUTTONS → action = GLFW_RELEASE →
        (Application.mouse_button_callback MAX_MOUSE_BUTTONS m_mouse_buttons button action
          mode).state = m_mouse_buttons.set button.toNat false ∧
        (Application.mouse_button_callback MAX_MOUSE_BUTTONS m_mouse_buttons button action
          mode).accessed = [button] ∧
        (button.toNat < m_mouse_buttons.length →
          (Application.mouse_button_callback MAX_MOUSE_BUTTONS m_mouse_buttons button action
            mode).state[button.toNat]? = some false)) ∧
      (¬ (0 ≤ button ∧ button < MAX_MOUSE_BUTTONS) ∨
          (action ≠ GLFW_PRESS ∧ action ≠ GLFW_RELEASE) →
        (Application.mouse_button_callback MAX_MOUSE_BUTTONS m_mouse_buttons button action
          mode).state = m_mouse_buttons ∧
        (Application.mouse_button_callback MAX_MOUSE_BUTTONS m_mouse_buttons button action
          mode).accessed = [])) := by
  have hunknown :=
    (key_callback_effect MAX_KEYS m_keys GLFW_KEY_UNKNOWN scancode action mode).2.2.2.2
      (Or.inl (fun h => absurd h.1 (by decide)))
  have hrepeat := (key_callback_effect MAX_KEYS m_keys key scancode GLFW_REPEAT mode).2.2.2.2
    (Or.inr ⟨by decide, by decide⟩)
  exact ⟨key_callback_effect MAX_KEYS m_keys key scancode action mode,
    ⟨hunknown.1, hunknown.2, hrepeat.1, hrepeat.2⟩,
    mouse_button_callback_effect MAX_MOUSE_BUTTONS m_mouse_buttons button action mode⟩

theorem input_callbacks_array_effect_witness :
    ((Application.key_callback 4 [false, false, false, false] 2 0 GLFW_PRESS 0).state =
        [false, false, true, false] ∧
      (Application.key_callback 4 [false, false, false, false] 2 0 GLFW_PRESS 0).accessed =
        [2]) ∧
    ((Application.mouse_button_callback 3 [true, true, true] 1 GLFW_RELEASE 0).state =
        [true, false, true] ∧
      (Application.mouse_button_callback 3 [true, true, true] 1 GLFW_RELEASE 0).accessed =
        [1]) ∧
    ((Application.key_callback 4 [false, false, false, false] 4 0 GLFW_PRESS 0).state =
        [false, false, false, false] ∧
      (Application.key_callback 4 [false, false, false, false] 4 0 GLFW_PRESS 0).accessed =
        []) :=
  ⟨⟨((input_callbacks_array_effect 4 3 [false, false, false, false] [true, true, true] 2 0 1
        GLFW_PRESS 0).1.2.2.1 (by decide) (by decide) rfl).1,
    ((input_callbacks_array_effect 4 3 [false, false, false, false] [true, true, true] 2 0 1
        GLFW_PRESS 0).1.2.2.1 (by decide) (by decide) rfl).2.1⟩,
   ⟨((input_callbacks_array_effect 4 3 [false, false, false, false] [true, true, true] 2 0 1
        GLFW_RELEASE 0).2.2.2.2.2.1 (by decide) (by decide) rfl).1,
    ((input_callbacks_array_effect 4 3 [false, false, false, false] [true, true, true] 2 0 1
        GLFW_RELEASE 0).2.2.2.2.2.1 (by decide) (by decide) rfl).2.1⟩,
   (input_callbacks_array_effect 4 3 [false, false, false, false] [true, true, true] 4 0 1
        GLFW_PRESS 0).1.2.2.2.2 (Or.inl (by decide))⟩

/-! ## The OpenGL Sample -/

namespace mymain

/-- C29: in the OpenGL Sample, `init` returns true exactly when `create_shaders` and
`load_mesh` both succeed.  `create_shaders` returns false when either shader fails to
load, and then `Program::create` is not called, or when the program is not created;
otherwise it returns true.  `load_mesh` returns false exactly when `Mesh::load` yields
null.  When `create_shaders` fails, `init` creates no uniform buffer, loads no mesh and
creates no camera. -/
theorem init_true_iff_shaders_and_mesh (env : InitEnv) :
    ((Sample.init env).2 = true ↔
      (Sample.create_shaders env).2 = true ∧ (Sample.load_mesh env).2 = true) ∧
    (env.vs = none ∨ env.fs = none →
      (Sample.create_shaders env).2 = false ∧
      Event.external "Program::create" ∉ (Sample.create_shaders env).1) ∧
    (env.vs ≠ none → env.fs ≠ none → env.program = none →
      (Sample.create_shaders env).2 = false) ∧
    ((Sample.create_shaders env).2 = true ↔
      env.vs ≠ none ∧ env.fs ≠ none ∧ env.program ≠ none) ∧
    ((Sample.load_mesh env).2 = false ↔ env.mesh = none) ∧
    ((Sample.create_shaders env).2 = false →
      Event.external "Buffer::create" ∉ (Sample.init env).1 ∧
      Event.external "Mesh::load" ∉ (Sample.init env).1 ∧
      Event.external "std::make_unique<dw::Camera>" ∉ (Sample.init env).1) := by
  obtain ⟨vs, fs, program, mesh⟩ := env
  cases vs <;> cases fs <;> cases program <;> cases mesh <;>
    simp [Sample.init, Sample.create_shaders, Sample.load_mesh, Sample.create_uniform_buffer,
      Sample.set_initial_states, Sample.create_camera]

theorem init_true_iff_shaders_and_mesh_witness :
    ((Sample.create_shaders ⟨none, some 2, some 3, some 4⟩).2 = false ∧
      Event.external "Program::create" ∉
        (Sample.create_shaders ⟨none, some 2, some 3, some 4⟩).1) ∧
    (Sample.create_shaders ⟨some 1, some 2, none, some 4⟩).2 = false ∧
    (Event.external "Buffer::create" ∉ (Sample.init ⟨some 1, some 2, none, some 4⟩).1 ∧
      Event.external "Mesh::load" ∉ (Sample.init ⟨some 1, some 2, none, some 4⟩).1 ∧
      Event.external "std::make_unique<dw::Camera>" ∉
        (Sample.init ⟨some 1, some 2, none, some 4⟩).1) ∧
    (Sample.init ⟨some 1, some 2, some 3, some 4⟩).2 = true :=
  ⟨(init_true_iff_shaders_and_mesh ⟨none, some 2, some 3, some 4⟩).2.1 (Or.inl rfl),
   (init_true_iff_shaders_and_mesh ⟨some 1, some 2, none, some 4⟩).2.2.1 (by decide)
     (by decide) rfl,
   (init_true_iff_shaders_and_mesh ⟨some 1, some 2, none, some 4⟩).2.2.2.2.2 (by decide),
   (init_true_iff_shaders_and_mesh ⟨some 1, some 2, some 3, some 4⟩).1.mpr
     ⟨by decide, by decide⟩⟩

end mymain

/-! ## recreate_swapchain and wait_idle with every registered callback -/

namespace callbacks

/-- A stretch of a trace that neither submits nor recreates the swapchain from the frame
code leaves the scan as it was. -/
theorem quiet_trace (t : List Call)
    (hsub : ∀ c ∈ t, c.event.is_submission = false)
    (hrec : ∀ c ∈ t, ¬ (c.origin = .framework ∧ c.event.is_recreate_swapchain = true)) :
    ∀ idle, recreate_guarded idle t = true ∧ (idle = true → idle_after idle t = true) := by
  intro idle
  refine ⟨recreate_guarded_of_no_framework_recreate t hrec idle, ?_⟩
  intro h
  subst h
  exact idle_after_true_of_no_submission t hsub

theorem quiet_by_subclass (es : List Event) (h : ∀ e ∈ es, e.is_submission = false) :
    (∀ c ∈ by_subclass es, c.event.is_submission = false) ∧
    (∀ c ∈ by_subclass es,
      ¬ (c.origin = .framework ∧ c.event.is_recreate_swapchain = true)) := by
  constructor
  · intro c hc
    simp only [by_subclass, List.mem_map] at hc
    obtain ⟨e, he, rfl⟩ := hc
    exact h e he
  · intro c hc
    simp only [by_subclass, List.mem_map] at hc
    obtain ⟨e, _, rfl⟩ := hc
    simp

theorem quiet_external (name : String) :
    (fw (.external name)).event.is_submission = false ∧
    ¬ ((fw (.external name)).origin = .framework ∧
      (fw (.external name)).event.is_recreate_swapchain = true) := by
  simp [fw, Event.is_submission, Event.is_recreate_swapchain]

/-- The calls of a callback other than the window-size one neither submit nor recreate
the swapchain, when the input hooks submit nothing. -/
theorem dispatch_quiet (cls : AppClass)
    (hkey : ∀ (a : Application) (code : Int),
      (∀ e ∈ cls.key_pressed a code, e.is_submission = false) ∧
      (∀ e ∈ cls.key_released a code, e.is_submission = false) ∧
      (∀ e ∈ cls.mouse_pressed a code, e.is_submission = false) ∧
      (∀ e ∈ cls.mouse_released a code, e.is_submission = false))
    (hmove : ∀ a : Application,
      (∀ e ∈ cls.mouse_move a, e.is_submission = false) ∧
      (∀ e ∈ cls.mouse_scrolled a, e.is_submission = false))
    (app : Application) (e : InputEvent)
    (he : ∀ width height : Int, e ≠ .window_size width height) :
    (Application.dispatch cls app e).1 = app ∧
    (∀ c ∈ (Application.dispatch cls app e).2, c.event.is_submission = false) ∧
    (∀ c ∈ (Application.dispatch cls app e).2,
      ¬ (c.origin = .framework ∧ c.event.is_recreate_swapchain = true)) := by
  have hext := quiet_external
  have hq : ∀ es : List Event, (∀ x ∈ es, x.is_submission = false) →
      ∀ c ∈ by_subclass es, c.event.is_submission = false ∧
        ¬ (c.origin = .framework ∧ c.event.is_recreate_swapchain = true) :=
    fun es h c hc => ⟨(quiet_by_subclass es h).1 c hc, (quiet_by_subclass es h).2 c hc⟩
  have hall : ∀ c ∈ (Application.dispatch cls app e).2, c.event.is_submission = false ∧
      ¬ (c.origin = .framework ∧ c.event.is_recreate_swapchain = true) := by
    cases e with
    | window_size width height => exact absurd rfl (he width height)
    | key key scancode action mode =>
      intro c hc
      simp only [Application.dispatch, Application.key_callback, List.mem_append] at hc
      rcases hc with ((hc | hc) | hc) | hc
      · split_ifs at hc
        · simp only [List.mem_singleton] at hc
          subst hc
          exact hext _
        · simp at hc
      · simp only [List.mem_singleton] at hc
        subst hc
        exact hext _
      · split_ifs at hc
        · simp only [List.mem_singleton] at hc
          subst hc
          exact hext _
        · simp at hc
      · split_ifs at hc
        · exact hq _ (hkey app key).1 c hc
        · exact hq _ (hkey app key).2.1 c hc
        · simp at hc
        · simp at hc
    | cursor_pos =>
      intro c hc
      simp only [Application.dispatch, Application.mouse_callback, List.mem_append] at hc
      rcases hc with hc | hc
      · simp only [List.mem_singleton] at hc
        subst hc
        exact hext _
      · exact hq _ (hmove app).1 c hc
    | scroll =>
      intro c hc
      simp only [Application.dispatch, Application.scroll_callback, List.mem_append] at hc
      rcases hc with (hc | hc) | hc
      · split_ifs at hc
        · simp only [List.mem_singleton] at hc
          subst hc
          exact hext _
        · simp at hc
      · simp only [List.mem_singleton] at hc
        subst hc
        exact hext _
      · exact hq _ (hmove app).2 c hc
    | mouse_button button action mods =>
      intro c hc
      simp only [Application.dispatch, Application.mouse_button_callback,
        List.mem_append] at hc
      rcases hc with (hc | hc) | hc
      · split_ifs at hc
        · simp only [List.mem_singleton] at hc
          subst hc
          exact hext _
        · simp at hc
      · simp only [List.mem_singleton] at hc
        subst hc
        exact hext _
      · split_ifs at hc
        · exact hq _ (hkey app button).2.2.1 c hc
        · exact hq _ (hkey app button).2.2.2 c hc
        · simp at hc
        · simp at hc
    | char codepoint =>
      intro c hc
      simp only [Application.dispatch, Application.char_callback] at hc
      split_ifs at hc
      · simp only [List.mem_singleton] at hc
        subst hc
        exact hext _
      · simp at hc
  refine ⟨?_, fun c hc => (hall c hc).1, fun c hc => (hall c hc).2⟩
  cases e with
  | window_size width height => exact absurd rfl (he width height)
  | key key scancode action mode => rfl
  | cursor_pos => rfl
  | scroll => rfl
  | mouse_button button action mods => rfl
  | char codepoint => rfl

theorem poll_all_events_idle (cls : AppClass)
    (hhook : ∀ (a : Application) (w h : Int), ∃ pre post,
      cls.window_resized a w h = pre ++ .wait_idle :: post ∧
        ∀ e ∈ post, e.is_submission = false)
    (hkey : ∀ (a : Application) (code : Int),
      (∀ e ∈ cls.key_pressed a code, e.is_submission = false) ∧
      (∀ e ∈ cls.key_released a code, e.is_submission = false) ∧
      (∀ e ∈ cls.mouse_pressed a code, e.is_submission = false) ∧
      (∀ e ∈ cls.mouse_released a code, e.is_submission = false))
    (hmove : ∀ a : Application,
      (∀ e ∈ cls.mouse_move a, e.is_submission = false) ∧
      (∀ e ∈ cls.mouse_scrolled a, e.is_submission = false))
    (events : List InputEvent) :
    ∀ (app : Application) (idle : Bool),
      recreate_guarded idle (Application.poll_events cls app events).2 = true ∧
      ((Application.poll_events cls app events).1.m_should_recreate_swap_chain = true →
        app.m_should_recreate_swap_chain = true ∨
          idle_after idle (Application.poll_events cls app events).2 = true) ∧
      (idle = true → idle_after idle (Application.poll_events cls app events).2 = true) := by
  induction events with
  | nil =>
    intro app idle
    exact ⟨rfl, fun h => Or.inl h, fun h => h⟩
  | cons e rest ih =>
    intro app idle
    by_cases hw : ∃ width height : Int, e = .window_size width height
    · obtain ⟨w, h, rfl⟩ := hw
      obtain ⟨pre, post, hes, hpost⟩ := hhook
        { app with m_width := w, m_height := h, m_should_recreate_swap_chain := true } w h
      have hidle : idle_after idle (Application.window_size_callback cls app w h).2 = true := by
        simp only [Application.window_size_callback]
        rw [idle_after_append]
        exact idle_after_hook _ pre post _ hes hpost
      have hguard : recreate_guarded idle (Application.window_size_callback cls app w h).2 =
          true := by
        simp only [Application.window_size_callback]
        rw [recreate_guarded_append, recreate_guarded_by_subclass, Bool.and_true]
        simp [recreate_guarded, fw, Event.is_recreate_swapchain]
      obtain ⟨ihg, _, ihi⟩ := ih (Application.window_size_callback cls app w h).1 true
      simp only [Application.poll_events, Application.dispatch]
      rw [recreate_guarded_append, idle_after_append, hidle, hguard, ihg]
      exact ⟨rfl, fun _ => Or.inr (ihi rfl), fun _ => ihi rfl⟩
    · have hne : ∀ width height : Int, e ≠ .window_size width height :=
        fun width height h => hw ⟨width, height, h⟩
      obtain ⟨happ, hsub, hrec⟩ := dispatch_quiet cls hkey hmove app e hne
      obtain ⟨hq1, hq2⟩ := quiet_trace _ hsub hrec idle
      obtain ⟨ihg, ihf, ihi⟩ := ih app (idle_after idle (Application.dispatch cls app e).2)
      simp only [Application.poll_events]
      rw [happ, recreate_guarded_append, idle_after_append, hq1, ihg]
      exact ⟨rfl, ihf, fun h => ihi (hq2 h)⟩

theorem update_base_guarded_all_events (cls : AppClass)
    (hhook : ∀ (a : Application) (w h : Int), ∃ pre post,
      cls.window_resized a w h = pre ++ .wait_idle :: post ∧
        ∀ e ∈ post, e.is_submission = false)
    (hkey : ∀ (a : Application) (code : Int),
      (∀ e ∈ cls.key_pressed a code, e.is_submission = false) ∧
      (∀ e ∈ cls.key_released a code, e.is_submission = false) ∧
      (∀ e ∈ cls.mouse_pressed a code, e.is_submission = false) ∧
      (∀ e ∈ cls.mouse_released a code, e.is_submission = false))
    (hmove : ∀ a : Application,
      (∀ e ∈ cls.mouse_move a, e.is_submission = false) ∧
      (∀ e ∈ cls.mouse_scrolled a, e.is_submission = false))
    (app : Application) (input : FrameInput) (idle : Bool)
    (hflag : app.m_should_recreate_swap_chain = false) :
    recreate_guarded idle (Application.update_base cls app input).2 = true ∧
      (Application.update_base cls app input).1.m_should_recreate_swap_chain = false := by
  obtain ⟨hg, hflag2, _⟩ := poll_all_events_idle cls hhook hkey hmove input.events app idle
  simp only [Application.update_base, Application.begin_frame]
  generalize Application.poll_events cls app input.events = polled at hg hflag2 ⊢
  obtain ⟨app1, calls⟩ := polled
  simp only at hg hflag2 ⊢
  have htimer : ∀ i t, recreate_guarded i
      ([fw (.external "m_timer.start"), fw (.external "glfwPollEvents")] ++ t) =
        recreate_guarded i t := by
    intro i t
    simp [recreate_guarded, fw, Event.is_recreate_swapchain, idle_after_call,
      Event.is_submission]
  cases hf : app1.m_should_recreate_swap_chain
  · simp only [Bool.false_eq_true, if_false, List.append_nil, List.append_assoc]
    refine ⟨?_, hf⟩
    rw [htimer, recreate_guarded_append, hg, Bool.true_and]
    have := framework_tail_guarded cls.toAppClass app1 input.base (idle_after idle calls)
    simpa [List.append_assoc] using this
  · have hidle : idle_after idle calls = true := by
      rcases hflag2 hf with h | h
      · rw [hflag] at h
        exact absurd h (by decide)
      · exact h
    simp only [if_true, List.append_assoc]
    refine ⟨?_, trivial⟩
    rw [htimer, recreate_guarded_append, hg, Bool.true_and]
    simp only [List.cons_append, List.nil_append, recreate_guarded, hidle]
    have := framework_tail_guarded cls.toAppClass
      { app1 with m_should_recreate_swap_chain := false }
      input.base (idle_after_call true (fw (.recreate_swapchain app1.m_vsync)))
    simp only [List.cons_append, List.nil_append, List.append_assoc, recreate_guarded] at this
    simpa [fw, Event.is_recreate_swapchain] using this

theorem frame_loop_guarded_all_events (cls : AppClass)
    (hhook : ∀ (a : Application) (w h : Int), ∃ pre post,
      cls.window_resized a w h = pre ++ .wait_idle :: post ∧
        ∀ e ∈ post, e.is_submission = false)
    (hkey : ∀ (a : Application) (code : Int),
      (∀ e ∈ cls.key_pressed a code, e.is_submission = false) ∧
      (∀ e ∈ cls.key_released a code, e.is_submission = false) ∧
      (∀ e ∈ cls.mouse_pressed a code, e.is_submission = false) ∧
      (∀ e ∈ cls.mouse_released a code, e.is_submission = false))
    (hmove : ∀ a : Application,
      (∀ e ∈ cls.mouse_move a, e.is_submission = false) ∧
      (∀ e ∈ cls.mouse_scrolled a, e.is_submission = false))
    (inputs : List FrameInput) :
    ∀ (app : Application) (idle : Bool), app.m_should_recreate_swap_chain = false →
      recreate_guarded idle (Application.frame_loop cls app inputs).2 = true := by
  induction inputs with
  | nil => exact fun _ _ _ => rfl
  | cons input rest ih =>
    intro app idle hflag
    obtain ⟨hg, hf⟩ := update_base_guarded_all_events cls hhook hkey hmove app input idle hflag
    simp only [Application.frame_loop]
    rw [recreate_guarded_append, hg, ih _ _ hf]
    rfl

/-- The ray-tracing Sample overrides no input hook, so with every registered callback
delivered, whatever the two array bounds are, each `recreate_swapchain` of its frame
loop still has the `wait_idle` of `Sample::window_resized` before it with no
submission between. -/
theorem sample_frame_loop_guarded_all_events (dwsf_imgui : Bool) (init_calls : List Event)
    (init_result : Bool) (MAX_KEYS MAX_MOUSE_BUTTONS : Int) (app : Application)
    (inputs : List FrameInput) (hflag : app.m_should_recreate_swap_chain = false) :
    recreate_guarded false
      (Application.frame_loop
        (AppClass.inherited_input (Sample.class dwsf_imgui init_calls init_result) MAX_KEYS
          MAX_MOUSE_BUTTONS) app inputs).2 = true :=
  frame_loop_guarded_all_events _ (fun a w h => sample_window_resized_waits a w h)
    (fun _ _ => ⟨by simp [AppClass.inherited_input], by simp [AppClass.inherited_input],
      by simp [AppClass.inherited_input], by simp [AppClass.inherited_input]⟩)
    (fun _ => ⟨by simp [AppClass.inherited_input], by simp [AppClass.inherited_input]⟩)
    inputs app false hflag

/-- The condition on the input hooks is needed: with a subclass whose `window_resized`
waits for the device but whose `key_pressed` submits, a key press delivered after the
resize notification in the same `glfwPollEvents` puts a submission between the
`wait_idle` and the `recreate_swapchain`. -/
theorem key_pressed_submission_after_wait_idle :
    recreate_guarded false
        (Application.frame_loop example_class_submitting_on_key example_app
          example_frame_resize_then_key).2 = false ∧
    List.Sublist
      [(⟨.subclass, .wait_idle⟩ : Call), ⟨.subclass, .flush_graphics [7]⟩,
       fw (.recreate_swapchain true)]
      (Application.frame_loop example_class_submitting_on_key example_app
        example_frame_resize_then_key).2 ∧
    ((Application.frame_loop example_class_submitting_on_key example_app
        example_frame_resize_then_key).2.count ⟨.subclass, .wait_idle⟩ = 1) := by
  decide

end callbacks

end dw
